import Mathlib

/-!
# Mysterium node: CLI identity commands, desktop dependency wiring, mobile entrypoint

A shallow embedding of

* `cmd/commands/cli/command_identities.go` (`settle`, `setBeneficiary`, `registerIdentity`),
* `cmd/di_desktop.go` (`bootstrapServices`, `bootstrapServiceComponents`,
  `bootstrapProviderRegistrar`, `bootstrapHermesPromiseSettler`),
* `core/node/options.go` (`GetOptions`, the part read by the functions above),
* `mobile/mysterium/entrypoint.go` (`NewNode`, `Connect`, `Reconnect`, `Disconnect`,
  `RegisterIdentity`, `ImportIdentity`).

Effects are made explicit.  A command returns the ordered trace of what it printed and which
collaborator it called, together with how it stopped.  Collaborators that live outside these
files (the tequilapi client, the configuration, the connection manager ...) are fields of an
environment record; a Go multi-value return `(v, err)` is kept as a pair, because the code
sometimes reads `v` after a non-nil `err`.

Four components have no source file here: the tequilapi transactor endpoints (only their
test is present), the payment engine, the promise settler and the identity registrar.  They
are modelled from the specification; each such definition says so in its first words.
-/

namespace Node

/-! ## Go values shared by all parts -/

/-- A Go `error` value.  `new id msg` is a value made by `errors.New`; `id` stands for its
pointer identity, so two sentinels with the same text are still different errors.
`wrap msg cause` is `errors.Wrap(cause, msg)` or `fmt.Errorf(msg + ": %w", cause)`. -/
inductive GoError where
  | new (id : Nat) (msg : String)
  | wrap (msg : String) (cause : GoError)
  deriving DecidableEq, Repr

/-- The text of `err.Error()`. -/
def GoError.Error : GoError → String
  | .new _ msg => msg
  | .wrap msg cause => msg ++ ": " ++ cause.Error

/-- The standard `errors.Is(err, target)`: walks the `Unwrap` chain comparing with `==`. -/
def errorsIs : GoError → GoError → Bool
  | .new id msg, target => decide (GoError.new id msg = target)
  | .wrap msg cause, target => decide (GoError.wrap msg cause = target) || errorsIs cause target

/-- The struct `identity.Identity`. -/
structure Identity where
  Address : String
  deriving DecidableEq, Repr

/-- How a modelled function stopped: it returned, it is still blocked in its `select`
(the schedule of events it was given is exhausted), or it panicked. -/
inductive Exit where
  | returned
  | waiting
  | panicked
  deriving DecidableEq, Repr

/-! ## `cmd/commands/cli/command_identities.go` -/

/-- One operand of a variadic `clio`/`fmt` print call: a string or an error value. -/
inductive Arg where
  | str (s : String)
  | err (e : GoError)
  deriving DecidableEq, Repr

/-- The observable steps of a CLI command, in program order: what it prints through
`clio` and `fmt`, and the tequilapi calls it makes. -/
inductive Out where
  | info (args : List Arg)
  | warn (args : List Arg)
  | success (args : List Arg)
  | print (s : String)
  | println (args : List Arg)
  | callGetTransactorFees
  | callSettle (provider hermes : Identity) (blocking : Bool)
  | callSettleWithBeneficiary (address beneficiary hermesID : String)
  | callBeneficiary (address : String)
  | callRegisterIdentity (address beneficiary : String) (stake : Option Int) (token : Option String)
  deriving DecidableEq, Repr

/-- The fields of `contract.FeesDTO` read by `settle`.  `Settlement` is a `*big.Int`
(`none` is the nil pointer), `Hermes` is an unsigned 16-bit number. -/
structure FeesDTO where
  Settlement : Option Int
  Hermes : Nat
  deriving DecidableEq, Repr

/-- The struct `contract.IdentityBeneficiaryResponse`. -/
structure IdentityBeneficiaryResponse where
  Beneficiary : String
  deriving DecidableEq, Repr

/-- The configuration flags of package `config` named by the modelled code. -/
inductive Flag where
  | FlagTestnet
  | FlagLocalnet
  | FlagTestnet2
  | FlagNATPunching
  | FlagAPIAddress
  | FlagBrokerAddress
  | FlagEtherRPC
  | FlagChainID
  | FlagTequilapiAddress
  | FlagTequilapiPort
  | FlagBindAddress
  | FlagFeedbackURL
  | FlagTransactorIdentity
  | FlagTransactorAddress
  | FlagTransactorProviderMaxRegistrationAttempts
  | FlagTransactorProviderRegistrationRetryDelay
  | FlagTransactorProviderRegistrationStake
  | FlagPaymentsMaxHermesFee
  | FlagPaymentsBCTimeout
  | FlagPaymentsHermesPromiseSettleThreshold
  | FlagPaymentsHermesPromiseSettleTimeout
  | FlagPaymentsConsumerPricePerGBUpperBound
  | FlagPaymentsConsumerPricePerGBLowerBound
  | FlagPaymentsConsumerPricePerMinuteUpperBound
  | FlagPaymentsConsumerPricePerMinuteLowerBound
  | FlagPaymentsConsumerDataLeewayMegabytes
  | FlagPaymentsProviderInvoiceFrequency
  | FlagPaymentsMaxUnpaidInvoiceValue
  | FlagPaymentsHermesStatusRecheckInterval
  | FlagConsumer
  | FlagPilvytisAddress
  | FlagKeepConnectedOnFail
  | FlagDefaultCurrency
  deriving DecidableEq, Repr

/-- Everything the CLI commands reach outside `command_identities.go`. -/
structure CliEnv where
  /-- The function `identity.FromAddress`. -/
  FromAddress : String → Identity
  /-- The result of `c.config.GetHermesID()`. -/
  GetHermesID : String × Option GoError
  /-- The result of `c.tequilapi.GetTransactorFees()`. -/
  GetTransactorFees : FeesDTO × Option GoError
  /-- The text of `new(big.Float).Quo(new(big.Float).SetInt(x), new(big.Float).SetInt(money.MystSize)).String()`. -/
  mystString : Int → String
  /-- The value `c.tequilapi.Settle` returns, when it returns. -/
  Settle : Identity → Identity → Bool → Option GoError
  /-- The result of `c.tequilapi.SettleWithBeneficiary`. -/
  SettleWithBeneficiary : String → String → String → Option GoError
  /-- The function `strings.EqualFold`. -/
  EqualFold : String → String → Bool
  /-- The result of `c.tequilapi.RegisterIdentity`. -/
  RegisterIdentity : String → String → Option Int → Option String → Option GoError
  /-- The function `c.config.GetBoolByFlag`. -/
  GetBoolByFlag : Flag → Bool

def usageGetIdentity : String := "get <identity>"

def usageRegisterIdentity : String := "register <identity> [stake] [beneficiary] [referralcode]"

def usageSettle : String := "settle <providerIdentity>"

def usageSetBeneficiary : String := "beneficiary <identity> <new beneficiary>"

/-- The case of the `select` in `settle` that is taken at one iteration: the channel of
`time.After(time.Minute * 2)`, the channel of `time.After(time.Millisecond * 500)`, or `errChan`. -/
inductive SettleSelect where
  | timeout
  | tick
  | result
  deriving DecidableEq, Repr

/-- The `for { select { ... } }` loop of `settle`.  `res` is what the goroutine sends on
`errChan`, `sched` lists the cases taken, one per iteration. -/
def settleWait (res : Option GoError) : List SettleSelect → List Out × Exit
  | [] => ([], .waiting)
  | .timeout :: _ => ([.println [], .warn [.str "Settlement timed out"]], .returned)
  | .tick :: rest =>
    let r := settleWait res rest
    (.print "." :: r.1, r.2)
  | .result :: _ =>
    match res with
    | some e => ([.println [], .warn [.str "settlement failed: ", .str e.Error]], .returned)
    | none => ([.println [], .info [.str "settlement succeeded"]], .returned)

/-- The command `cliApp.settle`. -/
def settle (env : CliEnv) (args : List String) (sched : List SettleSelect) : List Out × Exit :=
  match args with
  | [provider] =>
    match env.GetHermesID with
    | (_, some err) => ([.warn [.str "could not get hermes id: ", .err err]], .returned)
    | (hermesID, none) =>
      let provider := env.FromAddress provider
      let hermes := env.FromAddress hermesID
      let r := settleWait (env.Settle provider hermes true) sched
      (.info [.str "Waiting for settlement to complete"] :: .callSettle provider hermes true :: r.1, r.2)
  | _ =>
    let head : List Out := [.info [.str ("Usage: " ++ usageSettle)], .callGetTransactorFees]
    let fees := env.GetTransactorFees.1
    let warned : List Out :=
      match env.GetTransactorFees.2 with
      | some err => [.warn [.str "could not get transactor fee: ", .err err]]
      | none => []
    match fees.Settlement with
    | none => (head ++ warned, .panicked)
    | some settlement =>
      (head ++ warned ++
        [.info [.str ("Transactor fee: " ++ env.mystString settlement ++ " MYST")],
         .info [.str ("Hermes fee: " ++ env.mystString (Int.ofNat fees.Hermes) ++ " MYST")]],
       .returned)

/-- The case of the `select` in `setBeneficiary` that is taken at one iteration: the channel
of `time.After(1 * time.Minute)`, or the channel of `time.After(time.Second)`.  In the second
case the body polls `c.tequilapi.Beneficiary(address)`; the event carries both values of
that call. -/
inductive BeneficiarySelect where
  | timeout
  | tick (data : IdentityBeneficiaryResponse) (err : Option GoError)
  deriving DecidableEq, Repr

/-- The `for { select { ... } }` loop of `setBeneficiary`. -/
def beneficiaryWait (env : CliEnv) (address beneficiary : String) :
    List BeneficiarySelect → List Out × Exit
  | [] => ([], .waiting)
  | .timeout :: _ => ([.warn [.str "Setting new beneficiary timed out"]], .returned)
  | .tick data err :: rest =>
    let warned : List Out :=
      match err with
      | some e => [.warn [.err e]]
      | none => []
    if env.EqualFold data.Beneficiary beneficiary then
      (.callBeneficiary address :: warned ++ [.success [.str "New beneficiary address set"]],
       .returned)
    else
      let r := beneficiaryWait env address beneficiary rest
      (.callBeneficiary address :: warned ++ .print "." :: r.1, r.2)

/-- The part of `setBeneficiary` after the argument count check. -/
def setBeneficiaryChecked (env : CliEnv) (address beneficiary : String)
    (sched : List BeneficiarySelect) : List Out × Exit :=
  match env.GetHermesID with
  | (_, some err) => ([.warn [.err (.wrap "could not get hermes id" err)]], .returned)
  | (hermesID, none) =>
    let call : Out := .callSettleWithBeneficiary address beneficiary hermesID
    match env.SettleWithBeneficiary address beneficiary hermesID with
    | some err => ([call, .warn [.err (.wrap "could not set beneficiary" err)]], .returned)
    | none =>
      let r := beneficiaryWait env address beneficiary sched
      (call :: .info [.str "Waiting for new beneficiary to be set"] :: r.1, r.2)

/-- The command `cliApp.setBeneficiary`.  The two list shapes are
`len(actionArgs) == 2` and `len(actionArgs) == 3`. -/
def setBeneficiary (env : CliEnv) (actionArgs : List String)
    (sched : List BeneficiarySelect) : List Out × Exit :=
  match actionArgs with
  | [address, beneficiary] => setBeneficiaryChecked env address beneficiary sched
  | [address, beneficiary, _] => setBeneficiaryChecked env address beneficiary sched
  | _ => ([.info [.str ("Usage: " ++ usageSetBeneficiary)]], .returned)

/-- Decimal digits to a number; `none` for the empty list and for any non-digit. -/
def decimalDigits : List Char → Option Nat
  | [] => none
  | cs => cs.foldl
      (fun acc c => acc.bind fun n => if c.isDigit then some (n * 10 + (c.toNat - 48)) else none)
      (some 0)

/-- The call `new(big.Int).SetString(s, 10)` of `math/big`: an optional sign followed by
at least one decimal digit and nothing else.  `none` is the result `(nil, false)`. -/
def bigIntSetString (s : String) : Option Int :=
  match s.toList with
  | '-' :: cs => (decimalDigits cs).map fun n => -(Int.ofNat n)
  | '+' :: cs => (decimalDigits cs).map Int.ofNat
  | cs => (decimalDigits cs).map Int.ofNat

/-- The command `cliApp.registerIdentity`.  `actionArgs[i]?` is `none` exactly when
`len(actionArgs) >= i + 1` is false. -/
def registerIdentity (env : CliEnv) (actionArgs : List String) : List Out × Exit :=
  if actionArgs.length < 1 || actionArgs.length > 4 then
    ([.info [.str ("Usage: " ++ usageRegisterIdentity)]], .returned)
  else
    let address := actionArgs[0]?.getD ""
    let parsed : List Out × Option Int :=
      match actionArgs[1]? with
      | none => ([], some 0)
      | some a =>
        match bigIntSetString a with
        | none => ([.warn [.str "could not parse stake"]], none)
        | some s => ([], some s)
    let stake := parsed.2
    let beneficiary := actionArgs[2]?.getD ""
    let token := actionArgs[3]?
    let call : Out := .callRegisterIdentity address beneficiary stake token
    match env.RegisterIdentity address beneficiary stake token with
    | some err =>
      (parsed.1 ++ [call, .warn [.err (.wrap "could not register identity" err)]], .returned)
    | none =>
      let msg :=
        if env.GetBoolByFlag .FlagTestnet2 || env.GetBoolByFlag .FlagTestnet then
          "Registration successful, try to connect."
        else
          "Registration started. Topup the identities channel to finish it."
      (parsed.1 ++ [call, .info [.str msg],
        .info [.str ("To explore additional information about the identity use: " ++
          usageGetIdentity)]], .returned)

/-! ## `core/node/options.go` -/

/-- A Go `float64`, carried by its IEEE-754 bit pattern.  The modelled code only copies it. -/
structure Float64 where
  bits : Nat
  deriving DecidableEq, Repr

/-- A Go `time.Duration`: a number of nanoseconds. -/
abbrev Duration := Int

/-- The struct `node.OptionsNetwork`, without its constant `DNSMap`. -/
structure OptionsNetwork where
  Testnet : Bool
  Localnet : Bool
  Testnet2 : Bool
  ExperimentNATPunching : Bool
  MysteriumAPIAddress : String
  BrokerAddresses : List String
  EtherClientRPC : String
  ChainID : Int
  deriving DecidableEq, Repr

/-- The struct `node.OptionsDirectory`: the directories named by the modelled code. -/
structure OptionsDirectory where
  Data : String
  Storage : String
  Keystore : String
  Script : String
  Runtime : String
  deriving DecidableEq, Repr

/-- The getters of package `config` used by `GetOptions`.  `GetBigInt` returns a
`*big.Int`; `none` is the nil pointer.  `GetOptionsDirectory` is the function of that name
in package `node`, which reads the configuration as well. -/
structure Config where
  GetOptionsDirectory : OptionsNetwork → OptionsDirectory
  GetBool : Flag → Bool
  GetString : Flag → String
  GetStringSlice : Flag → List String
  GetInt : Flag → Int
  GetInt64 : Flag → Int
  GetUInt64 : Flag → Nat
  GetFloat64 : Flag → Float64
  GetDuration : Flag → Duration
  GetBigInt : Flag → Option Int

/-- The struct `node.OptionsTransactor`. -/
structure OptionsTransactor where
  Identity : String
  TransactorEndpointAddress : String
  ProviderMaxRegistrationAttempts : Int
  ProviderRegistrationRetryDelay : Duration
  ProviderRegistrationStake : Option Int
  deriving DecidableEq, Repr

/-- The struct `node.OptionsPayments`. -/
structure OptionsPayments where
  MaxAllowedPaymentPercentile : Int
  BCTimeout : Duration
  HermesPromiseSettlingThreshold : Float64
  SettlementTimeout : Duration
  ConsumerUpperGBPriceBound : Option Int
  ConsumerLowerGBPriceBound : Option Int
  ConsumerUpperMinutePriceBound : Option Int
  ConsumerLowerMinutePriceBound : Option Int
  ConsumerDataLeewayMegabytes : Nat
  ProviderInvoiceFrequency : Duration
  MaxUnpaidInvoiceValue : Option Int
  HermesStatusRecheckInterval : Duration
  deriving DecidableEq, Repr

/-- The struct `node.Options`, restricted to the scalar fields and to the four option
groups read or checked by the modelled code.  The remaining groups (UI, keystore, logging,
discovery, quality, location, chains, openvpn, firewall, ports) are read by none of the
functions below. -/
structure Options where
  Directories : OptionsDirectory
  TequilapiAddress : String
  TequilapiPort : Int
  TequilapiEnabled : Bool
  BindAddress : String
  FeedbackURL : String
  OptionsNetwork : OptionsNetwork
  Transactor : OptionsTransactor
  Payments : OptionsPayments
  Consumer : Bool
  PilvytisAddress : String
  deriving DecidableEq, Repr

/-- The function `node.GetOptions`, for the fields of `Options` kept above. -/
def GetOptions (config : Config) : Options :=
  let network : OptionsNetwork :=
    { Testnet := config.GetBool .FlagTestnet
      Localnet := config.GetBool .FlagLocalnet
      Testnet2 := config.GetBool .FlagTestnet2
      ExperimentNATPunching := config.GetBool .FlagNATPunching
      MysteriumAPIAddress := config.GetString .FlagAPIAddress
      BrokerAddresses := config.GetStringSlice .FlagBrokerAddress
      EtherClientRPC := config.GetString .FlagEtherRPC
      ChainID := config.GetInt64 .FlagChainID }
  { Directories := config.GetOptionsDirectory network
    TequilapiAddress := config.GetString .FlagTequilapiAddress
    TequilapiPort := config.GetInt .FlagTequilapiPort
    TequilapiEnabled := true
    BindAddress := config.GetString .FlagBindAddress
    FeedbackURL := config.GetString .FlagFeedbackURL
    OptionsNetwork := network
    Transactor :=
      { Identity := config.GetString .FlagTransactorIdentity
        TransactorEndpointAddress := config.GetString .FlagTransactorAddress
        ProviderMaxRegistrationAttempts :=
          config.GetInt .FlagTransactorProviderMaxRegistrationAttempts
        ProviderRegistrationRetryDelay :=
          config.GetDuration .FlagTransactorProviderRegistrationRetryDelay
        ProviderRegistrationStake := config.GetBigInt .FlagTransactorProviderRegistrationStake }
    Payments :=
      { MaxAllowedPaymentPercentile := config.GetInt .FlagPaymentsMaxHermesFee
        BCTimeout := config.GetDuration .FlagPaymentsBCTimeout
        HermesPromiseSettlingThreshold :=
          config.GetFloat64 .FlagPaymentsHermesPromiseSettleThreshold
        SettlementTimeout := config.GetDuration .FlagPaymentsHermesPromiseSettleTimeout
        ConsumerUpperGBPriceBound := config.GetBigInt .FlagPaymentsConsumerPricePerGBUpperBound
        ConsumerLowerGBPriceBound := config.GetBigInt .FlagPaymentsConsumerPricePerGBLowerBound
        ConsumerUpperMinutePriceBound :=
          config.GetBigInt .FlagPaymentsConsumerPricePerMinuteUpperBound
        ConsumerLowerMinutePriceBound :=
          config.GetBigInt .FlagPaymentsConsumerPricePerMinuteLowerBound
        ConsumerDataLeewayMegabytes := config.GetUInt64 .FlagPaymentsConsumerDataLeewayMegabytes
        ProviderInvoiceFrequency := config.GetDuration .FlagPaymentsProviderInvoiceFrequency
        MaxUnpaidInvoiceValue := config.GetBigInt .FlagPaymentsMaxUnpaidInvoiceValue
        HermesStatusRecheckInterval :=
          config.GetDuration .FlagPaymentsHermesStatusRecheckInterval }
    Consumer := config.GetBool .FlagConsumer
    PilvytisAddress := config.GetString .FlagPilvytisAddress }

/-! ## `cmd/di_desktop.go` -/

/-- The struct `registry.ProviderRegistrarConfig`. -/
structure ProviderRegistrarConfig where
  IsTestnet2 : Bool
  MaxRetries : Int
  Stake : Option Int
  DelayBetweenRetries : Duration
  deriving DecidableEq, Repr

/-- The struct `pingpong.HermesPromiseSettlerConfig`. -/
structure HermesPromiseSettlerConfig where
  Threshold : Float64
  MaxWaitForSettlement : Duration
  deriving DecidableEq, Repr

/-- The object returned by `registry.NewProviderRegistrar`.  Its other constructor
arguments are dependencies already held by `di`; what varies is its configuration. -/
structure ProviderRegistrar where
  cfg : ProviderRegistrarConfig
  deriving DecidableEq, Repr

/-- The object returned by `pingpong.NewHermesChannelRepository`; all its constructor
arguments are dependencies already held by `di`. -/
structure HermesChannelRepository where
  deriving DecidableEq, Repr

/-- The value stored in `di.HermesPromiseSettler`: the `NoopHermesPromiseSettler` of
`pingpong_noop`, or the object returned by `pingpong.NewHermesPromiseSettler` with its
configuration. -/
inductive PromiseSettler where
  | noop
  | settler (cfg : HermesPromiseSettlerConfig)
  deriving DecidableEq, Repr

/-- The constants `service_openvpn.ServiceType`, `service_noop.ServiceType` and
`wireguard.ServiceType`. -/
inductive ServiceType where
  | openvpn
  | noop
  | wireguard
  deriving DecidableEq, Repr

/-- The calls the wiring code makes into other packages, in program order. -/
inductive DICall where
  | NewHermesChannelRepository
  | SubscribeChannelRepository
  | NewHermesPromiseSettler (cfg : HermesPromiseSettlerConfig)
  | SubscribePromiseSettler (cfg : HermesPromiseSettlerConfig)
  | NewProviderRegistrar (cfg : ProviderRegistrarConfig)
  | SubscribeProviderRegistrar (cfg : ProviderRegistrarConfig)
  | NewNATService
  | EnableNATService
  | NewServiceRegistry
  | NewSessionPool
  | NewPolicyOracle
  | StartPolicyOracle
  | NewHermesStatusChecker (recheckInterval : Duration)
  | NewServicesManager
  | SubscribeServiceCleaner
  | RegisterService (serviceType : ServiceType)
  deriving DecidableEq, Repr

/-- The fields of `cmd.Dependencies` written by the modelled functions, and the record of
the calls made so far. -/
structure Dependencies where
  HermesChannelRepository : Option HermesChannelRepository
  HermesPromiseSettler : Option PromiseSettler
  ProviderRegistrar : Option ProviderRegistrar
  calls : List DICall
  deriving DecidableEq, Repr

/-- What the `Subscribe(di.EventBus)` methods of the three wired objects return. -/
structure DIEnv where
  SubscribeChannelRepository : HermesChannelRepository → Option GoError
  SubscribePromiseSettler : HermesPromiseSettlerConfig → Option GoError
  SubscribeProviderRegistrar : ProviderRegistrar → Option GoError

/-- The method `Dependencies.bootstrapProviderRegistrar`: the new state of `di` and the
returned error. -/
def bootstrapProviderRegistrar (env : DIEnv) (di : Dependencies) (nodeOptions : Options) :
    Dependencies × Option GoError :=
  if nodeOptions.Consumer then
    (di, none)
  else
    let cfg : ProviderRegistrarConfig :=
      { IsTestnet2 := nodeOptions.OptionsNetwork.Testnet2
        MaxRetries := nodeOptions.Transactor.ProviderMaxRegistrationAttempts
        Stake := nodeOptions.Transactor.ProviderRegistrationStake
        DelayBetweenRetries := nodeOptions.Transactor.ProviderRegistrationRetryDelay }
    let registrar : ProviderRegistrar := { cfg := cfg }
    ({ di with
        ProviderRegistrar := some registrar
        calls := di.calls ++ [.NewProviderRegistrar cfg, .SubscribeProviderRegistrar cfg] },
     env.SubscribeProviderRegistrar registrar)

/-- The method `Dependencies.bootstrapHermesPromiseSettler`: the new state of `di` and the
returned error. -/
def bootstrapHermesPromiseSettler (env : DIEnv) (di : Dependencies) (nodeOptions : Options) :
    Dependencies × Option GoError :=
  let repository : HermesChannelRepository := {}
  let di1 : Dependencies :=
    { di with
      HermesChannelRepository := some repository
      calls := di.calls ++ [.NewHermesChannelRepository, .SubscribeChannelRepository] }
  match env.SubscribeChannelRepository repository with
  | some err =>
    (di1, some (.wrap "could not subscribe channel repository to relevant events" err))
  | none =>
    if nodeOptions.Consumer then
      ({ di1 with HermesPromiseSettler := some .noop }, none)
    else
      let cfg : HermesPromiseSettlerConfig :=
        { Threshold := nodeOptions.Payments.HermesPromiseSettlingThreshold
          MaxWaitForSettlement := nodeOptions.Payments.SettlementTimeout }
      let di2 : Dependencies :=
        { di1 with
          calls := di1.calls ++ [.NewHermesPromiseSettler cfg, .SubscribePromiseSettler cfg] }
      match env.SubscribePromiseSettler cfg with
      | some err =>
        (di2, some (.wrap "could not subscribe promise settler to relevant events" err))
      | none => ({ di2 with HermesPromiseSettler := some (.settler cfg) }, none)

/-- The method `Dependencies.bootstrapServiceComponents`.  The two errors it can meet
(enabling NAT forwarding, subscribing the service cleaner) are only logged, so they do not
appear here: the method returns nil on every path.  The objects it stores in `di` are
recorded as the calls that build them. -/
def bootstrapServiceComponents (di : Dependencies) (nodeOptions : Options) :
    Dependencies × Option GoError :=
  ({ di with
      calls := di.calls ++
        [.NewNATService, .EnableNATService, .NewServiceRegistry, .NewSessionPool,
         .NewPolicyOracle, .StartPolicyOracle,
         .NewHermesStatusChecker nodeOptions.Payments.HermesStatusRecheckInterval,
         .NewServicesManager, .SubscribeServiceCleaner] },
   none)

/-- The method `Dependencies.bootstrapServiceOpenvpn`: one `ServiceRegistry.Register`. -/
def bootstrapServiceOpenvpn (di : Dependencies) (_nodeOptions : Options) : Dependencies :=
  { di with calls := di.calls ++ [.RegisterService .openvpn] }

/-- The method `Dependencies.bootstrapServiceNoop`: one `ServiceRegistry.Register`. -/
def bootstrapServiceNoop (di : Dependencies) (_nodeOptions : Options) : Dependencies :=
  { di with calls := di.calls ++ [.RegisterService .noop] }

/-- The method `Dependencies.bootstrapServiceWireguard`: one `ServiceRegistry.Register`. -/
def bootstrapServiceWireguard (di : Dependencies) (_nodeOptions : Options) : Dependencies :=
  { di with calls := di.calls ++ [.RegisterService .wireguard] }

/-- The body of `Dependencies.bootstrapServices`, with the method it calls first as an
argument. -/
def bootstrapServicesWith
    (components : Dependencies → Options → Dependencies × Option GoError)
    (di : Dependencies) (nodeOptions : Options) : Dependencies × Option GoError :=
  if nodeOptions.Consumer then
    (di, none)
  else
    match components di nodeOptions with
    | (di1, some err) => (di1, some (.wrap "service bootstrap failed" err))
    | (di1, none) =>
      let di2 := bootstrapServiceOpenvpn di1 nodeOptions
      let di3 := bootstrapServiceNoop di2 nodeOptions
      let di4 := bootstrapServiceWireguard di3 nodeOptions
      (di4, none)

/-- The method `Dependencies.bootstrapServices`. -/
def bootstrapServices (di : Dependencies) (nodeOptions : Options) :
    Dependencies × Option GoError :=
  bootstrapServicesWith bootstrapServiceComponents di nodeOptions

/-! ## `mobile/mysterium/entrypoint.go` -/

/-- What a modelled method hands back: the value it returns, or a run-time panic. -/
inductive Result (α : Type) where
  | returned (value : α)
  | panicked
  deriving DecidableEq, Repr

/-- The struct `ConnectRequest`. -/
structure ConnectRequest where
  IdentityAddress : String
  ProviderID : String
  ServiceType : String
  DNSOption : String
  DisableKillSwitch : Bool
  ForceReconnect : Bool
  deriving DecidableEq, Repr

/-- The struct `ConnectResponse`. -/
structure ConnectResponse where
  ErrorCode : String
  ErrorMessage : String
  deriving DecidableEq, Repr

def connectErrInvalidProposal : String := "InvalidProposal"

def connectErrInsufficientBalance : String := "InsufficientBalance"

def connectErrUnknown : String := "Unknown"

/-- The struct `market.ProposalID`. -/
structure ProposalID where
  ProviderID : String
  ServiceType : String
  deriving DecidableEq, Repr

/-- A value of `market.ServiceProposal`; what `Connect` does with it is pass it on. -/
structure ServiceProposal where
  ProviderID : String
  ServiceType : String
  deriving DecidableEq, Repr

/-- A value of `connection.DNSOption`. -/
structure DNSOption where
  value : String
  deriving DecidableEq, Repr

/-- The struct `connection.ConnectParams`. -/
structure ConnectParams where
  DisableKillSwitch : Bool
  DNS : DNSOption
  deriving DecidableEq, Repr

/-- A value of `common.Address`, the hermes returned by `GetActiveHermes`. -/
structure HermesAddress where
  hex : String
  deriving DecidableEq, Repr

/-- The three stage constants of package `quality` set by `Connect`. -/
inductive Stage where
  | StageGetProposal
  | StageConnectionUnknownError
  | StageConnectionOK
  deriving DecidableEq, Repr

/-- The struct `quality.ConnectionEvent`. -/
structure ConnectionEvent where
  ServiceType : String
  ConsumerID : String
  ProviderID : String
  Stage : Stage
  Error : String
  deriving DecidableEq, Repr

/-- The calls `Connect`, `Disconnect` and `Reconnect` make on the collaborators of the
mobile node, in program order.  `Publish` is always on `quality.AppTopicConnectionEvents`.
Calls to the logger are left out. -/
inductive MobileCall where
  | Proposal (id : ProposalID)
  | Publish (event : ConnectionEvent)
  | NewDNSOption (option : String)
  | GetActiveHermes (chainID : Int)
  | ManagerConnect (consumerID : Identity) (hermesID : HermesAddress)
      (proposal : ServiceProposal) (params : ConnectParams)
  | ManagerDisconnect
  | CheckChannel (timeout : Duration)
  deriving DecidableEq, Repr

/-- The collaborators of the mobile node.  Each answer may depend on every call made
before it (the first argument), so that, for instance, a `Connect` after a `Disconnect`
need not answer like a `Connect` without one. -/
structure MobileEnv where
  /-- The function `identity.FromAddress`. -/
  FromAddress : String → Identity
  /-- The constant `connection.DNSOptionAuto`. -/
  DNSOptionAuto : DNSOption
  /-- The sentinel `connection.ErrInsufficientBalance`. -/
  ErrInsufficientBalance : GoError
  /-- The method `mb.proposalsManager.repository.Proposal`; it returns a pointer, `none`
  is nil. -/
  Proposal : List MobileCall → ProposalID → Option ServiceProposal × Option GoError
  /-- The function `connection.NewDNSOption`. -/
  NewDNSOption : List MobileCall → String → DNSOption × Option GoError
  /-- The method `mb.identityChannelCalculator.GetActiveHermes`. -/
  GetActiveHermes : List MobileCall → Int → HermesAddress × Option GoError
  /-- The method `mb.connectionManager.Connect`. -/
  ManagerConnect : List MobileCall → Identity → HermesAddress → ServiceProposal →
    ConnectParams → Option GoError
  /-- The method `mb.connectionManager.Disconnect`. -/
  ManagerDisconnect : List MobileCall → Option GoError
  /-- The method `mb.connectionManager.CheckChannel`. -/
  CheckChannel : List MobileCall → Duration → Option GoError

/-- The field of `MobileNode` read by `Connect`. -/
structure MobileNode where
  chainID : Int
  deriving DecidableEq, Repr

/-- The method `ConnectRequest.dnsOption`, with the calls made so far. -/
def dnsOption (env : MobileEnv) (cr : ConnectRequest) (past : List MobileCall) :
    (DNSOption × Option GoError) × List MobileCall :=
  if cr.DNSOption.utf8ByteSize > 0 then
    (env.NewDNSOption past cr.DNSOption, past ++ [.NewDNSOption cr.DNSOption])
  else
    ((env.DNSOptionAuto, none), past)

/-- The method `MobileNode.Connect`: its response and the calls made so far, `past`
being the calls made before it started. -/
def Connect (env : MobileEnv) (mb : MobileNode) (req : ConnectRequest)
    (past : List MobileCall) : Result ConnectResponse × List MobileCall :=
  let id : ProposalID := { ProviderID := req.ProviderID, ServiceType := req.ServiceType }
  let lookup := env.Proposal past id
  let t1 := past ++ [.Proposal id]
  let qualityEvent : Stage → String → ConnectionEvent := fun stage error =>
    { ServiceType := req.ServiceType
      ConsumerID := req.IdentityAddress
      ProviderID := req.ProviderID
      Stage := stage
      Error := error }
  match lookup.2 with
  | some err =>
    (.returned { ErrorCode := connectErrInvalidProposal, ErrorMessage := err.Error },
     t1 ++ [.Publish (qualityEvent .StageGetProposal err.Error)])
  | none =>
    let dns := dnsOption env req t1
    let t2 := dns.2
    match dns.1.2 with
    | some err => (.returned { ErrorCode := connectErrUnknown, ErrorMessage := err.Error }, t2)
    | none =>
      let connectOptions : ConnectParams :=
        { DisableKillSwitch := req.DisableKillSwitch, DNS := dns.1.1 }
      let hermes := env.GetActiveHermes t2 mb.chainID
      let t3 := t2 ++ [.GetActiveHermes mb.chainID]
      match hermes.2 with
      | some err => (.returned { ErrorCode := connectErrUnknown, ErrorMessage := err.Error }, t3)
      | none =>
        match lookup.1 with
        | none => (.panicked, t3)
        | some proposal =>
          let consumerID := env.FromAddress req.IdentityAddress
          let t4 := t3 ++ [.ManagerConnect consumerID hermes.1 proposal connectOptions]
          match env.ManagerConnect t3 consumerID hermes.1 proposal connectOptions with
          | some err =>
            let t5 := t4 ++ [.Publish (qualityEvent .StageConnectionUnknownError err.Error)]
            if errorsIs err env.ErrInsufficientBalance then
              (.returned { ErrorCode := connectErrInsufficientBalance, ErrorMessage := "" }, t5)
            else
              (.returned { ErrorCode := connectErrUnknown, ErrorMessage := err.Error }, t5)
          | none =>
            (.returned { ErrorCode := "", ErrorMessage := "" },
             t4 ++ [.Publish (qualityEvent .StageConnectionOK "")])

/-- The method `MobileNode.Disconnect`. -/
def Disconnect (env : MobileEnv) (past : List MobileCall) : Option GoError × List MobileCall :=
  match env.ManagerDisconnect past with
  | some err => (some (.wrap "could not disconnect" err), past ++ [.ManagerDisconnect])
  | none => (none, past ++ [.ManagerDisconnect])

/-- The closure `reconnect` inside `MobileNode.Reconnect`: the error of `Disconnect` is
only logged. -/
def reconnect (env : MobileEnv) (mb : MobileNode) (req : ConnectRequest)
    (past : List MobileCall) : Result ConnectResponse × List MobileCall :=
  Connect env mb req (Disconnect env past).2

/-- The timeout `200 * time.Millisecond` of the channel check, in nanoseconds. -/
def checkChannelTimeout : Duration := 200 * 1000000

/-- The method `MobileNode.Reconnect`. -/
def Reconnect (env : MobileEnv) (mb : MobileNode) (req : ConnectRequest)
    (past : List MobileCall) : Result ConnectResponse × List MobileCall :=
  if req.ForceReconnect then
    reconnect env mb req past
  else
    match env.CheckChannel past checkChannelTimeout with
    | some _ => reconnect env mb req (past ++ [.CheckChannel checkChannelTimeout])
    | none =>
      (.returned { ErrorCode := "", ErrorMessage := "" },
       past ++ [.CheckChannel checkChannelTimeout])

/-- The struct `registry.FeesResponse`, as far as it is read: `Fee` is a `*big.Int`. -/
structure FeesResponse where
  Fee : Option Int
  deriving DecidableEq, Repr

/-- The struct `RegisterIdentityRequest`. -/
structure RegisterIdentityRequest where
  IdentityAddress : String
  Token : String
  deriving DecidableEq, Repr

/-- The calls `MobileNode.RegisterIdentity` makes on `mb.transactor`, in program order. -/
inductive TransactorCall where
  | FetchRegistrationFees (chainID : Int)
  | RegisterIdentity (id : String) (stake : Option Int) (fee : Option Int)
      (beneficiary : String) (chainID : Int) (token : Option String)
  deriving DecidableEq, Repr

/-- The two methods of `registry.Transactor` used by `MobileNode.RegisterIdentity`. -/
structure TransactorEnv where
  FetchRegistrationFees : Int → FeesResponse × Option GoError
  RegisterIdentity : String → Option Int → Option Int → String → Int → Option String →
    Option GoError

/-- The method `MobileNode.RegisterIdentity`: the returned error and the calls made. -/
def RegisterIdentity (env : TransactorEnv) (mb : MobileNode) (req : RegisterIdentityRequest) :
    Option GoError × List TransactorCall :=
  match env.FetchRegistrationFees mb.chainID with
  | (_, some err) =>
    (some (.wrap "could not get registration fees" err), [.FetchRegistrationFees mb.chainID])
  | (fees, none) =>
    let token : Option String := if req.Token ≠ "" then some req.Token else none
    let call : TransactorCall :=
      .RegisterIdentity req.IdentityAddress (some 0) fees.Fee "" mb.chainID token
    match env.RegisterIdentity req.IdentityAddress (some 0) fees.Fee "" mb.chainID token with
    | some err =>
      (some (.wrap "could not register identity" err), [.FetchRegistrationFees mb.chainID, call])
    | none => (none, [.FetchRegistrationFees mb.chainID, call])

/-- The registration states of an identity, as `registry.RegistrationStatus` prints them. -/
inductive RegistrationStatus where
  | Unregistered
  | InProgress
  | Registered
  | RegistrationError
  deriving DecidableEq, Repr

/-- What `MobileNode.ImportIdentity` and the end-to-end test around it reach:
`mb.identityMover.Import` and `mb.identityRegistry.GetRegistrationStatus`.  A keystore blob
is carried as its text. -/
structure ImportEnv where
  Import : String → String → String → Identity × Option GoError
  GetRegistrationStatus : Int → Identity → RegistrationStatus

/-- The method `MobileNode.ImportIdentity`. -/
def ImportIdentity (env : ImportEnv) (data passphrase : String) : String × Option GoError :=
  match env.Import data passphrase "" with
  | (_, some err) => ("", some err)
  | (identity, none) => (identity.Address, none)

/-- The struct `MobileNodeOptions`. -/
structure MobileNodeOptions where
  Testnet2 : Bool
  Localnet : Bool
  ExperimentNATPunching : Bool
  MysteriumAPIAddress : String
  BrokerAddresses : List String
  EtherClientRPC : String
  FeedbackURL : String
  QualityOracleURL : String
  IPDetectorURL : String
  LocationDetectorURL : String
  TransactorEndpointAddress : String
  HermesEndpointAddress : String
  ChainID : Int
  PilvytisAddress : String
  MystSCAddress : String
  RegistrySCAddress : String
  HermesSCAddress : String
  ChannelImplementationSCAddress : String
  deriving DecidableEq, Repr

/-- A value handed to `config.Current.SetDefault`. -/
inductive ConfigValue where
  | int (v : Int)
  | bool (v : Bool)
  | str (v : String)
  deriving DecidableEq, Repr

/-- The effects of `NewNode`, in program order: configuration defaults and the bootstrap
of the dependencies with the node options built. -/
inductive BootCall where
  | SetDefault (flag : Flag) (value : ConfigValue)
  | Bootstrap (nodeOptions : Options)
  deriving DecidableEq, Repr

/-! ## `path/filepath`: `Clean` and `Join` -/

/-- The elements of a path: the runs of characters between its separators `/`.  A path
with `n` separators has `n + 1` elements, some of them possibly empty. -/
def splitSlash : List Char → List (List Char)
  | [] => [[]]
  | c :: cs =>
    if c = '/' then [] :: splitSlash cs
    else (c :: (splitSlash cs).headD []) :: (splitSlash cs).tail

/-- The elements written one after the other with a separator `/` between them. -/
def joinSlash : List (List Char) → List Char
  | [] => []
  | [x] => x
  | x :: y :: rest => x ++ '/' :: joinSlash (y :: rest)

/-- One turn of the loop of `filepath.Clean`, on the next element of the path.  The state
is what the output buffer holds after the leading separator: the number of leading `..`
elements (all that lies before the index `dotdot`) and the elements after them, which a
`..` can remove.  An empty element and a `.` element are skipped; a `..` element removes the
last element if there is one to remove, is dropped in a rooted path, and is appended
otherwise; any other element is appended. -/
def cleanStep (rooted : Bool) (st : Nat × List (List Char)) (x : List Char) :
    Nat × List (List Char) :=
  if x = [] ∨ x = ['.'] then st
  else if x = ['.', '.'] then
    if st.2 ≠ [] then (st.1, st.2.dropLast)
    else if rooted then st
    else (st.1 + 1, [])
  else (st.1, st.2 ++ [x])

/-- The function `filepath.Clean` on a system whose separator is `/` and whose paths have no
volume name, on the characters of the path: the empty path gives `.`; otherwise the elements
are processed in order by `cleanStep`, the output is the leading separator of a rooted path
followed by the elements kept, and an empty output gives `.`.  Go reads the path byte by
byte; the separator and the dot are ASCII, so reading it character by character gives the
same elements. -/
def cleanChars (path : List Char) : List Char :=
  if path = [] then ['.']
  else
    let rooted : Bool := decide (path.head? = some '/')
    let st := (splitSlash path).foldl (cleanStep rooted) (0, [])
    let out := (if rooted then ['/'] else []) ++
      joinSlash (List.replicate st.1 ['.', '.'] ++ st.2)
    if out = [] then ['.'] else out

/-- The function `filepath.Clean`. -/
def filepathClean (path : String) : String :=
  String.mk (cleanChars path.toList)

/-- The function `filepath.Join`: the elements from the first non-empty one on, joined with
the separator and cleaned; the empty string when every element is empty. -/
def filepathJoin (elem : List String) : String :=
  match elem.dropWhile (fun e => decide (e = "")) with
  | [] => ""
  | rest => filepathClean ("/".intercalate rest)

/-! ## `mobile/mysterium/entrypoint.go`: `NewNode` -/

/-- What `NewNode` reaches outside the entrypoint. -/
structure BootEnv where
  /-- The constant `metadata.DefaultNetwork.DefaultCurrency`. -/
  DefaultCurrency : ConfigValue
  /-- The constant `metadata.DefaultNetwork.Payments.Consumer.PricePerGIBMax`. -/
  PricePerGIBMax : ConfigValue
  /-- The constant `metadata.DefaultNetwork.Payments.Consumer.PricePerGIBMin`. -/
  PricePerGIBMin : ConfigValue
  /-- The constant `metadata.DefaultNetwork.Payments.Consumer.PricePerMinuteMax`. -/
  PricePerMinuteMax : ConfigValue
  /-- The constant `metadata.DefaultNetwork.Payments.Consumer.PricePerMinuteMin`. -/
  PricePerMinuteMin : ConfigValue
  /-- The method `di.Bootstrap`. -/
  Bootstrap : Options → Option GoError

/-- The node options `NewNode` builds, for the fields of `Options` kept in this model. -/
def mobileNodeOptions (_ : BootEnv) (appPath : String) (options : MobileNodeOptions) :
    Options :=
  let dataDir := filepathJoin [appPath, ".mysterium"]
  let currentDir := appPath
  let network : OptionsNetwork :=
    { Testnet := false
      Testnet2 := options.Testnet2
      Localnet := options.Localnet
      ExperimentNATPunching := options.ExperimentNATPunching
      MysteriumAPIAddress := options.MysteriumAPIAddress
      BrokerAddresses := options.BrokerAddresses
      EtherClientRPC := options.EtherClientRPC
      ChainID := options.ChainID }
  { Directories :=
      { Data := dataDir
        Storage := filepathJoin [dataDir, "db"]
        Keystore := filepathJoin [dataDir, "keystore"]
        Script := ""
        Runtime := currentDir }
    TequilapiAddress := ""
    TequilapiPort := 0
    TequilapiEnabled := false
    BindAddress := ""
    FeedbackURL := options.FeedbackURL
    OptionsNetwork := network
    Transactor :=
      { Identity := ""
        TransactorEndpointAddress := options.TransactorEndpointAddress
        ProviderMaxRegistrationAttempts := 10
        ProviderRegistrationRetryDelay := 3 * 60 * 1000000000
        ProviderRegistrationStake := some 6200000000 }
    Payments :=
      { MaxAllowedPaymentPercentile := 1500
        BCTimeout := 30 * 1000000000
        HermesPromiseSettlingThreshold := { bits := 0x3FB999999999999A }
        SettlementTimeout := 2 * 3600 * 1000000000
        ConsumerUpperGBPriceBound := none
        ConsumerLowerGBPriceBound := none
        ConsumerUpperMinutePriceBound := none
        ConsumerLowerMinutePriceBound := none
        ConsumerDataLeewayMegabytes := 0
        ProviderInvoiceFrequency := 0
        MaxUnpaidInvoiceValue := none
        HermesStatusRecheckInterval := 0 }
    Consumer := true
    PilvytisAddress := options.PilvytisAddress }

/-- The function `NewNode`: the node and error it returns, and its effects.  Of the node
only the field `chainID` is kept. -/
def NewNode (env : BootEnv) (appPath : String) (options : MobileNodeOptions) :
    (Option MobileNode × Option GoError) × List BootCall :=
  if appPath = "" then
    ((none, some (.new 0 "node app path is required")), [])
  else
    let defaults : List BootCall :=
      [.SetDefault .FlagChainID (.int options.ChainID),
       .SetDefault .FlagKeepConnectedOnFail (.bool true),
       .SetDefault .FlagDefaultCurrency env.DefaultCurrency,
       .SetDefault .FlagPaymentsConsumerPricePerGBUpperBound env.PricePerGIBMax,
       .SetDefault .FlagPaymentsConsumerPricePerGBLowerBound env.PricePerGIBMin,
       .SetDefault .FlagPaymentsConsumerPricePerMinuteUpperBound env.PricePerMinuteMax,
       .SetDefault .FlagPaymentsConsumerPricePerMinuteLowerBound env.PricePerMinuteMin]
    let nodeOptions := mobileNodeOptions env appPath options
    match env.Bootstrap nodeOptions with
    | some err =>
      ((none, some (.wrap "could not bootstrap dependencies" err)),
       defaults ++ [.Bootstrap nodeOptions])
    | none =>
      ((some { chainID := nodeOptions.OptionsNetwork.ChainID }, none),
       defaults ++ [.Bootstrap nodeOptions])

/-! ## The tequilapi transactor endpoints

The handlers are not among the source files; `tequilapi/endpoints/transactor_test.go` is.
They are modelled from the specification, and each model is checked against the test. -/

/-- A JSON string or number. -/
inductive JSONScalar where
  | str (s : String)
  | num (n : Int)
  deriving DecidableEq, Repr

/-- A flat JSON object: its keys with their values, in order. -/
abbrev JSONObject := List (String × JSONScalar)

/-- A value of the pagination envelope: a scalar, or the array of items. -/
inductive JSONField where
  | scalar (v : JSONScalar)
  | objects (items : List JSONObject)
  deriving DecidableEq, Repr

/-- The keys of a flat JSON object, in order. -/
def JSONObject.keys (o : JSONObject) : List String :=
  o.map Prod.fst

/-- An instant in UTC, by its civil fields, as `time.Date(y, m, d, h, min, s, 0, time.UTC)`. -/
structure UTCTime where
  Year : Nat
  Month : Nat
  Day : Nat
  Hour : Nat
  Minute : Nat
  Second : Nat
  deriving DecidableEq, Repr

/-- A calendar day, as the query parameters `date_from` and `date_to` carry it. -/
structure Date where
  Year : Nat
  Month : Nat
  Day : Nat
  deriving DecidableEq, Repr

/-- A number in decimal, padded with zeros on the left to `width` digits. -/
def padNat (width n : Nat) : String :=
  String.mk (List.replicate (width - (toString n).length) '0') ++ toString n

/-- The RFC3339 text of an instant in UTC with whole seconds: `2020-01-02T03:04:05Z`. -/
def formatRFC3339 (t : UTCTime) : String :=
  padNat 4 t.Year ++ "-" ++ padNat 2 t.Month ++ "-" ++ padNat 2 t.Day ++ "T" ++
    padNat 2 t.Hour ++ ":" ++ padNat 2 t.Minute ++ ":" ++ padNat 2 t.Second ++ "Z"

/-- Modelled from the spec: the record `SettlementHistoryEntry` of the settlement history
store, missing from the source files: `{TxHash, ProviderID, HermesID, ChannelAddress,
Beneficiary, Amount, Fees, SettledAt}`.  Hashes and addresses are carried by the text their
`Hex()` method prints; `Time` is the `SettledAt` instant, named as the test names it. -/
structure SettlementHistoryEntry where
  TxHash : String
  ProviderID : Identity
  HermesID : String
  ChannelAddress : String
  Beneficiary : String
  Amount : Int
  Fees : Int
  Time : UTCTime
  deriving DecidableEq, Repr

/-- Modelled from the spec: the JSON record of one settlement, missing from the source
files, field for field `tx_hash, provider_id, hermes_id, channel_address, beneficiary,
amount, settled_at (RFC3339), fees`. -/
def settlementToJSON (e : SettlementHistoryEntry) : JSONObject :=
  [("tx_hash", .str e.TxHash),
   ("provider_id", .str e.ProviderID.Address),
   ("hermes_id", .str e.HermesID),
   ("channel_address", .str e.ChannelAddress),
   ("beneficiary", .str e.Beneficiary),
   ("amount", .num e.Amount),
   ("settled_at", .str (formatRFC3339 e.Time)),
   ("fees", .num e.Fees)]

/-- Modelled from the spec: the query of the settlement history endpoint, missing from the
source files.  The paging parameters and the four optional filter parameters `date_from`,
`date_to`, `provider_id`, `hermes_id` named by the test; `none` is an absent parameter. -/
structure SettlementListQuery where
  PageSize : Nat
  Page : Nat
  DateFrom : Option Date
  DateTo : Option Date
  ProviderID : Option String
  HermesID : Option String
  deriving DecidableEq, Repr

/-- Modelled from the spec: the query of a request without parameters, missing from the
source files.  The test `returns settlement history` fixes its paging: page 1 of size 50. -/
def NewSettlementListQuery : SettlementListQuery where
  PageSize := 50
  Page := 1
  DateFrom := none
  DateTo := none
  ProviderID := none
  HermesID := none

/-- Modelled from the spec: the filter `SettlementHistoryFilter` of the settlement history
store, missing from the source files: a time range, a provider and a hermes, all optional.
A `none` is a nil pointer, an unset field. -/
structure SettlementHistoryFilter where
  TimeFrom : Option UTCTime
  TimeTo : Option UTCTime
  ProviderID : Option Identity
  HermesID : Option String
  deriving DecidableEq, Repr

/-- Modelled from the spec: what the transactor endpoints, missing from the source files,
reach outside themselves; the two conversions are those the test `respects filters` uses. -/
structure EndpointEnv where
  /-- The function `identity.FromAddress`. -/
  FromAddress : String → Identity
  /-- The function `common.HexToAddress`, followed by `Hex()`. -/
  HexToAddress : String → String
  /-- The method `List` of the settlement history provider. -/
  List : SettlementHistoryFilter → List SettlementHistoryEntry × Option GoError

/-- Modelled from the spec: the conversion of the query into the storage filter, missing
from the source files: the range is `[from, to]` with `to` inclusive through end-of-day, so
`date_from` becomes that day at 00:00:00 UTC and `date_to` that day at 23:59:59 UTC;
`provider_id` becomes an identity and `hermes_id` an address; all four are optional. -/
def ToFilter (env : EndpointEnv) (q : SettlementListQuery) : SettlementHistoryFilter where
  TimeFrom := q.DateFrom.map fun d =>
    { Year := d.Year, Month := d.Month, Day := d.Day, Hour := 0, Minute := 0, Second := 0 }
  TimeTo := q.DateTo.map fun d =>
    { Year := d.Year, Month := d.Month, Day := d.Day, Hour := 23, Minute := 59, Second := 59 }
  ProviderID := q.ProviderID.map env.FromAddress
  HermesID := q.HermesID.map env.HexToAddress

/-- The order of instants in UTC: the civil fields compared from the year down. -/
def UTCTime.le (a b : UTCTime) : Bool :=
  decide (a.Year < b.Year) || (decide (a.Year = b.Year) &&
    (decide (a.Month < b.Month) || (decide (a.Month = b.Month) &&
      (decide (a.Day < b.Day) || (decide (a.Day = b.Day) &&
        (decide (a.Hour < b.Hour) || (decide (a.Hour = b.Hour) &&
          (decide (a.Minute < b.Minute) || (decide (a.Minute = b.Minute) &&
            decide (a.Second ≤ b.Second))))))))))

/-- Modelled from the spec: which entries a filter lets through, missing from the source
files: `SettledAt` within `[from, to]`, and `ProviderID` and `HermesID` equal when
specified; the conditions are combined with logical AND. -/
def SettlementHistoryFilter.admits (f : SettlementHistoryFilter)
    (e : SettlementHistoryEntry) : Bool :=
  (match f.TimeFrom with
    | some t => t.le e.Time
    | none => true) &&
  (match f.TimeTo with
    | some t => e.Time.le t
    | none => true) &&
  (match f.ProviderID with
    | some id => decide (e.ProviderID = id)
    | none => true) &&
  (match f.HermesID with
    | some h => decide (e.HermesID = h)
    | none => true)

/-- Modelled from the spec: the paging of the settlement history, missing from the source
files: the entries of page `page` (counted from 1) when pages hold `pageSize` entries. -/
def paginate {α : Type} (pageSize page : Nat) (l : List α) : List α :=
  (l.drop ((page - 1) * pageSize)).take pageSize

/-- Modelled from the spec: the `total_pages` of the envelope, missing from the source
files: the number of pages of `pageSize` entries needed to hold `n` entries. -/
def totalPages (pageSize n : Nat) : Nat :=
  (n + pageSize - 1) / pageSize

/-- Modelled from the spec: the pagination envelope of the settlement history, missing from
the source files: `items, page, page_size, total_items, total_pages`, the items being the
entries of the requested page. -/
def settlementListResponse (q : SettlementListQuery) (entries : List SettlementHistoryEntry) :
    List (String × JSONField) :=
  [("items", .objects ((paginate q.PageSize q.Page entries).map settlementToJSON)),
   ("page", .scalar (.num q.Page)),
   ("page_size", .scalar (.num q.PageSize)),
   ("total_items", .scalar (.num entries.length)),
   ("total_pages", .scalar (.num (totalPages q.PageSize entries.length)))]

/-- Modelled from the spec: the answer of the settlement history endpoint, missing from the
source files: status 200 with the envelope, or an error status with its message. -/
inductive HistoryResponse where
  | ok (body : List (String × JSONField))
  | error (status : Nat) (message : String)
  deriving DecidableEq, Repr

/-- Modelled from the spec: the handler of `GET /transactor/settle/history`, missing from
the source files: it lists the store with the filter of the query (`ListSettlementHistory
(filter) → paginated entries`); the test `returns error on failed history retrieval` fixes
the answer to a failed listing: status 500 with the message of the error. -/
def SettlementHistory (env : EndpointEnv) (q : SettlementListQuery) : HistoryResponse :=
  match env.List (ToFilter env q) with
  | (_, some err) => .error 500 err.Error
  | (entries, none) => .ok (settlementListResponse q entries)

/-- The items of a settlement history response; an error has none. -/
def HistoryResponse.items : HistoryResponse → List JSONObject
  | .ok body =>
    match body.lookup "items" with
    | some (.objects items) => items
    | _ => []
  | .error _ _ => []

/-- The scalar under `key` in the envelope of a settlement history response. -/
def HistoryResponse.field (key : String) : HistoryResponse → Option JSONScalar
  | .ok body =>
    match body.lookup key with
    | some (.scalar v) => some v
    | _ => none
  | .error _ _ => none

/-- The keys of the envelope of a settlement history response, in order. -/
def HistoryResponse.keys : HistoryResponse → List String
  | .ok body => body.map Prod.fst
  | .error _ _ => []

/-- Modelled from the spec: the fees of the transactor behind the fees endpoint, missing
from the source files. -/
structure TransactorFeeSet where
  Registration : Int
  Settlement : Int
  DecreaseStake : Int
  deriving DecidableEq, Repr

/-- Modelled from the spec: the body of `GET /transactor/fees`, missing from the source
files: `GetTransactorFees() → {registration, settlement, hermes}`, the hermes fee being the
one of the promise settler.  The test `Test_Get_TransactorFees` fixes a fourth field the
specification does not name, `decreaseStake`, filled like the other transactor fees. -/
def TransactorFees (transactor : TransactorFeeSet) (hermesFee : Nat) : JSONObject :=
  [("registration", .num transactor.Registration),
   ("settlement", .num transactor.Settlement),
   ("hermes", .num hermesFee),
   ("decreaseStake", .num transactor.DecreaseStake)]

/-! ## The invoice/promise payment engine

The engine (package `session/pingpong`) is not among the source files.  It is modelled from
section 4.2 of the specification. -/

/-- Modelled from the spec: the value `Promise`, missing from the source files: a
consumer-signed acknowledgment of cumulative payment for a channel, `{ChannelID, Amount, Fee,
Signature}`; `Amount` is the total owed to date, never a delta. -/
structure Promise where
  ChannelID : String
  Amount : Nat
  Fee : Nat
  Signature : String
  deriving DecidableEq, Repr

/-- Modelled from the spec: the value `Invoice`, missing from the source files:
`{AgreementID, AgreementTotal, TransactorFee, Hash}`. -/
structure Invoice where
  AgreementID : Nat
  AgreementTotal : Nat
  TransactorFee : Nat
  Hash : String
  deriving DecidableEq, Repr

/-- Modelled from the spec: the states of the payment engine, missing from the source
files: `{Idle, InvoiceIssued, AwaitingPromise, Settled (session end)}`. -/
inductive EngineState where
  | Idle
  | InvoiceIssued
  | AwaitingPromise
  | Settled
  deriving DecidableEq, Repr

/-- Modelled from the spec: why the engine turns a promise down, missing from the source
files.  `InvalidPromise` is the error of the taxonomy for a signature or monotonicity
violation; the other four refusals have no name in the specification. -/
inductive PromiseError where
  | InvalidPromiseSignature
  | InvalidPromiseNonMonotonic
  | SessionEnded
  | WrongAgreement
  | StepTooLarge
  | NoInvoiceOutstanding
  deriving DecidableEq, Repr

/-- Whether a refusal is an `InvalidPromise` of the taxonomy. -/
def PromiseError.isInvalidPromise : PromiseError → Bool
  | .InvalidPromiseSignature => true
  | .InvalidPromiseNonMonotonic => true
  | _ => false

/-- Modelled from the spec: what the payment engine is configured with and reaches outside
itself, missing from the source files: the signature check against the registered signing
key of the consumer, the check that a promise references the agreement of an invoice, and
the ceiling `MaxUnpaidInvoiceValue`. -/
structure EngineConfig where
  verifySignature : Promise → Bool
  references : Promise → Invoice → Bool
  MaxUnpaidInvoiceValue : Nat

/-- Modelled from the spec: the payment engine of one session, missing from the source
files: its state, the one outstanding invoice if any, the invoice issued last, which
carries the agreement of the session and stays after a promise has consumed it, and the
promises accepted and persisted so far, oldest first. -/
structure PaymentEngine where
  state : EngineState
  outstanding : Option Invoice
  issued : Option Invoice
  accepted : List Promise
  deriving DecidableEq, Repr

/-- Modelled from the spec: the payment engine at session start, missing from the source
files: `Idle`, no invoice outstanding, none issued yet, nothing accepted. -/
def PaymentEngine.start : PaymentEngine where
  state := .Idle
  outstanding := none
  issued := none
  accepted := []

/-- Modelled from the spec: the amounts of the promises accepted for one channel, oldest
first; the engine that keeps them is missing from the source files. -/
def PaymentEngine.channelAmounts (e : PaymentEngine) (channel : String) : List Nat :=
  (e.accepted.filter fun p => p.ChannelID = channel).map fun p => p.Amount

/-- Modelled from the spec: the previous cumulative amount of a channel, kept by the engine
missing from the source files: the amount of the promise accepted last for it, and 0 before
any. -/
def PaymentEngine.lastAmount (e : PaymentEngine) (channel : String) : Nat :=
  (e.channelAmounts channel).getLast?.getD 0

/-- Modelled from the spec: a tick of the invoice timer, missing from the source files: if no
invoice is outstanding, the new invoice is sent to the peer and the engine moves to
`InvoiceIssued`; otherwise nothing happens. -/
def PaymentEngine.tick (e : PaymentEngine) (invoice : Invoice) : PaymentEngine :=
  match e.state, e.outstanding with
  | .Idle, none =>
    { e with state := .InvoiceIssued, outstanding := some invoice, issued := some invoice }
  | _, _ => e

/-- Modelled from the spec: the engine receives a promise, missing from the source files.
In order: it must reference the agreement of the session, which is that of the invoice
issued last, outstanding or already consumed; its signature must verify;
`Amount ≥ previous cumulative amount`; `Amount − previous ≤ MaxUnpaidInvoiceValue`; and an
invoice must be outstanding for the promise to consume.  On acceptance the promise is
persisted, the invoice is consumed and the engine returns to `Idle`.  An invalid signature
or an out-of-order amount tears the session down, whether or not an invoice is outstanding:
in the scenario of the specification the promise of 40 comes after the promise of 50 has
consumed the one invoice, and is an `InvalidPromise`. -/
def PaymentEngine.receivePromise (cfg : EngineConfig) (e : PaymentEngine) (p : Promise) :
    PaymentEngine × Option PromiseError :=
  if e.state = .Settled then
    (e, some .SessionEnded)
  else
    match e.issued with
    | none => (e, some .WrongAgreement)
    | some invoice =>
      if !cfg.references p invoice then
        (e, some .WrongAgreement)
      else if !cfg.verifySignature p then
        ({ e with state := .Settled }, some .InvalidPromiseSignature)
      else if p.Amount < e.lastAmount p.ChannelID then
        ({ e with state := .Settled }, some .InvalidPromiseNonMonotonic)
      else if p.Amount - e.lastAmount p.ChannelID > cfg.MaxUnpaidInvoiceValue then
        (e, some .StepTooLarge)
      else
        match e.outstanding with
        | none => (e, some .NoInvoiceOutstanding)
        | some _ =>
          ({ e with state := .Idle, outstanding := none, accepted := e.accepted ++ [p] }, none)

/-- Modelled from the spec: what reaches the engine, missing from the source files, during
a session: a tick of the invoice timer with the invoice it mints, or a promise from the
peer. -/
inductive EngineEvent where
  | tick (invoice : Invoice)
  | promise (p : Promise)
  deriving DecidableEq, Repr

/-- Modelled from the spec: one event handled by the engine, missing from the source
files. -/
def PaymentEngine.step (cfg : EngineConfig) (e : PaymentEngine) : EngineEvent → PaymentEngine
  | .tick invoice => e.tick invoice
  | .promise p => (e.receivePromise cfg p).1

/-- Modelled from the spec: a whole sequence of events handled in order by the engine,
missing from the source files. -/
def PaymentEngine.run (cfg : EngineConfig) (e : PaymentEngine) (events : List EngineEvent) :
    PaymentEngine :=
  events.foldl (PaymentEngine.step cfg) e

/-! ## The hermes promise settler

The settler (package `session/pingpong`) is not among the source files; `di_desktop.go` only
configures it.  It is modelled from section 4.3 of the specification. -/

/-- Modelled from the spec: the settler's view of one channel, missing from the source
files: its parties, its balance, the amount already settled and the cumulative amount of
the latest accepted promise.  The unsettled amount is what the latest promise adds to what
is settled. -/
structure HermesChannel where
  Identity : Identity
  HermesID : String
  Balance : Nat
  Settled : Nat
  LastPromise : Nat
  deriving DecidableEq, Repr

/-- Modelled from the spec: the unsettled amount of a channel, kept by the settler missing
from the source files. -/
def HermesChannel.unsettled (ch : HermesChannel) : Nat :=
  ch.LastPromise - ch.Settled

/-- Modelled from the spec: the states of a channel in the settler, missing from the
source files: `Idle → Triggered → Submitted → Confirmed | TimedOut | Failed`. -/
inductive SettleState where
  | Idle
  | Triggered
  | Submitted
  | Confirmed
  | TimedOut
  | Failed
  deriving DecidableEq, Repr

/-- Modelled from the spec: what submitting a settlement through the Transactor and polling
for confirmation up to `MaxWaitForSettlement` ends with, missing from the source files. -/
inductive SettleOutcome where
  | Confirmed (txHash : String) (channelAddress beneficiary : String) (fees : Int)
      (settledAt : UTCTime)
  | TimedOut
  | Failed (cause : GoError)
  deriving DecidableEq, Repr

/-- Modelled from the spec: the settler for one channel, missing from the source files: the
fractional threshold, the state of the channel, the amounts submitted to the Transactor so
far and the settlement history. -/
structure PromiseSettlerState where
  Threshold : ℚ
  state : SettleState
  submitted : List Nat
  history : List SettlementHistoryEntry

/-- Modelled from the spec: the decision rule of the settler, missing from the source files:
`unsettled/Balance ≥ Threshold`. -/
def needsSettling (threshold : ℚ) (ch : HermesChannel) : Bool :=
  decide ((ch.unsettled : ℚ) / (ch.Balance : ℚ) ≥ threshold)

/-- Modelled from the spec: one pass of the settler over a channel, missing from the source
files.  A channel that is not `Idle` is left alone.  An `Idle` channel is settled when the
rule holds or the pass is forced: the request carries the unsettled amount; on confirmation
an entry with that amount is appended to the history; a timeout or a failure appends
nothing and is not resubmitted.  The channel is `Idle` again afterwards.  The second
component lists the states the channel went through. -/
def settlePass (s : PromiseSettlerState) (ch : HermesChannel) (forced : Bool)
    (outcome : SettleOutcome) : PromiseSettlerState × List SettleState :=
  if s.state ≠ .Idle then
    (s, [])
  else if forced || needsSettling s.Threshold ch then
    let s1 : PromiseSettlerState := { s with submitted := s.submitted ++ [ch.unsettled] }
    match outcome with
    | .Confirmed txHash channelAddress beneficiary fees settledAt =>
      ({ s1 with
          history := s1.history ++
            [{ TxHash := txHash, ProviderID := ch.Identity, HermesID := ch.HermesID
               ChannelAddress := channelAddress, Beneficiary := beneficiary
               Amount := ch.unsettled, Fees := fees, Time := settledAt }] },
       [.Triggered, .Submitted, .Confirmed, .Idle])
    | .TimedOut => (s1, [.Triggered, .Submitted, .TimedOut, .Idle])
    | .Failed _ => (s1, [.Triggered, .Submitted, .Failed, .Idle])
  else
    (s, [])

/-! ## The identity registrar

The registrar (package `identity/registry`) is not among the source files;
`di_desktop.go` only configures it.  It is modelled from section 4.4 of the specification. -/

/-- Modelled from the spec: what one registration attempt (submit the on-chain transaction,
poll the registration status) ends with, missing from the source files. -/
inductive AttemptOutcome where
  | registered
  | failed (cause : GoError)
  deriving DecidableEq, Repr

/-- Modelled from the spec: what the registrar sees and does for one identity, missing
from the source files: the registration status, the number of registration transactions
submitted so far and the number of retries so far. -/
structure RegistrarState where
  status : RegistrationStatus
  submitted : Nat
  retries : Nat
  deriving DecidableEq, Repr

/-- Modelled from the spec: the terminal failure `RegistrationFailed` of the registrar,
missing from the source files. -/
def ErrRegistrationFailed : GoError := .new 30 "RegistrationFailed"

/-- Modelled from the spec: the attempts of `Register`, missing from the source files: up to
`attempts` of them, each submitting one transaction; the first that ends `Registered` is the
terminal success; when all are used up the failure is `RegistrationFailed` with the last
cause.  `outcome n` is what the attempt that submits transaction number `n` ends with. -/
def registerAttempts (outcome : Nat → AttemptOutcome) :
    Nat → Option GoError → RegistrarState → Option GoError × RegistrarState
  | 0, last, st =>
    (some (match last with
      | some cause => .wrap "RegistrationFailed" cause
      | none => ErrRegistrationFailed),
     { st with status := .RegistrationError })
  | attempts + 1, _, st =>
    match outcome st.submitted with
    | .registered => (none, { st with status := .Registered, submitted := st.submitted + 1 })
    | .failed cause =>
      registerAttempts outcome attempts (some cause)
        { status := .InProgress, submitted := st.submitted + 1, retries := st.retries + 1 }

/-- Modelled from the spec: `Register(identity, stake, config) → error`, missing from the
source files: a no-op success on an identity that is already `Registered`, and otherwise up
to `MaxRetries` attempts. -/
def Register (cfg : ProviderRegistrarConfig) (outcome : Nat → AttemptOutcome)
    (st : RegistrarState) : Option GoError × RegistrarState :=
  if st.status = .Registered then
    (none, st)
  else
    registerAttempts outcome cfg.MaxRetries.toNat none st

/-! ## `cmd/commands/cli/command_identities.go`: the `identities` dispatcher -/

def usageListIdentities : String := "list"

def usageNewIdentity : String := "new [passphrase]"

def usageUnlockIdentity : String := "unlock <identity> [passphrase]"

def usageGetReferralCode : String := "referralcode <identity>"

def usageExportIdentity : String := "export <identity> <new_passphrase> [file]"

def usageImportIdentity : String := "import <passphrase> <key-string/key-file>"

/-- The predicate `unicode.IsSpace`: the white space characters of Unicode. -/
def isSpace (c : Char) : Bool :=
  c = '\t' || c = '\n' || c.toNat = 0x0B || c.toNat = 0x0C || c = '\r' || c = ' ' ||
  c.toNat = 0x85 || c.toNat = 0xA0 || c.toNat = 0x1680 ||
  (decide (0x2000 ≤ c.toNat) && decide (c.toNat ≤ 0x200A)) ||
  c.toNat = 0x2028 || c.toNat = 0x2029 || c.toNat = 0x202F || c.toNat = 0x205F ||
  c.toNat = 0x3000

/-- The fields of a text, `current` being the field read so far: the maximal runs of
characters that are not white space. -/
def fieldsFrom : List Char → List Char → List (List Char)
  | [], current => if current = [] then [] else [current]
  | c :: rest, current =>
    if isSpace c then
      if current = [] then fieldsFrom rest [] else current :: fieldsFrom rest []
    else
      fieldsFrom rest (current ++ [c])

/-- The function `strings.Fields`. -/
def stringsFields (s : String) : List String :=
  (fieldsFrom s.toList []).map String.mk

/-- The ten methods of `cliApp` the `identities` command can hand over to. -/
inductive Handler where
  | listIdentities
  | getIdentity
  | newIdentity
  | unlockIdentity
  | registerIdentity
  | setBeneficiary
  | settle
  | getReferralCode
  | exportIdentity
  | importIdentity
  deriving DecidableEq, Repr

/-- The steps of the `identities` command: what it prints itself, and the handler it calls
with the action arguments. -/
inductive IdentitiesStep where
  | info (text : String)
  | warnf (format : String) (arg : String)
  | println (text : String)
  | handler (h : Handler) (actionArgs : List String)
  deriving DecidableEq, Repr

/-- The elements of the slice joined into `usage` in `identities`. -/
def identitiesUsageLines : List String :=
  ["Usage: identities <action> [args]",
   "Available actions:",
   "  " ++ usageListIdentities,
   "  " ++ usageGetIdentity,
   "  " ++ usageNewIdentity,
   "  " ++ usageUnlockIdentity,
   "  " ++ usageRegisterIdentity,
   "  " ++ usageSettle,
   "  " ++ usageGetReferralCode,
   "  " ++ usageExportIdentity,
   "  " ++ usageImportIdentity]

/-- The variable `usage` of `identities`: the lines joined with a newline. -/
def identitiesUsage : String :=
  "\n".intercalate identitiesUsageLines

/-- The `switch action` of `identities`: the handler of a case, `none` for `default`. -/
def identitiesSwitch (action : String) : Option Handler :=
  if action = "list" then some .listIdentities
  else if action = "get" then some .getIdentity
  else if action = "new" then some .newIdentity
  else if action = "unlock" then some .unlockIdentity
  else if action = "register" then some .registerIdentity
  else if action = "beneficiary" then some .setBeneficiary
  else if action = "settle" then some .settle
  else if action = "referralcode" then some .getReferralCode
  else if action = "export" then some .exportIdentity
  else if action = "import" then some .importIdentity
  else none

/-- The command `cliApp.identities`.  `len(argsString) == 0` holds for the empty string
only.  With no field, `args[0]` is an index out of range: the command panics. -/
def identities (argsString : String) : List IdentitiesStep × Exit :=
  if argsString = "" then
    ([.info identitiesUsage], .returned)
  else
    match stringsFields argsString with
    | [] => ([], .panicked)
    | action :: actionArgs =>
      match identitiesSwitch action with
      | some h => ([.handler h actionArgs], .returned)
      | none =>
        ([.warnf "Unknown sub-command '%s'\n" argsString, .println identitiesUsage], .returned)

/-- The first word of each line of the usage text under `Available actions:`. -/
def listedActions : List String :=
  (identitiesUsageLines.drop 2).filterMap fun line => (stringsFields line).head?

/-- The action names with a case in the `switch` of `identities`. -/
def acceptedActions : List String :=
  ["list", "get", "new", "unlock", "register", "beneficiary", "settle", "referralcode",
   "export", "import"]

/-! ## `mobile/mysterium/entrypoint.go`: the order-updated callback -/

/-- The character of a decimal digit. -/
def digitChar (d : Nat) : Char :=
  Char.ofNat (48 + d)

/-- The decimal digits of a number, most significant first, at most `fuel` of them. -/
def decimalOf : Nat → Nat → List Char
  | 0, _ => []
  | fuel + 1, n =>
    if n < 10 then [digitChar n] else decimalOf fuel (n / 10) ++ [digitChar (n % 10)]

/-- The call `strconv.FormatUint(u, 10)` on a `uint64`, which has at most 20 digits. -/
def formatUint (u : Nat) : String :=
  String.mk (decimalOf 20 u)

/-- The two errors of package `strconv`. -/
def ErrSyntax : GoError := .new 40 "invalid syntax"

def ErrRange : GoError := .new 41 "value out of range"

/-- The function `strconv.Quote` on printable ASCII text: the text between double quotes,
with a backslash before each double quote and each backslash in it. -/
def strconvQuote (s : String) : String :=
  "\"" ++ String.mk (s.toList.flatMap fun c =>
    if c = Char.ofNat 34 ∨ c = Char.ofNat 92 then [Char.ofNat 92, c] else [c]) ++ "\""

/-- The call `strconv.ParseInt(s, 10, 64)`: an optional sign and decimal digits.  The
magnitude is read as by `ParseUint`, which stops at `1<<64 - 1`; a magnitude that does not
fit an `int64` gives the nearest `int64` and a range error. -/
def parseInt64 (s : String) : Int × Option GoError :=
  let signed : Bool × List Char :=
    match s.toList with
    | '-' :: cs => (true, cs)
    | '+' :: cs => (false, cs)
    | cs => (false, cs)
  match decimalDigits signed.2 with
  | none => (0, some (.wrap ("strconv.ParseInt: parsing " ++ strconvQuote s) ErrSyntax))
  | some value =>
    let un := min value (2 ^ 64 - 1)
    let cutoff : Nat := 2 ^ 63
    if !signed.1 && decide (un ≥ cutoff) then
      (Int.ofNat (cutoff - 1), some (.wrap ("strconv.ParseInt: parsing " ++ strconvQuote s) ErrRange))
    else if signed.1 && decide (un > cutoff) then
      (-(Int.ofNat cutoff), some (.wrap ("strconv.ParseInt: parsing " ++ strconvQuote s) ErrRange))
    else
      (if signed.1 then -(Int.ofNat un) else Int.ofNat un, none)

/-- The function `shrinkUint64`; `u` is a `uint64`, a number below `2 ^ 64`. -/
def shrinkUint64 (u : Nat) : Int × Option GoError :=
  parseInt64 (formatUint u)

/-- The struct `pilvytis.AppEventOrderUpdated`, as far as it is read.  `PayAmount` and
`PayCurrency` are pointers. -/
structure AppEventOrderUpdated where
  ID : Nat
  Status : String
  PayAmount : Option Float64
  PayCurrency : Option String
  deriving DecidableEq, Repr

/-- The struct `OrderUpdatedCallbackPayload`. -/
structure OrderUpdatedCallbackPayload where
  OrderID : Int
  Status : String
  PayAmount : Float64
  PayCurrency : String
  deriving DecidableEq, Repr

/-- The function subscribed by `RegisterOrderUpdatedCallback`: the payloads it hands to
`cb.OnUpdate` for one event, none or one. -/
def orderUpdatedHandler (e : AppEventOrderUpdated) : List OrderUpdatedCallbackPayload :=
  match shrinkUint64 e.ID with
  | (_, some _) => []
  | (id, none) =>
    [{ OrderID := id
       Status := e.Status
       PayAmount := e.PayAmount.getD { bits := 0 }
       PayCurrency := e.PayCurrency.getD "" }]

/-! ## Recognisers over traces and sample environments -/

/-- Whether a step of a CLI trace is a call of `c.tequilapi.Settle`. -/
def isCallSettle : Out → Bool
  | .callSettle _ _ _ => true
  | _ => false

/-- Whether a step of a CLI trace is a call of `c.tequilapi.Beneficiary`. -/
def isCallBeneficiary : Out → Bool
  | .callBeneficiary _ => true
  | _ => false

/-- Whether a step of a CLI trace is a call of `c.tequilapi.RegisterIdentity`. -/
def isCallRegisterIdentity : Out → Bool
  | .callRegisterIdentity _ _ _ _ => true
  | _ => false

/-- Whether a step of a CLI trace is any tequilapi call. -/
def isCall : Out → Bool
  | .callGetTransactorFees => true
  | .callSettle _ _ _ => true
  | .callSettleWithBeneficiary _ _ _ => true
  | .callBeneficiary _ => true
  | .callRegisterIdentity _ _ _ _ => true
  | _ => false

/-- ASCII letters folded to lower case and compared: `strings.EqualFold` on ASCII text. -/
def equalFoldASCII (a b : String) : Bool :=
  a.toList.map Char.toLower == b.toList.map Char.toLower

/-- The text `big.Float` prints for `x / money.MystSize`, the quotient by `10 ^ 18`, when
`x` is one of the amounts of 1 to 9 wei the samples use: the digit followed by `e-18`. -/
def sampleMystString (x : Int) : String :=
  toString x ++ "e-18"

/-- A sample CLI environment: the hermes lookup succeeds and every tequilapi call succeeds. -/
def sampleCliEnv : CliEnv where
  FromAddress := fun a => { Address := a }
  GetHermesID := ("0xhermes", none)
  GetTransactorFees := ({ Settlement := some 5, Hermes := 2 }, none)
  mystString := sampleMystString
  Settle := fun _ _ _ => none
  SettleWithBeneficiary := fun _ _ _ => none
  EqualFold := equalFoldASCII
  RegisterIdentity := fun _ _ _ _ => none
  GetBoolByFlag := fun _ => false

/-- The sample CLI environment with a `Settle` that returns the error `boom`. -/
def failingSettleEnv : CliEnv :=
  { sampleCliEnv with Settle := fun _ _ _ => some (.new 1 "boom") }

/-- The sample CLI environment with a hermes ID lookup that fails. -/
def failingHermesEnv : CliEnv :=
  { sampleCliEnv with GetHermesID := ("", some (.new 2 "no hermes")) }

/-- What one poll of `setBeneficiary` adds to the trace before the comparison: the call of
`Beneficiary` and, when it returned an error, the warning that prints it. -/
def pollTrace (address : String) (err : Option GoError) : List Out :=
  match err with
  | some e => [.callBeneficiary address, .warn [.err e]]
  | none => [.callBeneficiary address]

/-- The trace of a run of polls none of which ended the loop: each poll, then a dot. -/
def pollsTrace (address : String) :
    List (IdentityBeneficiaryResponse × Option GoError) → List Out
  | [] => []
  | p :: rest => pollTrace address p.2 ++ Out.print "." :: pollsTrace address rest

/-- The `select` cases taken for a list of polls: one tick per poll. -/
def pollTicks (polls : List (IdentityBeneficiaryResponse × Option GoError)) :
    List BeneficiarySelect :=
  polls.map fun p => .tick p.1 p.2

/-- A sample options value for a provider (`Consumer` is false).  Its transactor and
payments groups carry the values that `NewNode` of the mobile entrypoint sets; the threshold
is the bit pattern of `0.1`. -/
def sampleProviderOptions : Options where
  Directories :=
    { Data := "/var/lib/mysterium-node", Storage := "/var/lib/mysterium-node/db"
      Keystore := "/var/lib/mysterium-node/keystore", Script := "", Runtime := "/var/run" }
  TequilapiAddress := "127.0.0.1"
  TequilapiPort := 4050
  TequilapiEnabled := true
  BindAddress := "0.0.0.0"
  FeedbackURL := ""
  OptionsNetwork :=
    { Testnet := false, Localnet := false, Testnet2 := true, ExperimentNATPunching := true
      MysteriumAPIAddress := "", BrokerAddresses := [], EtherClientRPC := "", ChainID := 5 }
  Transactor :=
    { Identity := "", TransactorEndpointAddress := ""
      ProviderMaxRegistrationAttempts := 10
      ProviderRegistrationRetryDelay := 180000000000
      ProviderRegistrationStake := some 6200000000 }
  Payments :=
    { MaxAllowedPaymentPercentile := 1500
      BCTimeout := 30000000000
      HermesPromiseSettlingThreshold := { bits := 0x3FB999999999999A }
      SettlementTimeout := 7200000000000
      ConsumerUpperGBPriceBound := none
      ConsumerLowerGBPriceBound := none
      ConsumerUpperMinutePriceBound := none
      ConsumerLowerMinutePriceBound := none
      ConsumerDataLeewayMegabytes := 0
      ProviderInvoiceFrequency := 0
      MaxUnpaidInvoiceValue := none
      HermesStatusRecheckInterval := 0 }
  Consumer := false
  PilvytisAddress := ""

/-- A wiring environment in which every subscription succeeds. -/
def sampleDIEnv : DIEnv where
  SubscribeChannelRepository := fun _ => none
  SubscribePromiseSettler := fun _ => none
  SubscribeProviderRegistrar := fun _ => none

/-- The zero value of `cmd.Dependencies`, before any bootstrap step. -/
def emptyDependencies : Dependencies where
  HermesChannelRepository := none
  HermesPromiseSettler := none
  ProviderRegistrar := none
  calls := []

/-- The proposal lookup of `Connect`, when `Connect` starts after the calls `past`. -/
def connectLookup (env : MobileEnv) (req : ConnectRequest) (past : List MobileCall) :
    Option ServiceProposal × Option GoError :=
  env.Proposal past { ProviderID := req.ProviderID, ServiceType := req.ServiceType }

/-- The DNS option step of `Connect`, which follows the proposal lookup. -/
def connectDNS (env : MobileEnv) (req : ConnectRequest) (past : List MobileCall) :
    (DNSOption × Option GoError) × List MobileCall :=
  dnsOption env req
    (past ++ [.Proposal { ProviderID := req.ProviderID, ServiceType := req.ServiceType }])

/-- The active hermes lookup of `Connect`, which follows the DNS option step. -/
def connectHermes (env : MobileEnv) (mb : MobileNode) (req : ConnectRequest)
    (past : List MobileCall) : HermesAddress × Option GoError :=
  env.GetActiveHermes (connectDNS env req past).2 mb.chainID

/-- The call of the connection manager made by `Connect` for the proposal `proposal`, which
follows the active hermes lookup. -/
def connectManager (env : MobileEnv) (mb : MobileNode) (req : ConnectRequest)
    (past : List MobileCall) (proposal : ServiceProposal) : Option GoError :=
  env.ManagerConnect ((connectDNS env req past).2 ++ [.GetActiveHermes mb.chainID])
    (env.FromAddress req.IdentityAddress) (connectHermes env mb req past).1 proposal
    { DisableKillSwitch := req.DisableKillSwitch, DNS := (connectDNS env req past).1.1 }

/-- Whether a call of the mobile node is a channel check. -/
def isCheckChannel : MobileCall → Bool
  | .CheckChannel _ => true
  | _ => false

/-- Whether a call of the mobile node is a disconnect of the connection manager. -/
def isManagerDisconnect : MobileCall → Bool
  | .ManagerDisconnect => true
  | _ => false

/-- A sample mobile environment: the proposal lookup and the hermes lookup succeed, the
connection manager refuses to connect with `ErrInsufficientBalance` wrapped once, the
channel check fails and the disconnect fails. -/
def sampleMobileEnv : MobileEnv where
  FromAddress := fun a => { Address := a }
  DNSOptionAuto := { value := "auto" }
  ErrInsufficientBalance := .new 7 "consumer has insufficient balance"
  Proposal := fun _ id => (some { ProviderID := id.ProviderID, ServiceType := id.ServiceType }, none)
  NewDNSOption := fun _ s => ({ value := s }, none)
  GetActiveHermes := fun _ _ => ({ hex := "0xhermes" }, none)
  ManagerConnect := fun _ _ _ _ _ =>
    some (.wrap "connect failed" (.new 7 "consumer has insufficient balance"))
  ManagerDisconnect := fun _ => some (.new 8 "no connection exists")
  CheckChannel := fun _ _ => some (.new 9 "p2p channel is dead")

/-- A sample connect request without a DNS option. -/
def sampleConnectRequest : ConnectRequest where
  IdentityAddress := "0xconsumer"
  ProviderID := "0xprovider"
  ServiceType := "wireguard"
  DNSOption := ""
  DisableKillSwitch := false
  ForceReconnect := false

/-- The keystore blob of the end-to-end test `Test identity import`. -/
def e2eKeystore : String :=
    "\x7b\"address\":\"2574e9053c104f5e6012cbb0aa457318339d8a7f\",\"crypto\"" ++
    ":\x7b\"cipher\":\"aes-128-ctr\",\"ciphertext\":\"772b3df26635c50fccf26" ++
    "350c6530c4216e2d78b4836105475f2876dc0704810\",\"cipherparams\":\x7b\"i" ++
    "v\":\"1b96fb8b5614f5b46f1e1e0327f370ed\"\x7d,\"kdf\":\"scrypt\",\"kdfp" ++
    "arams\":\x7b\"dklen\":32,\"n\":4096,\"p\":6,\"r\":8,\"salt\":\"6978a44" ++
    "ba80d588aacf497d2b042948bdbf74aefa22b715ab863647511236f17\"\x7d,\"mac\"" ++
    ":\"77b896027172c9dc68d64f15d6450492bd92a57b994734fd147769a580e02ef6\"\x7d" ++
    ",\"id\":\"d18381e4-2011-48c7-97cf-84ccc3882c87\",\"version\":3\x7d"

/-- The passphrase of the end-to-end test `Test identity import`. -/
def e2eKeystorePass : String := "fhHGF12G2g"

/-- The identity held by `e2eKeystore`. -/
def e2eImportedIdentity : Identity :=
  { Address := "0x2574e9053c104f5e6012cbb0aa457318339d8a7f" }

/-- The environment the end-to-end test `Test identity import` observes: the import of
`e2eKeystore` succeeds (`require.NoError`, `require.NotEmpty(address)`), and the registry
then reports the imported identity as `Unregistered`. -/
def e2eImportEnv : ImportEnv where
  Import := fun data passphrase _ =>
    if data = e2eKeystore ∧ passphrase = e2eKeystorePass then (e2eImportedIdentity, none)
    else ({ Address := "" }, some (.new 20 "could not decrypt key with given passphrase"))
  GetRegistrationStatus := fun _ _ => .Unregistered

/-- The options of the end-to-end test `TestMobileNodeConsumer`. -/
def e2eMobileNodeOptions : MobileNodeOptions where
  Testnet2 := true
  Localnet := false
  ExperimentNATPunching := true
  MysteriumAPIAddress := "http://mysterium-api:8001/v1"
  BrokerAddresses := ["broker"]
  EtherClientRPC := "ws://ganache:8545"
  FeedbackURL := "TODO"
  QualityOracleURL := "http://morqa:8085/api/v2"
  IPDetectorURL := "http://ipify:3000/?format=json"
  LocationDetectorURL := "https://testnet2-location.mysterium.network/api/v1/location"
  TransactorEndpointAddress := "http://transactor:8888/api/v1"
  HermesEndpointAddress := "http://hermes:8889/api/v1"
  ChainID := 5
  PilvytisAddress := ""
  MystSCAddress := "0x4D1d104AbD4F4351a0c51bE1e9CA0750BbCa1665"
  RegistrySCAddress := "0xbe180c8CA53F280C7BE8669596fF7939d933AA10"
  HermesSCAddress := "0xf2e2c77D2e7207d8341106E6EfA469d1940FD0d8"
  ChannelImplementationSCAddress := "0x599d43715DF3070f83355D9D90AE62c159E62A75"

/-- A sample environment for `NewNode`: the defaults of the test network, and the bootstrap
succeeds. -/
def sampleBootEnv : BootEnv where
  DefaultCurrency := .str "MYSTT"
  PricePerGIBMax := .str "500000000000000000"
  PricePerGIBMin := .str "0"
  PricePerMinuteMax := .str "500000000000000"
  PricePerMinuteMin := .str "0"
  Bootstrap := fun _ => none

/-- A sample transactor: the registration fee is 100 and the registration is accepted. -/
def sampleTransactorEnv : TransactorEnv where
  FetchRegistrationFees := fun _ => ({ Fee := some 100 }, none)
  RegisterIdentity := fun _ _ _ _ _ _ => none

/-- Whether a call of the wiring code registers a service. -/
def isRegisterService : DICall → Bool
  | .RegisterService _ => true
  | _ => false

/-- Whether a call on the transactor submits a registration. -/
def isSubmitRegistration : TransactorCall → Bool
  | .RegisterIdentity _ _ _ _ _ _ => true
  | _ => false

/-- The two stored entries of the test `returns settlement history`. -/
def testHistoryEntries : List SettlementHistoryEntry :=
  [{ TxHash := "0x88af51047ff2da1e3626722fe239f70c3ddd668f067b2ac8d67b280d2eff39f7"
     ProviderID := { Address := "" }
     HermesID := "0x0000000000000000000000000000000000000000"
     ChannelAddress := "0x0000000000000000000000000000000000000000"
     Beneficiary := "0x4443189b9B945dD38e7bfB6167F9909451582EE5"
     Amount := 123
     Fees := 20
     Time := { Year := 2020, Month := 1, Day := 2, Hour := 3, Minute := 4, Second := 5 } },
   { TxHash := "0x9eea5c4da8a67929d5dd5d8b6dedb3bd44e7bd3ec299f8972f3212db8afb938a"
     ProviderID := { Address := "" }
     HermesID := "0x0000000000000000000000000000000000000000"
     ChannelAddress := "0x0000000000000000000000000000000000000000"
     Beneficiary := "0x0000000000000000000000000000000000000000"
     Amount := 456
     Fees := 50
     Time := { Year := 2020, Month := 6, Day := 7, Hour := 8, Minute := 9, Second := 10 } }]

/-- The endpoint environment of the test `returns settlement history`: the store returns
the two entries whatever the filter. -/
def testEndpointEnv : EndpointEnv where
  FromAddress := fun a => { Address := a }
  HexToAddress := fun a => a
  List := fun _ => (testHistoryEntries, none)

/-- An endpoint environment whose store holds 51 copies of one entry. -/
def crowdedEndpointEnv : EndpointEnv where
  FromAddress := fun a => { Address := a }
  HexToAddress := fun a => a
  List := fun _ => (List.replicate 51
    { TxHash := "0x01", ProviderID := { Address := "0xab1" }, HermesID := "0xab2"
      ChannelAddress := "0xab3", Beneficiary := "0xab4", Amount := 1, Fees := 0
      Time := { Year := 2020, Month := 1, Day := 2, Hour := 3, Minute := 4, Second := 5 } },
    none)

/-- The query of the test `respects filters`:
`date_from=2020-09-19&date_to=2020-09-20&provider_id=0xab1&hermes_id=0xaB2`. -/
def testFilterQuery : SettlementListQuery :=
  { NewSettlementListQuery with
    DateFrom := some { Year := 2020, Month := 9, Day := 19 }
    DateTo := some { Year := 2020, Month := 9, Day := 20 }
    ProviderID := some "0xab1"
    HermesID := some "0xaB2" }

/-- A sample engine configuration: every signature verifies, every promise references the
agreement of the session, and one step may add at most 100. -/
def sampleEngineConfig : EngineConfig where
  verifySignature := fun _ => true
  references := fun _ _ => true
  MaxUnpaidInvoiceValue := 100

/-- The invoice of the scenarios of the specification: `AgreementTotal = 100`. -/
def sampleInvoice : Invoice where
  AgreementID := 1
  AgreementTotal := 100
  TransactorFee := 0
  Hash := "0xinvoice"

/-- A promise of the sample consumer for the cumulative amount `amount`. -/
def samplePromise (amount : Nat) : Promise where
  ChannelID := "0xchannel"
  Amount := amount
  Fee := 0
  Signature := "0xsignature"

/-- A settler with threshold `0.1`, idle, with nothing submitted and an empty history. -/
def sampleSettler : PromiseSettlerState where
  Threshold := 1 / 10
  state := .Idle
  submitted := []
  history := []

/-- A channel with balance 1000, nothing settled, and `unsettled` promised. -/
def sampleChannel (unsettled : Nat) : HermesChannel where
  Identity := { Address := "0xprovider" }
  HermesID := "0xhermes"
  Balance := 1000
  Settled := 0
  LastPromise := unsettled

/-- The sample CLI environment with a `GetTransactorFees` that fails the usual way: the
zero value of the fees and an error. -/
def failingFeesEnv : CliEnv :=
  { sampleCliEnv with
    GetTransactorFees := ({ Settlement := none, Hermes := 0 }, some (.new 4 "connection refused")) }

/-- The sample CLI environment with a `GetTransactorFees` that returns fees together with
an error. -/
def staleFeesEnv : CliEnv :=
  { sampleCliEnv with
    GetTransactorFees := ({ Settlement := some 5, Hermes := 2 }, some (.new 4 "connection refused")) }

/-- A wiring environment in which the channel repository fails to subscribe. -/
def failingRepositoryDIEnv : DIEnv :=
  { sampleDIEnv with
    SubscribeChannelRepository := fun _ => some (.new 5 "topic is closed") }

/-! ## Theorems: the `settle` command -/

theorem settleWait_ticks (res : Option GoError) (n : Nat) (rest : List SettleSelect) :
    settleWait res (List.replicate n .tick ++ rest) =
      (List.replicate n (Out.print ".") ++ (settleWait res rest).1, (settleWait res rest).2) := by
  induction n with
  | zero => simp
  | succ k ih => simp [List.replicate_succ, settleWait, ih]

theorem settleWait_no_result (res : Option GoError) (sched : List SettleSelect)
    (h : SettleSelect.result ∉ sched) :
    ((settleWait res sched).2 = .returned ↔ SettleSelect.timeout ∈ sched) ∧
    (SettleSelect.timeout ∉ sched →
      settleWait res sched = (List.replicate sched.length (Out.print "."), .waiting)) ∧
    (∀ x ∈ (settleWait res sched).1,
      x = Out.print "." ∨ x = Out.println [] ∨ x = Out.warn [.str "Settlement timed out"]) := by
  induction sched with
  | nil => simp [settleWait]
  | cons ev rest ih =>
    cases ev with
    | timeout => simp [settleWait]
    | tick =>
      have h2 : SettleSelect.result ∉ rest := fun hm => h (List.mem_cons_of_mem _ hm)
      obtain ⟨i1, i2, i3⟩ := ih h2
      refine ⟨?_, ?_, ?_⟩
      · simp [settleWait, i1]
      · intro hn
        have hn2 : SettleSelect.timeout ∉ rest := fun hm => hn (List.mem_cons_of_mem _ hm)
        simp [settleWait, i2 hn2, List.replicate_succ]
      · intro x hx
        simp only [settleWait, List.mem_cons] at hx
        rcases hx with hx | hx
        · exact Or.inl hx
        · exact i3 x hx
    | result => simp at h

theorem settleWait_no_call (res : Option GoError) (sched : List SettleSelect) :
    (settleWait res sched).1.filter isCallSettle = [] := by
  induction sched with
  | nil => simp [settleWait]
  | cons ev rest ih =>
    cases ev with
    | timeout => simp [settleWait, isCallSettle]
    | tick => simpa [settleWait, isCallSettle] using ih
    | result => cases res <;> simp [settleWait, isCallSettle]

/-- C1: in the `settle` command, when the result of the blocking `Settle` call is taken
before the timeout (after any number of ticks), a non-nil error `e` makes the command end
with the warning `"settlement failed: "` followed by the message of `e`, and
`"settlement succeeded"` is never printed; a nil error makes it end with the info
`"settlement succeeded"`, and no warning at all (neither failure nor timeout) is printed. -/
theorem settle_reports_result (env : CliEnv) (provider hermesID : String) (n : Nat)
    (rest : List SettleSelect) (hHermes : env.GetHermesID = (hermesID, none)) :
    (∀ e, env.Settle (env.FromAddress provider) (env.FromAddress hermesID) true = some e →
      settle env [provider] (List.replicate n .tick ++ .result :: rest) =
        (Out.info [.str "Waiting for settlement to complete"] ::
          Out.callSettle (env.FromAddress provider) (env.FromAddress hermesID) true ::
          (List.replicate n (Out.print ".") ++
            [Out.println [], Out.warn [.str "settlement failed: ", .str e.Error]]),
         Exit.returned) ∧
      Out.info [.str "settlement succeeded"] ∉
        (settle env [provider] (List.replicate n .tick ++ .result :: rest)).1) ∧
    (env.Settle (env.FromAddress provider) (env.FromAddress hermesID) true = none →
      settle env [provider] (List.replicate n .tick ++ .result :: rest) =
        (Out.info [.str "Waiting for settlement to complete"] ::
          Out.callSettle (env.FromAddress provider) (env.FromAddress hermesID) true ::
          (List.replicate n (Out.print ".") ++
            [Out.println [], Out.info [.str "settlement succeeded"]]),
         Exit.returned) ∧
      ∀ a, Out.warn a ∉
        (settle env [provider] (List.replicate n .tick ++ .result :: rest)).1) := by
  constructor
  · intro e he
    have hrun : settle env [provider] (List.replicate n .tick ++ .result :: rest) =
        (Out.info [.str "Waiting for settlement to complete"] ::
          Out.callSettle (env.FromAddress provider) (env.FromAddress hermesID) true ::
          (List.replicate n (Out.print ".") ++
            [Out.println [], Out.warn [.str "settlement failed: ", .str e.Error]]),
         Exit.returned) := by
      simp [settle, hHermes, settleWait_ticks, settleWait, he]
    refine ⟨hrun, ?_⟩
    rw [hrun]
    simp [List.mem_replicate]
  · intro he
    have hrun : settle env [provider] (List.replicate n .tick ++ .result :: rest) =
        (Out.info [.str "Waiting for settlement to complete"] ::
          Out.callSettle (env.FromAddress provider) (env.FromAddress hermesID) true ::
          (List.replicate n (Out.print ".") ++
            [Out.println [], Out.info [.str "settlement succeeded"]]),
         Exit.returned) := by
      simp [settle, hHermes, settleWait_ticks, settleWait, he]
    refine ⟨hrun, ?_⟩
    intro a
    rw [hrun]
    simp [List.mem_replicate]

theorem settle_reports_result_witness :
    failingSettleEnv.GetHermesID = ("0xhermes", none) ∧
    settle failingSettleEnv ["0xprovider"] [.tick, .tick, .result, .timeout] =
      ([Out.info [.str "Waiting for settlement to complete"],
        Out.callSettle { Address := "0xprovider" } { Address := "0xhermes" } true,
        Out.print ".", Out.print ".", Out.println [],
        Out.warn [.str "settlement failed: ", .str "boom"]], Exit.returned) :=
  ⟨rfl, ((settle_reports_result failingSettleEnv "0xprovider" "0xhermes" 2 [.timeout] rfl).1
    (.new 1 "boom") rfl).1⟩

/-- C2: in the `settle` command, in every run in which the `Settle` call never returns
(the result case is never taken), the wait loop ends exactly when the timeout case is taken:
the command has returned if and only if the schedule contains the timeout; when the timeout
is taken after `n` ticks the command printed `n` dots and then `"Settlement timed out"`;
without a timeout it printed only dots and is still waiting.  No such run prints
`"settlement succeeded"` or a `"settlement failed: "` warning. -/
theorem settle_never_returning (env : CliEnv) (provider hermesID : String)
    (sched : List SettleSelect) (hHermes : env.GetHermesID = (hermesID, none))
    (hNever : SettleSelect.result ∉ sched) :
    ((settle env [provider] sched).2 = Exit.returned ↔ SettleSelect.timeout ∈ sched) ∧
    (∀ n rest, sched = List.replicate n .tick ++ .timeout :: rest →
      settle env [provider] sched =
        (Out.info [.str "Waiting for settlement to complete"] ::
          Out.callSettle (env.FromAddress provider) (env.FromAddress hermesID) true ::
          (List.replicate n (Out.print ".") ++
            [Out.println [], Out.warn [.str "Settlement timed out"]]),
         Exit.returned)) ∧
    (SettleSelect.timeout ∉ sched →
      settle env [provider] sched =
        (Out.info [.str "Waiting for settlement to complete"] ::
          Out.callSettle (env.FromAddress provider) (env.FromAddress hermesID) true ::
          List.replicate sched.length (Out.print "."),
         Exit.waiting)) ∧
    Out.info [.str "settlement succeeded"] ∉ (settle env [provider] sched).1 ∧
    ∀ m, Out.warn [.str "settlement failed: ", .str m] ∉ (settle env [provider] sched).1 := by
  obtain ⟨w1, w2, w3⟩ :=
    settleWait_no_result
      (env.Settle (env.FromAddress provider) (env.FromAddress hermesID) true) sched hNever
  have hrun : settle env [provider] sched =
      (Out.info [.str "Waiting for settlement to complete"] ::
        Out.callSettle (env.FromAddress provider) (env.FromAddress hermesID) true ::
        (settleWait (env.Settle (env.FromAddress provider) (env.FromAddress hermesID) true)
          sched).1,
       (settleWait (env.Settle (env.FromAddress provider) (env.FromAddress hermesID) true)
          sched).2) := by
    simp [settle, hHermes]
  refine ⟨?_, ?_, ?_, ?_, ?_⟩
  · rw [hrun]
    exact w1
  · intro n rest hs
    rw [hrun, hs, settleWait_ticks]
    simp [settleWait]
  · intro hn
    rw [hrun, w2 hn]
  · rw [hrun]
    intro hmem
    simp only [List.mem_cons] at hmem
    rcases hmem with hmem | hmem | hmem
    · simp at hmem
    · simp at hmem
    · rcases w3 _ hmem with h | h | h <;> simp at h
  · intro m
    rw [hrun]
    intro hmem
    simp only [List.mem_cons] at hmem
    rcases hmem with hmem | hmem | hmem
    · simp at hmem
    · simp at hmem
    · rcases w3 _ hmem with h | h | h <;> simp at h

theorem settle_never_returning_witness :
    sampleCliEnv.GetHermesID = ("0xhermes", none) ∧
    SettleSelect.result ∉ [SettleSelect.tick, .tick, .tick, .timeout, .tick] ∧
    settle sampleCliEnv ["0xprovider"] [.tick, .tick, .tick, .timeout, .tick] =
      ([Out.info [.str "Waiting for settlement to complete"],
        Out.callSettle { Address := "0xprovider" } { Address := "0xhermes" } true,
        Out.print ".", Out.print ".", Out.print ".", Out.println [],
        Out.warn [.str "Settlement timed out"]], Exit.returned) :=
  ⟨rfl, by decide,
    (settle_never_returning sampleCliEnv "0xprovider" "0xhermes"
      [.tick, .tick, .tick, .timeout, .tick] rfl (by decide)).2.1 3 [.tick] rfl⟩

theorem settle_filter_calls (env : CliEnv) (args : List String) (sched : List SettleSelect) :
    (settle env args sched).1.filter isCallSettle =
      match args, env.GetHermesID.2 with
      | [provider], none =>
        [Out.callSettle (env.FromAddress provider) (env.FromAddress env.GetHermesID.1) true]
      | _, _ => [] := by
  have hfees : ∀ l : List String, l.length ≠ 1 →
      (settle env l sched).1.filter isCallSettle = [] := by
    intro l hl
    have hrun : settle env l sched =
        (match (env.GetTransactorFees.1).Settlement with
        | none =>
          ([Out.info [.str ("Usage: " ++ usageSettle)], Out.callGetTransactorFees] ++
            (match env.GetTransactorFees.2 with
              | some err => [Out.warn [.str "could not get transactor fee: ", .err err]]
              | none => []), Exit.panicked)
        | some settlement =>
          ([Out.info [.str ("Usage: " ++ usageSettle)], Out.callGetTransactorFees] ++
            (match env.GetTransactorFees.2 with
              | some err => [Out.warn [.str "could not get transactor fee: ", .err err]]
              | none => []) ++
            [Out.info [.str ("Transactor fee: " ++ env.mystString settlement ++ " MYST")],
             Out.info [.str ("Hermes fee: " ++
               env.mystString (Int.ofNat (env.GetTransactorFees.1).Hermes) ++ " MYST")]],
           Exit.returned)) := by
      match l, hl with
      | [], _ => rfl
      | [_], h => exact absurd rfl h
      | _ :: _ :: _, _ => rfl
    rw [hrun]
    cases (env.GetTransactorFees.1).Settlement <;> cases env.GetTransactorFees.2 <;>
      simp [isCallSettle]
  match args with
  | [] => simpa using hfees [] (by simp)
  | a :: b :: t => simpa using hfees (a :: b :: t) (by simp)
  | [provider] =>
    rcases hH : env.GetHermesID with ⟨hermesID, _ | err⟩
    · simp [settle, hH, isCallSettle, settleWait_no_call]
    · simp [settle, hH, isCallSettle]

/-- C3: the `settle` command calls `Settle` if and only if it is given exactly one argument
and the hermes ID lookup succeeds; in that case the calls of `Settle` in its trace are
exactly one, with provider `FromAddress` of the argument, hermes `FromAddress` of the
configured hermes ID and `blocking = true`; with another argument count or a failed lookup
the trace has no call of `Settle`. -/
theorem settle_calls_Settle (env : CliEnv) (args : List String) (sched : List SettleSelect) :
    ((∃ p h b, Out.callSettle p h b ∈ (settle env args sched).1) ↔
      (args.length = 1 ∧ env.GetHermesID.2 = none)) ∧
    (∀ provider, args = [provider] → env.GetHermesID.2 = none →
      (settle env args sched).1.filter isCallSettle =
        [Out.callSettle (env.FromAddress provider) (env.FromAddress env.GetHermesID.1) true]) ∧
    ((args.length ≠ 1 ∨ env.GetHermesID.2 ≠ none) →
      (settle env args sched).1.filter isCallSettle = []) := by
  have key := settle_filter_calls env args sched
  have hmem : (∃ p h b, Out.callSettle p h b ∈ (settle env args sched).1) ↔
      (settle env args sched).1.filter isCallSettle ≠ [] := by
    constructor
    · rintro ⟨p, h, b, hm⟩ hnil
      have : Out.callSettle p h b ∈ (settle env args sched).1.filter isCallSettle :=
        List.mem_filter.mpr ⟨hm, rfl⟩
      rw [hnil] at this
      simp at this
    · intro hne
      obtain ⟨x, hx⟩ := List.exists_mem_of_ne_nil _ hne
      rw [List.mem_filter] at hx
      cases x <;> simp [isCallSettle] at hx
      exact ⟨_, _, _, hx⟩
  refine ⟨?_, ?_, ?_⟩
  · rw [hmem, key]
    match args with
    | [] => simp
    | a :: b :: t => simp
    | [provider] => cases env.GetHermesID.2 <;> simp
  · intro provider ha hh
    rw [key, ha, hh]
  · intro h
    rw [key]
    match args, h with
    | [], _ => simp
    | a :: b :: t, _ => simp
    | [provider], h =>
      rcases h with h | h
      · simp at h
      · cases hh : env.GetHermesID.2 with
        | none => exact absurd hh h
        | some e => simp

/-! ## Theorems: the `beneficiary` command -/

theorem pollTrace_no_success (address : String) (err : Option GoError) :
    Out.success [.str "New beneficiary address set"] ∉ pollTrace address err := by
  cases err <;> simp [pollTrace]

theorem beneficiaryWait_tick (env : CliEnv) (address beneficiary : String)
    (data : IdentityBeneficiaryResponse) (err : Option GoError) (rest : List BeneficiarySelect) :
    beneficiaryWait env address beneficiary (.tick data err :: rest) =
      if env.EqualFold data.Beneficiary beneficiary then
        (pollTrace address err ++ [Out.success [.str "New beneficiary address set"]],
         Exit.returned)
      else
        (pollTrace address err ++
          Out.print "." :: (beneficiaryWait env address beneficiary rest).1,
         (beneficiaryWait env address beneficiary rest).2) := by
  cases err <;> simp [beneficiaryWait, pollTrace]

theorem beneficiaryWait_mismatches (env : CliEnv) (address beneficiary : String)
    (polls : List (IdentityBeneficiaryResponse × Option GoError))
    (hpolls : ∀ p ∈ polls, env.EqualFold p.1.Beneficiary beneficiary = false)
    (rest : List BeneficiarySelect) :
    beneficiaryWait env address beneficiary (pollTicks polls ++ rest) =
      (pollsTrace address polls ++ (beneficiaryWait env address beneficiary rest).1,
       (beneficiaryWait env address beneficiary rest).2) := by
  induction polls with
  | nil => simp [pollTicks, pollsTrace]
  | cons p ps ih =>
    have hp : env.EqualFold p.1.Beneficiary beneficiary = false :=
      hpolls p (List.mem_cons_self _ _)
    have hps : ∀ q ∈ ps, env.EqualFold q.1.Beneficiary beneficiary = false :=
      fun q hq => hpolls q (List.mem_cons_of_mem _ hq)
    have ih2 := ih hps
    simp only [pollTicks] at ih2
    simp [pollTicks, pollsTrace, beneficiaryWait_tick, hp, ih2]

theorem beneficiaryWait_success_needs_match (env : CliEnv) (address beneficiary : String)
    (sched : List BeneficiarySelect)
    (h : Out.success [.str "New beneficiary address set"] ∈
      (beneficiaryWait env address beneficiary sched).1) :
    ∃ data err, BeneficiarySelect.tick data err ∈ sched ∧
      env.EqualFold data.Beneficiary beneficiary = true := by
  induction sched with
  | nil => simp [beneficiaryWait] at h
  | cons ev rest ih =>
    cases ev with
    | timeout => simp [beneficiaryWait] at h
    | tick data err =>
      rw [beneficiaryWait_tick] at h
      by_cases hm : env.EqualFold data.Beneficiary beneficiary = true
      · exact ⟨data, err, List.mem_cons_self _ _, hm⟩
      · simp only [hm, Bool.false_eq_true, if_false, List.mem_append, List.mem_cons] at h
        rcases h with h | h | h
        · exact absurd h (pollTrace_no_success address err)
        · simp at h
        · obtain ⟨d, e, hmem, hd⟩ := ih h
          exact ⟨d, e, List.mem_cons_of_mem _ hmem, hd⟩

theorem setBeneficiary_after_settle (env : CliEnv) (actionArgs : List String)
    (address beneficiary hermesID : String) (sched : List BeneficiarySelect)
    (hArgs : actionArgs = [address, beneficiary] ∨ ∃ x, actionArgs = [address, beneficiary, x])
    (hHermes : env.GetHermesID = (hermesID, none))
    (hSettle : env.SettleWithBeneficiary address beneficiary hermesID = none) :
    setBeneficiary env actionArgs sched =
      (Out.callSettleWithBeneficiary address beneficiary hermesID ::
        Out.info [.str "Waiting for new beneficiary to be set"] ::
        (beneficiaryWait env address beneficiary sched).1,
       (beneficiaryWait env address beneficiary sched).2) := by
  rcases hArgs with h | ⟨x, h⟩ <;>
    simp [h, setBeneficiary, setBeneficiaryChecked, hHermes, hSettle]

/-- C4, as amended: in the `beneficiary` command, after `SettleWithBeneficiary` succeeded,
the polling loop prints `"New beneficiary address set"` at the first poll whose returned
beneficiary equals the requested one under `EqualFold`, and prints
`"Setting new beneficiary timed out"` when the timeout case is taken before any such poll.
A poll whose returned value does not match does not end the loop, whether or not it also
returned an error: the error is only printed as a warning and the value returned with it is
still compared.  Success is never reported without a poll whose returned value matches. -/
theorem setBeneficiary_polling (env : CliEnv) (actionArgs : List String)
    (address beneficiary hermesID : String)
    (hArgs : actionArgs = [address, beneficiary] ∨ ∃ x, actionArgs = [address, beneficiary, x])
    (hHermes : env.GetHermesID = (hermesID, none))
    (hSettle : env.SettleWithBeneficiary address beneficiary hermesID = none) :
    (∀ polls data err rest,
      (∀ p ∈ polls, env.EqualFold p.1.Beneficiary beneficiary = false) →
      env.EqualFold data.Beneficiary beneficiary = true →
      setBeneficiary env actionArgs (pollTicks polls ++ .tick data err :: rest) =
        (Out.callSettleWithBeneficiary address beneficiary hermesID ::
          Out.info [.str "Waiting for new beneficiary to be set"] ::
          (pollsTrace address polls ++ (pollTrace address err ++
            [Out.success [.str "New beneficiary address set"]])),
         Exit.returned)) ∧
    (∀ polls rest,
      (∀ p ∈ polls, env.EqualFold p.1.Beneficiary beneficiary = false) →
      setBeneficiary env actionArgs (pollTicks polls ++ .timeout :: rest) =
        (Out.callSettleWithBeneficiary address beneficiary hermesID ::
          Out.info [.str "Waiting for new beneficiary to be set"] ::
          (pollsTrace address polls ++ [Out.warn [.str "Setting new beneficiary timed out"]]),
         Exit.returned)) ∧
    (∀ data err rest,
      env.EqualFold data.Beneficiary beneficiary = false →
      setBeneficiary env actionArgs (.tick data err :: rest) =
        (Out.callSettleWithBeneficiary address beneficiary hermesID ::
          Out.info [.str "Waiting for new beneficiary to be set"] ::
          (pollTrace address err ++
            Out.print "." :: (beneficiaryWait env address beneficiary rest).1),
         (beneficiaryWait env address beneficiary rest).2)) ∧
    (∀ sched,
      Out.success [.str "New beneficiary address set"] ∈ (setBeneficiary env actionArgs sched).1 →
      ∃ data err, BeneficiarySelect.tick data err ∈ sched ∧
        env.EqualFold data.Beneficiary beneficiary = true) := by
  have hrun := fun sched =>
    setBeneficiary_after_settle env actionArgs address beneficiary hermesID sched
      hArgs hHermes hSettle
  refine ⟨?_, ?_, ?_, ?_⟩
  · intro polls data err rest hpolls hmatch
    rw [hrun, beneficiaryWait_mismatches env address beneficiary polls hpolls,
      beneficiaryWait_tick]
    simp [hmatch]
  · intro polls rest hpolls
    rw [hrun, beneficiaryWait_mismatches env address beneficiary polls hpolls]
    simp [beneficiaryWait]
  · intro data err rest hmis
    rw [hrun, beneficiaryWait_tick]
    simp [hmis]
  · intro sched hmem
    rw [hrun] at hmem
    simp only [List.mem_cons] at hmem
    rcases hmem with hmem | hmem | hmem
    · simp at hmem
    · simp at hmem
    · exact beneficiaryWait_success_needs_match env address beneficiary sched hmem

theorem setBeneficiary_polling_witness :
    sampleCliEnv.GetHermesID = ("0xhermes", none) ∧
    sampleCliEnv.SettleWithBeneficiary "0xid" "0xbeef" "0xhermes" = none ∧
    setBeneficiary sampleCliEnv ["0xid", "0xbeef"]
        [.tick { Beneficiary := "0xother" } (some (.new 3 "bad response")),
         .tick { Beneficiary := "0xBEEF" } none, .timeout] =
      ([Out.callSettleWithBeneficiary "0xid" "0xbeef" "0xhermes",
        Out.info [.str "Waiting for new beneficiary to be set"],
        Out.callBeneficiary "0xid", Out.warn [.err (.new 3 "bad response")], Out.print ".",
        Out.callBeneficiary "0xid",
        Out.success [.str "New beneficiary address set"]], Exit.returned) :=
  ⟨rfl, rfl,
    (setBeneficiary_polling sampleCliEnv ["0xid", "0xbeef"] "0xid" "0xbeef" "0xhermes"
      (Or.inl rfl) rfl rfl).1
      [({ Beneficiary := "0xother" }, some (.new 3 "bad response"))]
      { Beneficiary := "0xBEEF" } none [.timeout] (by decide) (by decide)⟩

/-- C4, as stated, fails: a poll that returns an error together with a matching beneficiary
ends the loop.  Here the only poll returns the error `bad response` and the value `0xBEEF`;
the command warns, reports success and returns, although a loop that the poll had not ended
would still be waiting. -/
theorem setBeneficiary_error_poll_ends_loop :
    setBeneficiary sampleCliEnv ["0xid", "0xbeef"]
        [.tick { Beneficiary := "0xBEEF" } (some (.new 3 "bad response"))] =
      ([Out.callSettleWithBeneficiary "0xid" "0xbeef" "0xhermes",
        Out.info [.str "Waiting for new beneficiary to be set"],
        Out.callBeneficiary "0xid", Out.warn [.err (.new 3 "bad response")],
        Out.success [.str "New beneficiary address set"]], Exit.returned) ∧
    (setBeneficiary sampleCliEnv ["0xid", "0xbeef"]
        [.tick { Beneficiary := "0xBEEF" } (some (.new 3 "bad response"))]).2 ≠ Exit.waiting := by
  decide

/-- C5: in the `beneficiary` command, for every argument list: with an argument count other
than 2 or 3 only the usage is printed; when the hermes ID lookup fails the command prints
one warning, the error wrapped with `"could not get hermes id"`, and returns; when
`SettleWithBeneficiary` returns an error it prints one warning, the error wrapped with
`"could not set beneficiary"`, and returns.  In all three cases `Beneficiary` is never
polled and success is not reported. -/
theorem setBeneficiary_failures (env : CliEnv) (actionArgs : List String)
    (sched : List BeneficiarySelect) :
    ((actionArgs.length ≠ 2 ∧ actionArgs.length ≠ 3) →
      setBeneficiary env actionArgs sched =
        ([Out.info [.str ("Usage: " ++ usageSetBeneficiary)]], Exit.returned)) ∧
    (∀ err, (actionArgs.length = 2 ∨ actionArgs.length = 3) → env.GetHermesID.2 = some err →
      setBeneficiary env actionArgs sched =
        ([Out.warn [.err (.wrap "could not get hermes id" err)]], Exit.returned)) ∧
    (∀ address beneficiary err,
      (actionArgs = [address, beneficiary] ∨ ∃ x, actionArgs = [address, beneficiary, x]) →
      env.GetHermesID.2 = none →
      env.SettleWithBeneficiary address beneficiary env.GetHermesID.1 = some err →
      setBeneficiary env actionArgs sched =
        ([Out.callSettleWithBeneficiary address beneficiary env.GetHermesID.1,
          Out.warn [.err (.wrap "could not set beneficiary" err)]], Exit.returned)) ∧
    (((actionArgs.length ≠ 2 ∧ actionArgs.length ≠ 3) ∨ env.GetHermesID.2 ≠ none ∨
        env.SettleWithBeneficiary (actionArgs.getD 0 "") (actionArgs.getD 1 "")
          env.GetHermesID.1 ≠ none) →
      (setBeneficiary env actionArgs sched).1.filter isCallBeneficiary = [] ∧
      (∀ a, Out.success a ∉ (setBeneficiary env actionArgs sched).1) ∧
      (setBeneficiary env actionArgs sched).2 = Exit.returned) := by
  have hchecked : ∀ address beneficiary,
      (env.GetHermesID.2 ≠ none ∨
        env.SettleWithBeneficiary address beneficiary env.GetHermesID.1 ≠ none) →
      (setBeneficiaryChecked env address beneficiary sched).1.filter isCallBeneficiary = [] ∧
      (∀ a, Out.success a ∉ (setBeneficiaryChecked env address beneficiary sched).1) ∧
      (setBeneficiaryChecked env address beneficiary sched).2 = Exit.returned := by
    intro address beneficiary h
    rcases hH : env.GetHermesID with ⟨hermesID, _ | e⟩
    · rw [hH] at h
      rcases hS : env.SettleWithBeneficiary address beneficiary hermesID with _ | e2
      · simp [hS] at h
      · simp [setBeneficiaryChecked, hH, hS, isCallBeneficiary]
    · simp [setBeneficiaryChecked, hH, isCallBeneficiary]
  refine ⟨?_, ?_, ?_, ?_⟩
  · rintro ⟨h2, h3⟩
    match actionArgs, h2, h3 with
    | [], _, _ => rfl
    | [_], _, _ => rfl
    | [_, _], h2, _ => exact absurd rfl h2
    | [_, _, _], _, h3 => exact absurd rfl h3
    | _ :: _ :: _ :: _ :: _, _, _ => rfl
  · intro err hlen herr
    rcases hH : env.GetHermesID with ⟨hermesID, e⟩
    rw [hH] at herr
    simp only at herr
    subst herr
    match actionArgs, hlen with
    | [a, b], _ => simp [setBeneficiary, setBeneficiaryChecked, hH]
    | [a, b, c], _ => simp [setBeneficiary, setBeneficiaryChecked, hH]
    | [], h => simp at h
    | [_], h => simp at h
    | _ :: _ :: _ :: _ :: _, h => simp at h
  · intro address beneficiary err hArgs hH hS
    rcases hH2 : env.GetHermesID with ⟨hermesID, e⟩
    rw [hH2] at hH hS
    simp only at hH hS
    subst hH
    rcases hArgs with h | ⟨x, h⟩ <;>
      simp [h, setBeneficiary, setBeneficiaryChecked, hH2, hS]
  · intro h
    match actionArgs, h with
    | [], _ => simp [setBeneficiary, isCallBeneficiary]
    | [_], _ => simp [setBeneficiary, isCallBeneficiary]
    | _ :: _ :: _ :: _ :: _, _ => simp [setBeneficiary, isCallBeneficiary]
    | [a, b], h =>
      have h2 : env.GetHermesID.2 ≠ none ∨
          env.SettleWithBeneficiary a b env.GetHermesID.1 ≠ none := by
        rcases h with h | h | h
        · simp at h
        · exact Or.inl h
        · exact Or.inr (by simpa using h)
      simpa [setBeneficiary] using hchecked a b h2
    | [a, b, c], h =>
      have h2 : env.GetHermesID.2 ≠ none ∨
          env.SettleWithBeneficiary a b env.GetHermesID.1 ≠ none := by
        rcases h with h | h | h
        · simp at h
        · exact Or.inl h
        · exact Or.inr (by simpa using h)
      simpa [setBeneficiary] using hchecked a b h2

/-! ## Theorems: desktop dependency wiring -/

theorem GetOptions_payments (config : Config) :
    (GetOptions config).Payments.HermesPromiseSettlingThreshold =
      config.GetFloat64 .FlagPaymentsHermesPromiseSettleThreshold ∧
    (GetOptions config).Payments.SettlementTimeout =
      config.GetDuration .FlagPaymentsHermesPromiseSettleTimeout ∧
    (GetOptions config).Consumer = config.GetBool .FlagConsumer :=
  ⟨rfl, rfl, rfl⟩

/-- C6: for every node options value with `Consumer = false`, the promise settler built by
`bootstrapHermesPromiseSettler` has `Threshold = Payments.HermesPromiseSettlingThreshold` and
`MaxWaitForSettlement = Payments.SettlementTimeout`: when the channel repository subscribes,
the settler is constructed and subscribed once with exactly that configuration; every
settler construction the function adds carries that configuration; and when the function
returns nil the settler stored in `di.HermesPromiseSettler` carries it. -/
theorem bootstrapHermesPromiseSettler_config (env : DIEnv) (di : Dependencies)
    (nodeOptions : Options) (hProvider : nodeOptions.Consumer = false) :
    (env.SubscribeChannelRepository {} = none →
      (bootstrapHermesPromiseSettler env di nodeOptions).1.calls =
        di.calls ++ [.NewHermesChannelRepository, .SubscribeChannelRepository,
          .NewHermesPromiseSettler
            { Threshold := nodeOptions.Payments.HermesPromiseSettlingThreshold
              MaxWaitForSettlement := nodeOptions.Payments.SettlementTimeout },
          .SubscribePromiseSettler
            { Threshold := nodeOptions.Payments.HermesPromiseSettlingThreshold
              MaxWaitForSettlement := nodeOptions.Payments.SettlementTimeout }]) ∧
    (∀ cfg, DICall.NewHermesPromiseSettler cfg ∈
        (bootstrapHermesPromiseSettler env di nodeOptions).1.calls →
      DICall.NewHermesPromiseSettler cfg ∈ di.calls ∨
      (cfg.Threshold = nodeOptions.Payments.HermesPromiseSettlingThreshold ∧
        cfg.MaxWaitForSettlement = nodeOptions.Payments.SettlementTimeout)) ∧
    ((bootstrapHermesPromiseSettler env di nodeOptions).2 = none →
      (bootstrapHermesPromiseSettler env di nodeOptions).1.HermesPromiseSettler =
        some (.settler
          { Threshold := nodeOptions.Payments.HermesPromiseSettlingThreshold
            MaxWaitForSettlement := nodeOptions.Payments.SettlementTimeout })) := by
  rcases h1 : env.SubscribeChannelRepository {} with _ | e1
  · rcases h2 : env.SubscribePromiseSettler
        { Threshold := nodeOptions.Payments.HermesPromiseSettlingThreshold
          MaxWaitForSettlement := nodeOptions.Payments.SettlementTimeout } with _ | e2
    · refine ⟨?_, ?_, ?_⟩
      · simp [bootstrapHermesPromiseSettler, h1, h2, hProvider]
      · intro cfg hmem
        simp only [bootstrapHermesPromiseSettler, h1, h2, hProvider, Bool.false_eq_true,
          if_false, List.mem_append, List.mem_cons, List.mem_singleton, List.mem_nil_iff,
          DICall.NewHermesPromiseSettler.injEq, reduceCtorEq, or_false, false_or] at hmem
        rcases hmem with hmem | hmem
        · exact Or.inl hmem
        · exact Or.inr (by rw [hmem]; exact ⟨rfl, rfl⟩)
      · simp [bootstrapHermesPromiseSettler, h1, h2, hProvider]
    · refine ⟨?_, ?_, ?_⟩
      · simp [bootstrapHermesPromiseSettler, h1, h2, hProvider]
      · intro cfg hmem
        simp only [bootstrapHermesPromiseSettler, h1, h2, hProvider, Bool.false_eq_true,
          if_false, List.mem_append, List.mem_cons, List.mem_singleton, List.mem_nil_iff,
          DICall.NewHermesPromiseSettler.injEq, reduceCtorEq, or_false, false_or] at hmem
        rcases hmem with hmem | hmem
        · exact Or.inl hmem
        · exact Or.inr (by rw [hmem]; exact ⟨rfl, rfl⟩)
      · simp [bootstrapHermesPromiseSettler, h1, h2, hProvider]
  · refine ⟨?_, ?_, ?_⟩
    · simp
    · intro cfg hmem
      simp only [bootstrapHermesPromiseSettler, h1, List.mem_append, List.mem_cons,
        List.mem_singleton, List.mem_nil_iff, reduceCtorEq, or_false] at hmem
      exact Or.inl hmem
    · simp [bootstrapHermesPromiseSettler, h1]

theorem bootstrapHermesPromiseSettler_config_witness :
    sampleProviderOptions.Consumer = false ∧
    (bootstrapHermesPromiseSettler sampleDIEnv emptyDependencies
        sampleProviderOptions).1.HermesPromiseSettler =
      some (.settler
        { Threshold := { bits := 0x3FB999999999999A }
          MaxWaitForSettlement := 7200000000000 }) :=
  ⟨rfl, (bootstrapHermesPromiseSettler_config sampleDIEnv emptyDependencies
    sampleProviderOptions rfl).2.2 rfl⟩

/-- C7: with `Consumer = false`, `bootstrapProviderRegistrar` builds one provider registrar
whose configuration has `MaxRetries = Transactor.ProviderMaxRegistrationAttempts`,
`DelayBetweenRetries = Transactor.ProviderRegistrationRetryDelay`,
`Stake = Transactor.ProviderRegistrationStake` and `IsTestnet2 = OptionsNetwork.Testnet2`,
stores it in `di.ProviderRegistrar`, subscribes it, and returns what that `Subscribe`
returned; with `Consumer = true` it changes nothing in `di`, makes no call, and returns nil. -/
theorem bootstrapProviderRegistrar_spec (env : DIEnv) (di : Dependencies)
    (nodeOptions : Options) :
    (nodeOptions.Consumer = false →
      ∃ registrar : ProviderRegistrar,
        registrar.cfg.MaxRetries = nodeOptions.Transactor.ProviderMaxRegistrationAttempts ∧
        registrar.cfg.DelayBetweenRetries =
          nodeOptions.Transactor.ProviderRegistrationRetryDelay ∧
        registrar.cfg.Stake = nodeOptions.Transactor.ProviderRegistrationStake ∧
        registrar.cfg.IsTestnet2 = nodeOptions.OptionsNetwork.Testnet2 ∧
        (bootstrapProviderRegistrar env di nodeOptions).1.ProviderRegistrar = some registrar ∧
        (bootstrapProviderRegistrar env di nodeOptions).1.calls =
          di.calls ++ [.NewProviderRegistrar registrar.cfg,
            .SubscribeProviderRegistrar registrar.cfg] ∧
        (bootstrapProviderRegistrar env di nodeOptions).2 =
          env.SubscribeProviderRegistrar registrar) ∧
    (nodeOptions.Consumer = true →
      bootstrapProviderRegistrar env di nodeOptions = (di, none)) := by
  constructor
  · intro h
    refine ⟨{ cfg :=
        { IsTestnet2 := nodeOptions.OptionsNetwork.Testnet2
          MaxRetries := nodeOptions.Transactor.ProviderMaxRegistrationAttempts
          Stake := nodeOptions.Transactor.ProviderRegistrationStake
          DelayBetweenRetries := nodeOptions.Transactor.ProviderRegistrationRetryDelay } },
      rfl, rfl, rfl, rfl, ?_, ?_, ?_⟩ <;> simp [bootstrapProviderRegistrar, h]
  · intro h
    simp [bootstrapProviderRegistrar, h]

/-! ## Theorems: the `register` command -/

theorem bigIntSetString_examples :
    bigIntSetString "6200000000" = some 6200000000 ∧ bigIntSetString "-15" = some (-15) ∧
    bigIntSetString "+007" = some 7 ∧ bigIntSetString "" = none ∧
    bigIntSetString "12x" = none ∧ bigIntSetString "0x10" = none ∧
    bigIntSetString "1_000" = none ∧ bigIntSetString "-" = none := by
  decide

theorem digitsFold_none (cs : List Char) :
    cs.foldl
      (fun acc c => acc.bind fun n => if c.isDigit then some (n * 10 + (c.toNat - 48)) else none)
      (none : Option Nat) = none := by
  induction cs with
  | nil => rfl
  | cons c cs ih => simpa using ih

theorem digitsFold_some (cs : List Char) :
    ∀ a : Nat,
      cs.foldl
        (fun acc c =>
          acc.bind fun n => if c.isDigit then some (n * 10 + (c.toNat - 48)) else none)
        (some a) =
      if ∀ c ∈ cs, c.isDigit = true then
        some (a * 10 ^ cs.length + Nat.ofDigits 10 (cs.reverse.map fun c => c.toNat - 48))
      else none := by
  induction cs with
  | nil =>
    intro a
    simp
  | cons c cs ih =>
    intro a
    by_cases hc : c.isDigit = true
    · simp only [List.foldl_cons, Option.some_bind, hc, if_true]
      rw [ih]
      by_cases hall : ∀ c ∈ cs, c.isDigit = true
      · have hall2 : ∀ x ∈ c :: cs, x.isDigit = true := by
          intro x hx
          rcases List.mem_cons.mp hx with h | h
          · rw [h]; exact hc
          · exact hall x h
        rw [if_pos hall, if_pos hall2]
        simp only [List.reverse_cons, List.map_append, List.map_cons, List.map_nil,
          Nat.ofDigits_append, List.length_map, List.length_reverse, List.length_cons,
          Nat.ofDigits_singleton]
        congr 1
        ring
      · have hall2 : ¬ ∀ x ∈ c :: cs, x.isDigit = true := by
          intro h
          exact hall fun x hx => h x (List.mem_cons_of_mem _ hx)
        rw [if_neg hall, if_neg hall2]
    · have hall2 : ¬ ∀ x ∈ c :: cs, x.isDigit = true := by
        intro h
        exact hc (h c (List.mem_cons_self _ _))
      simp only [List.foldl_cons, Option.some_bind, hc]
      rw [if_neg hall2]
      simpa using digitsFold_none cs

theorem decimalDigits_eq_some_iff (cs : List Char) (n : Nat) :
    decimalDigits cs = some n ↔
      cs ≠ [] ∧ (∀ c ∈ cs, c.isDigit = true) ∧
        n = Nat.ofDigits 10 (cs.reverse.map fun c => c.toNat - 48) := by
  cases cs with
  | nil => simp [decimalDigits]
  | cons c cs =>
    have h : decimalDigits (c :: cs) = (c :: cs).foldl
        (fun acc c =>
          acc.bind fun n => if c.isDigit then some (n * 10 + (c.toNat - 48)) else none)
        (some 0) := rfl
    rw [h, digitsFold_some]
    by_cases hall : ∀ x ∈ c :: cs, x.isDigit = true
    · rw [if_pos hall]
      simp only [Nat.zero_mul, Nat.zero_add, Option.some.injEq, ne_eq, reduceCtorEq,
        not_false_eq_true, true_and]
      constructor
      · intro h
        exact ⟨hall, h.symm⟩
      · intro h
        exact h.2.symm
    · rw [if_neg hall]
      constructor
      · intro h
        cases h
      · intro h
        exact absurd h.2.1 hall

theorem bigIntSetString_eq_some_iff (s : String) (z : Int) :
    bigIntSetString s = some z ↔
      ∃ digits : List Char, digits ≠ [] ∧ (∀ c ∈ digits, c.isDigit = true) ∧
        ((s.toList = digits ∧
            z = Int.ofNat (Nat.ofDigits 10 (digits.reverse.map fun c => c.toNat - 48))) ∨
         (s.toList = '+' :: digits ∧
            z = Int.ofNat (Nat.ofDigits 10 (digits.reverse.map fun c => c.toNat - 48))) ∨
         (s.toList = '-' :: digits ∧
            z = -Int.ofNat (Nat.ofDigits 10 (digits.reverse.map fun c => c.toNat - 48)))) := by
  have hnotdigit : ∀ (c : Char) (cs digits : List Char), c.isDigit = false →
      (∀ x ∈ digits, x.isDigit = true) → digits ≠ [] → c :: cs ≠ digits := by
    intro c cs digits hc hall hne heq
    subst heq
    have := hall c (List.mem_cons_self _ _)
    rw [hc] at this
    exact Bool.false_ne_true this
  unfold bigIntSetString
  split
  · next cs hs =>
    rw [hs]
    constructor
    · intro h
      rcases hd : decimalDigits cs with _ | n
      · rw [hd] at h
        cases h
      · rw [hd] at h
        obtain ⟨hne, hall, hn⟩ := (decimalDigits_eq_some_iff cs n).mp hd
        refine ⟨cs, hne, hall, Or.inr (Or.inr ⟨rfl, ?_⟩)⟩
        simp only [Option.map_some', Option.some.injEq] at h
        rw [← h, hn]
    · rintro ⟨digits, hne, hall, h | h | h⟩
      · exact absurd h.1 (hnotdigit _ _ _ (by decide) hall hne)
      · exact absurd (List.cons.inj h.1).1 (by decide)
      · obtain ⟨h1, h2⟩ := h
        have hcs : cs = digits := (List.cons.inj h1).2
        subst hcs
        rw [(decimalDigits_eq_some_iff cs _).mpr ⟨hne, hall, rfl⟩, h2]
        rfl
  · next cs hs =>
    rw [hs]
    constructor
    · intro h
      rcases hd : decimalDigits cs with _ | n
      · rw [hd] at h
        cases h
      · rw [hd] at h
        obtain ⟨hne, hall, hn⟩ := (decimalDigits_eq_some_iff cs n).mp hd
        refine ⟨cs, hne, hall, Or.inr (Or.inl ⟨rfl, ?_⟩)⟩
        simp only [Option.map_some', Option.some.injEq] at h
        rw [← h, hn]
    · rintro ⟨digits, hne, hall, h | h | h⟩
      · exact absurd h.1 (hnotdigit _ _ _ (by decide) hall hne)
      · obtain ⟨h1, h2⟩ := h
        have hcs : cs = digits := (List.cons.inj h1).2
        subst hcs
        rw [(decimalDigits_eq_some_iff cs _).mpr ⟨hne, hall, rfl⟩, h2]
        rfl
      · exact absurd (List.cons.inj h.1).1 (by decide)
  · next cs hminus hplus =>
    constructor
    · intro h
      rcases hd : decimalDigits s.toList with _ | n
      · rw [hd] at h
        cases h
      · rw [hd] at h
        obtain ⟨hne, hall, hn⟩ := (decimalDigits_eq_some_iff s.toList n).mp hd
        refine ⟨s.toList, hne, hall, Or.inl ⟨rfl, ?_⟩⟩
        simp only [Option.map_some', Option.some.injEq] at h
        rw [← h, hn]
    · rintro ⟨digits, hne, hall, h | h | h⟩
      · obtain ⟨h1, h2⟩ := h
        rw [h1, (decimalDigits_eq_some_iff digits _).mpr ⟨hne, hall, rfl⟩, h2]
        rfl
      · exact absurd h.1 (hplus digits)
      · exact absurd h.1 (hminus digits)

/-- C8, evaluated on the code: the `register` command does not always pass a stake that is
argument 2 parsed as a base-10 integer.  For `register 0xabc 100x` its one call is
`RegisterIdentity("0xabc", "", nil, nil)`, with a nil stake.  The rest of the claim holds.
With 0 or more than 4 arguments the command only prints the usage and makes no call.  With 1
to 4 arguments, the second being a base-10 integer when present, the tequilapi calls in its
trace are exactly one `RegisterIdentity`, with address = argument 1, stake = the integer
argument 2 denotes (0 when absent), beneficiary = argument 3 (the empty string when absent)
and referral token = argument 4 (nil when absent).  A string denotes the integer `z` exactly
when it is an optional sign followed by one or more decimal digits whose value in base 10,
with that sign, is `z`. -/
theorem registerIdentity_arguments (env : CliEnv) :
    (registerIdentity env ["0xabc", "100x"]).1.filter isCall =
      [Out.callRegisterIdentity "0xabc" "" none none] ∧
    (∀ actionArgs : List String, (actionArgs.length = 0 ∨ 4 < actionArgs.length) →
      registerIdentity env actionArgs =
        ([Out.info [.str ("Usage: " ++ usageRegisterIdentity)]], Exit.returned)) ∧
    (∀ address,
      (registerIdentity env [address]).1.filter isCall =
        [Out.callRegisterIdentity address "" (some 0) none]) ∧
    (∀ address stake z, bigIntSetString stake = some z →
      (registerIdentity env [address, stake]).1.filter isCall =
        [Out.callRegisterIdentity address "" (some z) none]) ∧
    (∀ address stake beneficiary z, bigIntSetString stake = some z →
      (registerIdentity env [address, stake, beneficiary]).1.filter isCall =
        [Out.callRegisterIdentity address beneficiary (some z) none]) ∧
    (∀ address stake beneficiary token z, bigIntSetString stake = some z →
      (registerIdentity env [address, stake, beneficiary, token]).1.filter isCall =
        [Out.callRegisterIdentity address beneficiary (some z) (some token)]) ∧
    (∀ (stake : String) (z : Int), bigIntSetString stake = some z ↔
      ∃ digits : List Char, digits ≠ [] ∧ (∀ c ∈ digits, c.isDigit = true) ∧
        ((stake.toList = digits ∧
            z = Int.ofNat (Nat.ofDigits 10 (digits.reverse.map fun c => c.toNat - 48))) ∨
         (stake.toList = '+' :: digits ∧
            z = Int.ofNat (Nat.ofDigits 10 (digits.reverse.map fun c => c.toNat - 48))) ∨
         (stake.toList = '-' :: digits ∧
            z = -Int.ofNat (Nat.ofDigits 10 (digits.reverse.map fun c => c.toNat - 48))))) := by
  refine ⟨?_, ?_, ?_, ?_, ?_, ?_, bigIntSetString_eq_some_iff⟩
  · have hs : bigIntSetString "100x" = none := by decide
    cases h : env.RegisterIdentity "0xabc" "" none none <;>
      simp [registerIdentity, hs, h, isCall]
  · intro actionArgs h
    have hguard : (decide (actionArgs.length < 1) || decide (actionArgs.length > 4)) = true := by
      rcases h with h | h
      · simp [h]
      · simp [h]
    unfold registerIdentity
    rw [if_pos hguard]
  · intro address
    cases h : env.RegisterIdentity address "" (some 0) none <;>
      simp [registerIdentity, h, isCall]
  · intro address stake z hs
    cases h : env.RegisterIdentity address "" (some z) none <;>
      simp [registerIdentity, hs, h, isCall]
  · intro address stake beneficiary z hs
    cases h : env.RegisterIdentity address beneficiary (some z) none <;>
      simp [registerIdentity, hs, h, isCall]
  · intro address stake beneficiary token z hs
    cases h : env.RegisterIdentity address beneficiary (some z) (some token) <;>
      simp [registerIdentity, hs, h, isCall]

/-! ## Theorems: the mobile entrypoint -/

theorem Connect_cases (env : MobileEnv) (mb : MobileNode) (req : ConnectRequest)
    (past : List MobileCall) :
    (Connect env mb req past).1 =
      match (connectLookup env req past).2 with
      | some err =>
        .returned { ErrorCode := connectErrInvalidProposal, ErrorMessage := err.Error }
      | none =>
        match (connectDNS env req past).1.2 with
        | some err => .returned { ErrorCode := connectErrUnknown, ErrorMessage := err.Error }
        | none =>
          match (connectHermes env mb req past).2 with
          | some err => .returned { ErrorCode := connectErrUnknown, ErrorMessage := err.Error }
          | none =>
            match (connectLookup env req past).1 with
            | none => .panicked
            | some proposal =>
              match connectManager env mb req past proposal with
              | some err =>
                if errorsIs err env.ErrInsufficientBalance then
                  .returned { ErrorCode := connectErrInsufficientBalance, ErrorMessage := "" }
                else
                  .returned { ErrorCode := connectErrUnknown, ErrorMessage := err.Error }
              | none => .returned { ErrorCode := "", ErrorMessage := "" } := by
  unfold Connect connectManager connectHermes connectDNS connectLookup
  simp only []
  split
  · rfl
  · split
    · rfl
    · split
      · rfl
      · split
        · rfl
        · split
          · split <;> rfl
          · rfl

/-- C9: `MobileNode.Connect` maps each failure to an error code.  It returns code
`"InsufficientBalance"`, with an empty message, exactly when the earlier steps succeed and
the connection manager fails with an error for which `errors.Is(err, ErrInsufficientBalance)`
holds; code `"InvalidProposal"` with the message of the error exactly when the proposal
lookup fails; code `"Unknown"` with the message of the error for a DNS option error, for an
active hermes lookup error, and for any other error of the connection manager; and the empty
response exactly when every step succeeds, the lookup yielding a proposal. -/
theorem Connect_error_codes (env : MobileEnv) (mb : MobileNode) (req : ConnectRequest)
    (past : List MobileCall) :
    ((∃ m, (Connect env mb req past).1 =
        .returned { ErrorCode := "InsufficientBalance", ErrorMessage := m }) ↔
      ((connectLookup env req past).2 = none ∧ (connectDNS env req past).1.2 = none ∧
        (connectHermes env mb req past).2 = none ∧
        ∃ proposal err, (connectLookup env req past).1 = some proposal ∧
          connectManager env mb req past proposal = some err ∧
          errorsIs err env.ErrInsufficientBalance = true)) ∧
    (∀ m, (Connect env mb req past).1 =
        .returned { ErrorCode := "InsufficientBalance", ErrorMessage := m } → m = "") ∧
    ((∃ m, (Connect env mb req past).1 =
        .returned { ErrorCode := "InvalidProposal", ErrorMessage := m }) ↔
      ∃ err, (connectLookup env req past).2 = some err) ∧
    (∀ err, (connectLookup env req past).2 = some err →
      (Connect env mb req past).1 =
        .returned { ErrorCode := "InvalidProposal", ErrorMessage := err.Error }) ∧
    (∀ err, (connectLookup env req past).2 = none →
      (connectDNS env req past).1.2 = some err →
      (Connect env mb req past).1 =
        .returned { ErrorCode := "Unknown", ErrorMessage := err.Error }) ∧
    (∀ err, (connectLookup env req past).2 = none → (connectDNS env req past).1.2 = none →
      (connectHermes env mb req past).2 = some err →
      (Connect env mb req past).1 =
        .returned { ErrorCode := "Unknown", ErrorMessage := err.Error }) ∧
    (∀ proposal err, (connectLookup env req past).2 = none →
      (connectDNS env req past).1.2 = none → (connectHermes env mb req past).2 = none →
      (connectLookup env req past).1 = some proposal →
      connectManager env mb req past proposal = some err →
      errorsIs err env.ErrInsufficientBalance = false →
      (Connect env mb req past).1 =
        .returned { ErrorCode := "Unknown", ErrorMessage := err.Error }) ∧
    ((Connect env mb req past).1 = .returned { ErrorCode := "", ErrorMessage := "" } ↔
      ((connectLookup env req past).2 = none ∧ (connectDNS env req past).1.2 = none ∧
        (connectHermes env mb req past).2 = none ∧
        ∃ proposal, (connectLookup env req past).1 = some proposal ∧
          connectManager env mb req past proposal = none)) := by
  rw [Connect_cases]
  rcases connectLookup env req past with ⟨lp, le⟩
  rcases connectDNS env req past with ⟨⟨d, de⟩, t2⟩
  rcases connectHermes env mb req past with ⟨ha, he⟩
  have hne1 : ¬ ("InvalidProposal" = "InsufficientBalance") := by decide
  have hne2 : ¬ ("Unknown" = "InsufficientBalance") := by decide
  have hne3 : ¬ ("Unknown" = "InvalidProposal") := by decide
  have hne4 : ¬ ("InsufficientBalance" = "InvalidProposal") := by decide
  have hne5 : ¬ ("" = "InsufficientBalance") := by decide
  have hne6 : ¬ ("" = "InvalidProposal") := by decide
  have hne7 : ¬ ("InvalidProposal" = "") := by decide
  have hne8 : ¬ ("Unknown" = "") := by decide
  have hne9 : ¬ ("InsufficientBalance" = "") := by decide
  cases le with
  | some e =>
    simp [connectErrInvalidProposal, hne1, hne7]
  | none =>
    cases de with
    | some e => simp [connectErrUnknown, hne2, hne3, hne8]
    | none =>
      cases he with
      | some e => simp [connectErrUnknown, hne2, hne3, hne8]
      | none =>
        cases lp with
        | none => simp
        | some p =>
          rcases hM : connectManager env mb req past p with _ | em
          · simp [hM, hne5, hne6]
            intro q err hq hc
            subst hq
            rw [hM] at hc
            cases hc
          · by_cases hIs : errorsIs em env.ErrInsufficientBalance = true
            · simp [hM, hIs, connectErrInsufficientBalance, hne4, hne9]
              intro q err hq hc
              subst hq
              rw [hM] at hc
              cases hc
              exact hIs
            · simp [hM, hIs, connectErrUnknown, hne2, hne3, hne8]
              intro q err hq hc _
              subst hq
              rw [hM] at hc
              cases hc
              rfl

theorem dnsOption_calls (env : MobileEnv) (req : ConnectRequest) (t : List MobileCall) :
    (dnsOption env req t).2 = t ∨ (dnsOption env req t).2 = t ++ [.NewDNSOption req.DNSOption] := by
  unfold dnsOption
  split
  · exact Or.inr rfl
  · exact Or.inl rfl

theorem Connect_calls_filter (env : MobileEnv) (mb : MobileNode) (req : ConnectRequest)
    (past : List MobileCall) :
    past <+: (Connect env mb req past).2 ∧
    (Connect env mb req past).2.filter isCheckChannel = past.filter isCheckChannel ∧
    (Connect env mb req past).2.filter isManagerDisconnect =
      past.filter isManagerDisconnect := by
  have hd := dnsOption_calls env req
    (past ++ [.Proposal { ProviderID := req.ProviderID, ServiceType := req.ServiceType }])
  unfold Connect
  simp only []
  rcases hd with hd | hd <;> rw [hd] <;>
    (repeat' split) <;>
    simp only [List.append_assoc] <;>
    exact ⟨List.prefix_append _ _, by simp [List.filter_append, isCheckChannel],
      by simp [List.filter_append, isManagerDisconnect]⟩

theorem Connect_calls (env : MobileEnv) (mb : MobileNode) (req : ConnectRequest)
    (past : List MobileCall) :
    ∃ suffix, (Connect env mb req past).2 = past ++ suffix ∧
      suffix.filter isCheckChannel = [] ∧ suffix.filter isManagerDisconnect = [] := by
  obtain ⟨⟨suffix, hs⟩, h2, h3⟩ := Connect_calls_filter env mb req past
  refine ⟨suffix, hs.symm, ?_, ?_⟩
  · rw [← hs, List.filter_append] at h2
    exact List.append_right_eq_self.mp h2
  · rw [← hs, List.filter_append] at h3
    exact List.append_right_eq_self.mp h3

theorem Connect_sample :
    Connect sampleMobileEnv { chainID := 5 } sampleConnectRequest [] =
      (.returned { ErrorCode := "InsufficientBalance", ErrorMessage := "" },
       [.Proposal { ProviderID := "0xprovider", ServiceType := "wireguard" },
        .GetActiveHermes 5,
        .ManagerConnect { Address := "0xconsumer" } { hex := "0xhermes" }
          { ProviderID := "0xprovider", ServiceType := "wireguard" }
          { DisableKillSwitch := false, DNS := { value := "auto" } },
        .Publish
          { ServiceType := "wireguard", ConsumerID := "0xconsumer", ProviderID := "0xprovider"
            Stage := .StageConnectionUnknownError
            Error := "connect failed: consumer has insufficient balance" }]) := by
  decide

/-- C10: `MobileNode.Reconnect`.  With `ForceReconnect` set it disconnects and then
connects, without a channel check.  Otherwise it checks the p2p channel first: when the
check returns an error it disconnects and then connects; when the check succeeds it returns
the empty response and makes no further call, so it has made the channel check and nothing
else exactly when the check succeeded.  In a reconnect the result is the result of
`Connect` run after the disconnect call, whatever `Disconnect` returned. -/
theorem Reconnect_spec (env : MobileEnv) (mb : MobileNode) (req : ConnectRequest)
    (past : List MobileCall) :
    (req.ForceReconnect = true →
      Reconnect env mb req past = Connect env mb req (past ++ [.ManagerDisconnect]) ∧
      ∃ suffix, (Reconnect env mb req past).2 = past ++ .ManagerDisconnect :: suffix ∧
        suffix.filter isCheckChannel = [] ∧ suffix.filter isManagerDisconnect = []) ∧
    (req.ForceReconnect = false →
      (∀ err, env.CheckChannel past checkChannelTimeout = some err →
        Reconnect env mb req past =
          Connect env mb req (past ++ [.CheckChannel checkChannelTimeout, .ManagerDisconnect]) ∧
        ∃ suffix, (Reconnect env mb req past).2 =
            past ++ .CheckChannel checkChannelTimeout :: .ManagerDisconnect :: suffix ∧
          suffix.filter isCheckChannel = [] ∧ suffix.filter isManagerDisconnect = []) ∧
      (env.CheckChannel past checkChannelTimeout = none →
        Reconnect env mb req past =
          (.returned { ErrorCode := "", ErrorMessage := "" },
           past ++ [.CheckChannel checkChannelTimeout])) ∧
      ((Reconnect env mb req past).2 = past ++ [.CheckChannel checkChannelTimeout] ↔
        env.CheckChannel past checkChannelTimeout = none)) ∧
    (Disconnect env past).2 = past ++ [.ManagerDisconnect] ∧
    reconnect env mb req past = Connect env mb req (past ++ [.ManagerDisconnect]) := by
  have hdis : ∀ t, (Disconnect env t).2 = t ++ [.ManagerDisconnect] := by
    intro t
    unfold Disconnect
    cases env.ManagerDisconnect t <;> rfl
  have hre : ∀ t, reconnect env mb req t = Connect env mb req (t ++ [.ManagerDisconnect]) := by
    intro t
    unfold reconnect
    rw [hdis]
  refine ⟨?_, ?_, hdis past, hre past⟩
  · intro hf
    have hrun : Reconnect env mb req past = Connect env mb req (past ++ [.ManagerDisconnect]) := by
      simp [Reconnect, hf, hre]
    refine ⟨hrun, ?_⟩
    obtain ⟨suffix, h1, h2, h3⟩ := Connect_calls env mb req (past ++ [.ManagerDisconnect])
    exact ⟨suffix, by rw [hrun, h1]; simp, h2, h3⟩
  · intro hf
    have herr : ∀ err, env.CheckChannel past checkChannelTimeout = some err →
        Reconnect env mb req past =
          Connect env mb req
            (past ++ [.CheckChannel checkChannelTimeout, .ManagerDisconnect]) := by
      intro err hc
      simp [Reconnect, hf, hc, hre]
    refine ⟨?_, ?_, ?_⟩
    · intro err hc
      refine ⟨herr err hc, ?_⟩
      obtain ⟨suffix, h1, h2, h3⟩ := Connect_calls env mb req
        (past ++ [.CheckChannel checkChannelTimeout, .ManagerDisconnect])
      exact ⟨suffix, by rw [herr err hc, h1]; simp, h2, h3⟩
    · intro hc
      simp [Reconnect, hf, hc]
    · constructor
      · intro htrace
        rcases hc : env.CheckChannel past checkChannelTimeout with _ | err
        · rfl
        · obtain ⟨suffix, h1, _, _⟩ := Connect_calls env mb req
            (past ++ [.CheckChannel checkChannelTimeout, .ManagerDisconnect])
          rw [herr err hc, h1] at htrace
          simp at htrace
      · intro hc
        simp [Reconnect, hf, hc]

/-! ## Theorems: identity registration and import on the mobile node -/

/-- C11: `MobileNode.RegisterIdentity`.  When fetching the registration fees fails it
returns the cause wrapped with `"could not get registration fees"` and submits no
registration.  Otherwise it submits exactly one registration, with the identity address of
the request, stake 0, the fetched fee, an empty beneficiary, the chain ID of the node, and a
referral token that is nil exactly when the `Token` of the request is empty; it returns nil
exactly when that submission succeeds, and otherwise the cause wrapped with
`"could not register identity"`. -/
theorem RegisterIdentity_spec (env : TransactorEnv) (mb : MobileNode)
    (req : RegisterIdentityRequest) :
    (∀ err, (env.FetchRegistrationFees mb.chainID).2 = some err →
      (RegisterIdentity env mb req).1 = some (.wrap "could not get registration fees" err) ∧
      (RegisterIdentity env mb req).2.filter isSubmitRegistration = []) ∧
    ((env.FetchRegistrationFees mb.chainID).2 = none →
      ∃ token : Option String,
        (token = none ↔ req.Token = "") ∧ (∀ t, token = some t → t = req.Token) ∧
        (RegisterIdentity env mb req).2.filter isSubmitRegistration =
          [.RegisterIdentity req.IdentityAddress (some 0)
            (env.FetchRegistrationFees mb.chainID).1.Fee "" mb.chainID token] ∧
        ((RegisterIdentity env mb req).1 = none ↔
          env.RegisterIdentity req.IdentityAddress (some 0)
            (env.FetchRegistrationFees mb.chainID).1.Fee "" mb.chainID token = none) ∧
        (∀ err, env.RegisterIdentity req.IdentityAddress (some 0)
            (env.FetchRegistrationFees mb.chainID).1.Fee "" mb.chainID token = some err →
          (RegisterIdentity env mb req).1 =
            some (.wrap "could not register identity" err))) := by
  rcases hF : env.FetchRegistrationFees mb.chainID with ⟨fees, _ | ferr⟩
  · refine ⟨by simp, fun _ => ?_⟩
    refine ⟨if req.Token = "" then none else some req.Token, ?_, ?_, ?_, ?_, ?_⟩
    · by_cases ht : req.Token = "" <;> simp [ht]
    · intro t
      by_cases ht : req.Token = "" <;> simp [ht]
      intro h
      exact h.symm
    · cases hR : env.RegisterIdentity req.IdentityAddress (some 0) fees.Fee "" mb.chainID
          (if req.Token = "" then none else some req.Token) <;>
        simp [RegisterIdentity, hF, hR, isSubmitRegistration]
    · cases hR : env.RegisterIdentity req.IdentityAddress (some 0) fees.Fee "" mb.chainID
          (if req.Token = "" then none else some req.Token) <;>
        simp [RegisterIdentity, hF, hR]
    · intro err hR
      simp [RegisterIdentity, hF, hR]
  · refine ⟨?_, by simp⟩
    intro err herr
    simp only [Option.some.injEq] at herr
    subst herr
    simp [RegisterIdentity, hF, isSubmitRegistration]

theorem ImportIdentity_forwards (env : ImportEnv) (data passphrase : String) :
    ((env.Import data passphrase "").2 = none →
      ImportIdentity env data passphrase = ((env.Import data passphrase "").1.Address, none)) ∧
    (∀ err, (env.Import data passphrase "").2 = some err →
      ImportIdentity env data passphrase = ("", some err)) := by
  rcases h : env.Import data passphrase "" with ⟨identity, _ | e⟩
  · simp [ImportIdentity, h]
  · simp [ImportIdentity, h]

/-- C12, as amended: `ImportIdentity` makes no registration check.  For every keystore blob
and passphrase it returns what `identityMover.Import` yields: the address of the imported
identity and a nil error, or the empty address and the error of `Import` when that fails.
The registration status of the identity has no part in the result. -/
theorem ImportIdentity_no_registration_check (env : ImportEnv) (data passphrase : String) :
    (∀ identity, env.Import data passphrase "" = (identity, none) →
      ImportIdentity env data passphrase = (identity.Address, none)) ∧
    (∀ identity err, env.Import data passphrase "" = (identity, some err) →
      ImportIdentity env data passphrase = ("", some err)) ∧
    (∀ status : Int → Identity → RegistrationStatus,
      ImportIdentity { env with GetRegistrationStatus := status } data passphrase =
        ImportIdentity env data passphrase) := by
  refine ⟨?_, ?_, ?_⟩
  · intro identity h
    simp [ImportIdentity, h]
  · intro identity err h
    simp [ImportIdentity, h]
  · intro status
    rfl

/-- C12, as stated, fails: with the keystore and passphrase of the end-to-end test
`Test identity import`, whose identity the registry reports as `Unregistered`,
`ImportIdentity` returns a nil error and an address that is not empty, as the test
requires. -/
theorem ImportIdentity_imports_unregistered :
    (e2eImportEnv.Import e2eKeystore e2eKeystorePass "").1 = e2eImportedIdentity ∧
    e2eImportEnv.GetRegistrationStatus 5 e2eImportedIdentity = .Unregistered ∧
    (ImportIdentity e2eImportEnv e2eKeystore e2eKeystorePass).2 = none ∧
    (ImportIdentity e2eImportEnv e2eKeystore e2eKeystorePass).1 ≠ "" ∧
    (ImportIdentity e2eImportEnv e2eKeystore e2eKeystorePass).1 =
      e2eImportedIdentity.Address := by
  refine ⟨?_, rfl, ?_, ?_, ?_⟩ <;>
    simp [ImportIdentity, e2eImportEnv, e2eImportedIdentity]

theorem RegisterIdentity_sample :
    RegisterIdentity sampleTransactorEnv { chainID := 5 }
        { IdentityAddress := "0xconsumer", Token := "" } =
      (none, [.FetchRegistrationFees 5,
        .RegisterIdentity "0xconsumer" (some 0) (some 100) "" 5 none]) ∧
    RegisterIdentity sampleTransactorEnv { chainID := 5 }
        { IdentityAddress := "0xconsumer", Token := "promo" } =
      (none, [.FetchRegistrationFees 5,
        .RegisterIdentity "0xconsumer" (some 0) (some 100) "" 5 (some "promo")]) := by
  decide

/-! ## Theorems: `NewNode` -/

theorem splitSlash_ne_nil (p : List Char) : splitSlash p ≠ [] := by
  cases p with
  | nil => simp [splitSlash]
  | cons c cs =>
    unfold splitSlash
    split_ifs <;> simp

theorem splitSlash_append (a t : List Char) :
    splitSlash (a ++ '/' :: t) = splitSlash a ++ splitSlash t := by
  induction a with
  | nil => simp [splitSlash]
  | cons c a ih =>
    rcases hsa : splitSlash a with _ | ⟨x, xs⟩
    · exact absurd hsa (splitSlash_ne_nil a)
    · by_cases hc : c = '/'
      · simp [splitSlash, hc, ih, hsa]
      · simp [splitSlash, hc, ih, hsa]

theorem splitSlash_no_slash (a : List Char) (h : '/' ∉ a) : splitSlash a = [a] := by
  induction a with
  | nil => rfl
  | cons c a ih =>
    have hc : c ≠ '/' := fun hc => h (by simp [hc])
    have ha : '/' ∉ a := fun ha => h (List.mem_cons_of_mem _ ha)
    simp [splitSlash, hc, ih ha]

theorem mem_splitSlash (p : List Char) : ∀ x ∈ splitSlash p, '/' ∉ x := by
  induction p with
  | nil =>
    intro x hx
    simp [splitSlash] at hx
    simp [hx]
  | cons c cs ih =>
    intro x hx
    rcases hs : splitSlash cs with _ | ⟨y, ys⟩
    · exact absurd hs (splitSlash_ne_nil cs)
    · rw [hs] at ih
      by_cases hc : c = '/'
      · simp only [splitSlash, hc, if_true, hs, List.mem_cons] at hx
        rcases hx with hx | hx
        · simp [hx]
        · exact ih x (List.mem_cons.mpr hx)
      · simp only [splitSlash, hc, if_false, hs, List.headD_cons, List.tail_cons,
          List.mem_cons] at hx
        rcases hx with hx | hx
        · rw [hx]
          intro hmem
          rcases List.mem_cons.mp hmem with h | h
          · exact hc h.symm
          · exact ih y (List.mem_cons_self _ _) h
        · exact ih x (List.mem_cons_of_mem _ hx)

theorem joinSlash_append_singleton (xs : List (List Char)) (x : List Char) (h : xs ≠ []) :
    joinSlash (xs ++ [x]) = joinSlash xs ++ '/' :: x := by
  induction xs with
  | nil => exact absurd rfl h
  | cons a rest ih =>
    cases rest with
    | nil => simp [joinSlash]
    | cons b rest =>
      have := ih (by simp)
      simp only [List.cons_append] at this ⊢
      simp [joinSlash, this]

theorem splitSlash_joinSlash (xs : List (List Char)) (hne : xs ≠ [])
    (h : ∀ x ∈ xs, '/' ∉ x) : splitSlash (joinSlash xs) = xs := by
  induction xs with
  | nil => exact absurd rfl hne
  | cons a rest ih =>
    have ha : '/' ∉ a := h a (List.mem_cons_self _ _)
    cases rest with
    | nil => simpa [joinSlash] using splitSlash_no_slash a ha
    | cons b rest =>
      have := ih (by simp) (fun x hx => h x (List.mem_cons_of_mem _ hx))
      simp only [joinSlash] at this ⊢
      rw [splitSlash_append, splitSlash_no_slash a ha, this]
      rfl

theorem joinSlash_head (xs : List (List Char)) (x : List Char) (c : Char) (cs : List Char)
    (h : x = c :: cs) : ∃ tail, joinSlash (x :: xs) = c :: tail := by
  cases xs with
  | nil => exact ⟨cs, by simp [joinSlash, h]⟩
  | cons y ys => exact ⟨cs ++ '/' :: joinSlash (y :: ys), by simp [joinSlash, h]⟩

theorem cleanStep_name (rooted : Bool) (st : Nat × List (List Char)) (x : List Char)
    (h1 : x ≠ []) (h2 : x ≠ ['.']) (h3 : x ≠ ['.', '.']) :
    cleanStep rooted st x = (st.1, st.2 ++ [x]) := by
  simp [cleanStep, h1, h2, h3]

theorem foldl_cleanStep_names (rooted : Bool) (xs : List (List Char))
    (h : ∀ x ∈ xs, x ≠ [] ∧ x ≠ ['.'] ∧ x ≠ ['.', '.']) :
    ∀ (k : Nat) (acc : List (List Char)),
      xs.foldl (cleanStep rooted) (k, acc) = (k, acc ++ xs) := by
  induction xs with
  | nil =>
    intro k acc
    simp
  | cons x xs ih =>
    intro k acc
    obtain ⟨h1, h2, h3⟩ := h x (List.mem_cons_self _ _)
    rw [List.foldl_cons, cleanStep_name rooted (k, acc) x h1 h2 h3,
      ih (fun y hy => h y (List.mem_cons_of_mem _ hy))]
    simp

theorem foldl_cleanStep_dotdots (n : Nat) :
    ∀ k : Nat, (List.replicate n ['.', '.']).foldl (cleanStep false) (k, []) = (k + n, []) := by
  induction n with
  | zero =>
    intro k
    simp
  | succ n ih =>
    intro k
    rw [List.replicate_succ, List.foldl_cons]
    have : cleanStep false (k, []) ['.', '.'] = (k + 1, []) := by
      simp [cleanStep]
    rw [this, ih]
    congr 1
    omega

/-- What `Clean` gives for a non-empty path followed by a separator and a plain name. -/
theorem cleanChars_append_name (p x : List Char) (hp : p ≠ [])
    (h1 : x ≠ []) (h2 : x ≠ ['.']) (h3 : x ≠ ['.', '.']) (h4 : '/' ∉ x) :
    cleanChars (p ++ '/' :: x) =
      (if decide (p.head? = some '/') then ['/'] else []) ++
        joinSlash (List.replicate
            ((splitSlash p).foldl (cleanStep (decide (p.head? = some '/'))) (0, [])).1
            ['.', '.'] ++
          ((splitSlash p).foldl (cleanStep (decide (p.head? = some '/'))) (0, [])).2 ++
          [x]) := by
  have hne : p ++ '/' :: x ≠ [] := by simp
  have hhead : (p ++ '/' :: x).head? = p.head? := by
    cases p with
    | nil => exact absurd rfl hp
    | cons c cs => rfl
  unfold cleanChars
  rw [if_neg hne]
  simp only [hhead, splitSlash_append, splitSlash_no_slash x h4, List.foldl_append,
    List.foldl_cons, List.foldl_nil]
  rw [cleanStep_name _ _ x h1 h2 h3]
  simp only [← List.append_assoc]
  set comps := List.replicate
      ((splitSlash p).foldl (cleanStep (decide (p.head? = some '/'))) (0, [])).1 ['.', '.'] ++
    ((splitSlash p).foldl (cleanStep (decide (p.head? = some '/'))) (0, [])).2 with hcomps
  have hout : (if decide (p.head? = some '/') = true then ['/'] else []) ++
      joinSlash (comps ++ [x]) ≠ [] := by
    intro h
    have h' := (List.append_eq_nil.mp h).2
    cases hc : comps with
    | nil =>
      rw [hc] at h'
      simp [joinSlash] at h'
      exact h1 h'
    | cons a rest =>
      rw [joinSlash_append_singleton comps x (by simp [hc])] at h'
      simp at h'
  rw [if_neg hout]

/-- A clean path other than `/` and `.` followed by a separator and a plain name is clean. -/
theorem cleanChars_clean_append (p x : List Char) (hclean : cleanChars p = p)
    (hroot : p ≠ ['/']) (hdot : p ≠ ['.'])
    (h1 : x ≠ []) (h2 : x ≠ ['.']) (h3 : x ≠ ['.', '.']) (h4 : '/' ∉ x) :
    cleanChars (p ++ '/' :: x) = p ++ '/' :: x := by
  have hp : p ≠ [] := by
    intro h
    rw [h] at hclean
    simp [cleanChars] at hclean
  rw [cleanChars_append_name p x hp h1 h2 h3 h4]
  unfold cleanChars at hclean
  rw [if_neg hp] at hclean
  simp only at hclean
  set r := decide (p.head? = some '/') with hr
  set comps := List.replicate ((splitSlash p).foldl (cleanStep r) (0, [])).1 ['.', '.'] ++
    ((splitSlash p).foldl (cleanStep r) (0, [])).2 with hcomps
  by_cases hout : (if r = true then ['/'] else []) ++ joinSlash comps = []
  · rw [if_pos hout] at hclean
    exact absurd hclean.symm hdot
  · rw [if_neg hout] at hclean
    by_cases hc : comps = []
    · rw [hc] at hclean
      simp only [joinSlash, List.append_nil] at hclean
      by_cases hrt : r = true
      · rw [if_pos hrt] at hclean
        exact absurd hclean.symm hroot
      · rw [if_neg hrt] at hclean
        exact absurd hclean.symm hp
    · rw [joinSlash_append_singleton comps x hc, ← List.append_assoc, hclean]

theorem cleanStep_keeps_names (rooted : Bool) (st : Nat × List (List Char)) (x : List Char)
    (hx : '/' ∉ x)
    (hnames : ∀ n ∈ st.2, n ≠ [] ∧ n ≠ ['.'] ∧ n ≠ ['.', '.'] ∧ '/' ∉ n)
    (hroot : rooted = true → st.1 = 0) :
    (∀ n ∈ (cleanStep rooted st x).2, n ≠ [] ∧ n ≠ ['.'] ∧ n ≠ ['.', '.'] ∧ '/' ∉ n) ∧
    (rooted = true → (cleanStep rooted st x).1 = 0) := by
  unfold cleanStep
  by_cases h1 : x = [] ∨ x = ['.']
  · rw [if_pos h1]
    exact ⟨hnames, hroot⟩
  · rw [if_neg h1]
    by_cases h3 : x = ['.', '.']
    · rw [if_pos h3]
      by_cases hs : st.2 ≠ []
      · rw [if_pos hs]
        exact ⟨fun n hn => hnames n (List.mem_of_mem_dropLast hn), hroot⟩
      · rw [if_neg hs]
        by_cases hr : rooted = true
        · rw [if_pos hr]
          exact ⟨hnames, hroot⟩
        · rw [if_neg hr]
          exact ⟨fun n hn => by simp at hn, fun h => absurd h hr⟩
    · rw [if_neg h3]
      refine ⟨?_, hroot⟩
      intro n hn
      rcases List.mem_append.mp hn with h | h
      · exact hnames n h
      · rw [List.mem_singleton] at h
        subst h
        exact ⟨fun h => h1 (Or.inl h), fun h => h1 (Or.inr h), h3, hx⟩

theorem foldl_cleanStep_keeps_names (rooted : Bool) (xs : List (List Char))
    (hxs : ∀ x ∈ xs, '/' ∉ x) :
    ∀ st : Nat × List (List Char),
      (∀ n ∈ st.2, n ≠ [] ∧ n ≠ ['.'] ∧ n ≠ ['.', '.'] ∧ '/' ∉ n) →
      (rooted = true → st.1 = 0) →
      (∀ n ∈ (xs.foldl (cleanStep rooted) st).2,
        n ≠ [] ∧ n ≠ ['.'] ∧ n ≠ ['.', '.'] ∧ '/' ∉ n) ∧
      (rooted = true → (xs.foldl (cleanStep rooted) st).1 = 0) := by
  induction xs with
  | nil =>
    intro st hnames hroot
    exact ⟨hnames, hroot⟩
  | cons x xs ih =>
    intro st hnames hroot
    have hstep := cleanStep_keeps_names rooted st x (hxs x (List.mem_cons_self _ _))
      hnames hroot
    exact ih (fun y hy => hxs y (List.mem_cons_of_mem _ hy)) _ hstep.1 hstep.2

theorem cleanChars_state_aux (r : Bool) (k : Nat) (ns : List (List Char))
    (hnames : ∀ n ∈ ns, n ≠ [] ∧ n ≠ ['.'] ∧ n ≠ ['.', '.'] ∧ '/' ∉ n)
    (hroot : r = true → k = 0) (q : List Char)
    (hq : q = if (if r then ['/'] else []) ++
          joinSlash (List.replicate k ['.', '.'] ++ ns) = [] then ['.']
        else (if r then ['/'] else []) ++ joinSlash (List.replicate k ['.', '.'] ++ ns)) :
    q ≠ [] ∧ decide (q.head? = some '/') = r ∧
    (splitSlash q).foldl (cleanStep r) (0, []) = (k, ns) := by
  have hnames3 : ∀ n ∈ ns, n ≠ [] ∧ n ≠ ['.'] ∧ n ≠ ['.', '.'] :=
    fun n hn => ⟨(hnames n hn).1, (hnames n hn).2.1, (hnames n hn).2.2.1⟩
  cases r with
  | true =>
    have hk : k = 0 := hroot rfl
    subst hk
    have hq2 : q = '/' :: joinSlash ns := by
      rw [hq]
      simp
    rw [hq2]
    refine ⟨by simp, by simp, ?_⟩
    have hsplit : splitSlash ('/' :: joinSlash ns) = [] :: splitSlash (joinSlash ns) := by
      simp [splitSlash]
    have hskip : cleanStep true (0, []) [] = (0, []) := by simp [cleanStep]
    rw [hsplit, List.foldl_cons, hskip]
    by_cases hns : ns = []
    · subst hns
      simp [joinSlash, splitSlash, cleanStep]
    · rw [splitSlash_joinSlash ns hns (fun n hn => (hnames n hn).2.2.2),
        foldl_cleanStep_names true ns hnames3]
      simp
  | false =>
    simp only [Bool.false_eq_true, if_false, List.nil_append] at hq
    rcases hc : List.replicate k ['.', '.'] ++ ns with _ | ⟨a, rest⟩
    · obtain ⟨h1, h2⟩ := List.append_eq_nil.mp hc
      have hk : k = 0 := by
        cases k with
        | zero => rfl
        | succ k => simp [List.replicate_succ] at h1
      subst hk
      subst h2
      rw [hq]
      simp [joinSlash, splitSlash, cleanStep]
    · have hall : ∀ n ∈ a :: rest, n ≠ [] ∧ '/' ∉ n := by
        intro n hn
        rw [← hc] at hn
        rcases List.mem_append.mp hn with h | h
        · rw [List.eq_of_mem_replicate h]
          exact ⟨by simp, by decide⟩
        · exact ⟨(hnames n h).1, (hnames n h).2.2.2⟩
      obtain ⟨hane, haslash⟩ := hall a (List.mem_cons_self _ _)
      obtain ⟨c, cs, hacs⟩ := List.exists_cons_of_ne_nil hane
      obtain ⟨tail, htail⟩ := joinSlash_head rest a c cs hacs
      have hcslash : c ≠ '/' := by
        intro h
        apply haslash
        rw [hacs, h]
        exact List.mem_cons_self _ _
      have hout : joinSlash (a :: rest) ≠ [] := by
        rw [htail]
        simp
      rw [hc, if_neg hout] at hq
      rw [hq]
      refine ⟨hout, ?_, ?_⟩
      · rw [htail]
        simp [hcslash]
      · rw [splitSlash_joinSlash (a :: rest) (by simp) (fun n hn => (hall n hn).2), ← hc,
          List.foldl_append, foldl_cleanStep_dotdots k 0,
          foldl_cleanStep_names false ns hnames3]
        simp

/-- What `Clean` returns is a path that `Clean` reads back into the state it was written
from: the same rootedness and, element by element, the same state of the loop. -/
theorem cleanChars_state (p : List Char) (hp : p ≠ []) :
    cleanChars p ≠ [] ∧
    decide ((cleanChars p).head? = some '/') = decide (p.head? = some '/') ∧
    (splitSlash (cleanChars p)).foldl (cleanStep (decide (p.head? = some '/'))) (0, []) =
      (splitSlash p).foldl (cleanStep (decide (p.head? = some '/'))) (0, []) := by
  have hgood := foldl_cleanStep_keeps_names (decide (p.head? = some '/')) (splitSlash p)
    (mem_splitSlash p) (0, []) (fun n hn => by simp at hn) (fun _ => rfl)
  have hq : cleanChars p =
      if (if decide (p.head? = some '/') then ['/'] else []) ++
          joinSlash (List.replicate
            ((splitSlash p).foldl (cleanStep (decide (p.head? = some '/'))) (0, [])).1
              ['.', '.'] ++
            ((splitSlash p).foldl (cleanStep (decide (p.head? = some '/'))) (0, [])).2) = []
      then ['.']
      else (if decide (p.head? = some '/') then ['/'] else []) ++
          joinSlash (List.replicate
            ((splitSlash p).foldl (cleanStep (decide (p.head? = some '/'))) (0, [])).1
              ['.', '.'] ++
            ((splitSlash p).foldl (cleanStep (decide (p.head? = some '/'))) (0, [])).2) := by
    unfold cleanChars
    rw [if_neg hp]
  exact cleanChars_state_aux (decide (p.head? = some '/'))
    ((splitSlash p).foldl (cleanStep (decide (p.head? = some '/'))) (0, [])).1
    ((splitSlash p).foldl (cleanStep (decide (p.head? = some '/'))) (0, [])).2
    hgood.1 hgood.2 (cleanChars p) hq

/-- Cleaning a path before a plain name is appended to it changes nothing in the end. -/
theorem cleanChars_cleaned_append (p x : List Char) (hp : p ≠ [])
    (h1 : x ≠ []) (h2 : x ≠ ['.']) (h3 : x ≠ ['.', '.']) (h4 : '/' ∉ x) :
    cleanChars (cleanChars p ++ '/' :: x) = cleanChars (p ++ '/' :: x) := by
  obtain ⟨hne, hroot, hstate⟩ := cleanChars_state p hp
  rw [cleanChars_append_name (cleanChars p) x hne h1 h2 h3 h4,
    cleanChars_append_name p x hp h1 h2 h3 h4, hroot, hstate]

theorem cleanChars_ne_nil (p : List Char) : cleanChars p ≠ [] := by
  by_cases hp : p = []
  · simp [cleanChars, hp]
  · exact (cleanChars_state p hp).1

theorem filepathClean_ne_empty (path : String) : filepathClean path ≠ "" := by
  intro h
  have := congrArg String.toList h
  exact cleanChars_ne_nil path.toList this

theorem filepathJoin_pair (a b : String) (ha : a ≠ "") :
    filepathJoin [a, b] = filepathClean (a ++ "/" ++ b) := by
  simp [filepathJoin, List.dropWhile, ha, String.intercalate, String.intercalate.go]

theorem toList_append_name (a x : String) :
    (a ++ "/" ++ x).toList = a.toList ++ '/' :: x.toList := by
  simp [String.toList]

theorem filepathClean_cleaned_append (a x : String) (ha : a ≠ "")
    (h1 : x.toList ≠ []) (h2 : x.toList ≠ ['.']) (h3 : x.toList ≠ ['.', '.'])
    (h4 : '/' ∉ x.toList) :
    filepathClean (filepathClean a ++ "/" ++ x) = filepathClean (a ++ "/" ++ x) := by
  have hne : a.toList ≠ [] := by
    intro h
    apply ha
    exact String.ext h
  unfold filepathClean
  rw [toList_append_name, toList_append_name]
  show String.mk (cleanChars (cleanChars a.toList ++ '/' :: x.toList)) = _
  rw [cleanChars_cleaned_append a.toList x.toList hne h1 h2 h3 h4]

theorem filepathClean_clean_append (a x : String) (hclean : filepathClean a = a)
    (hroot : a ≠ "/") (hdot : a ≠ ".")
    (h1 : x.toList ≠ []) (h2 : x.toList ≠ ['.']) (h3 : x.toList ≠ ['.', '.'])
    (h4 : '/' ∉ x.toList) :
    filepathClean (a ++ "/" ++ x) = a ++ "/" ++ x := by
  have hc : cleanChars a.toList = a.toList := congrArg String.toList hclean
  have hr : a.toList ≠ ['/'] := fun h => hroot (String.ext h)
  have hd : a.toList ≠ ['.'] := fun h => hdot (String.ext h)
  unfold filepathClean
  rw [toList_append_name, cleanChars_clean_append a.toList x.toList hc hr hd h1 h2 h3 h4]
  apply String.ext
  exact (toList_append_name a x).symm

/-- C13: `NewNode` requires an application path.  For every options value,
`NewNode("", options)` returns no node and an error whose text is
`"node app path is required"`, with no configuration default set and no bootstrap call.  For
a non-empty path the dependencies are bootstrapped exactly once, and the node options handed
over have data directory `filepath.Join(appPath, ".mysterium")`, storage directory
`filepath.Join(data, "db")`, keystore directory `filepath.Join(data, "keystore")` and runtime
directory `appPath`.  These are the paths `appPath/.mysterium`, `appPath/.mysterium/db` and
`appPath/.mysterium/keystore` as `filepath.Clean` writes them, and they are these very
strings whenever `appPath` is itself a clean path other than `/` and `.`. -/
theorem NewNode_app_path (env : BootEnv) (options : MobileNodeOptions) :
    (∃ err, NewNode env "" options = ((none, some err), []) ∧
      err.Error = "node app path is required") ∧
    (∀ appPath, appPath ≠ "" →
      ∃ nodeOptions defaults,
        (NewNode env appPath options).2 = defaults ++ [.Bootstrap nodeOptions] ∧
        (∀ c ∈ defaults, ∃ flag value, c = BootCall.SetDefault flag value) ∧
        nodeOptions.Directories.Data = filepathJoin [appPath, ".mysterium"] ∧
        nodeOptions.Directories.Storage =
          filepathJoin [filepathJoin [appPath, ".mysterium"], "db"] ∧
        nodeOptions.Directories.Keystore =
          filepathJoin [filepathJoin [appPath, ".mysterium"], "keystore"] ∧
        nodeOptions.Directories.Runtime = appPath ∧
        nodeOptions.Directories.Data = filepathClean (appPath ++ "/.mysterium") ∧
        nodeOptions.Directories.Storage = filepathClean (appPath ++ "/.mysterium/db") ∧
        nodeOptions.Directories.Keystore =
          filepathClean (appPath ++ "/.mysterium/keystore") ∧
        (filepathClean appPath = appPath → appPath ≠ "/" → appPath ≠ "." →
          nodeOptions.Directories.Data = appPath ++ "/.mysterium" ∧
          nodeOptions.Directories.Storage = appPath ++ "/.mysterium/db" ∧
          nodeOptions.Directories.Keystore = appPath ++ "/.mysterium/keystore")) ∧
    (mobileNodeOptions env "/tmp/app/" options).Directories =
      { Data := "/tmp/app/.mysterium"
        Storage := "/tmp/app/.mysterium/db"
        Keystore := "/tmp/app/.mysterium/keystore"
        Script := ""
        Runtime := "/tmp/app/" } := by
  refine ⟨?_, ?_, ?_⟩
  · exact ⟨.new 0 "node app path is required", by simp [NewNode], rfl⟩
  · intro appPath hne
    have hdata : filepathJoin [appPath, ".mysterium"] =
        filepathClean (appPath ++ "/" ++ ".mysterium") := filepathJoin_pair _ _ hne
    have hsub : ∀ x : String, filepathJoin [filepathJoin [appPath, ".mysterium"], x] =
        filepathClean (filepathClean (appPath ++ "/" ++ ".mysterium") ++ "/" ++ x) := by
      intro x
      rw [hdata]
      exact filepathJoin_pair _ _ (filepathClean_ne_empty _)
    have hlen : (appPath ++ "/" ++ ".mysterium").length = appPath.length + 11 := by
      simp only [String.length_append]
      rfl
    have hpath : appPath ++ "/" ++ ".mysterium" ≠ "" := by
      intro h
      have := congrArg String.length h
      rw [hlen] at this
      exact absurd this (by simp)
    have hassoc : ∀ x : String,
        appPath ++ "/" ++ ".mysterium" ++ "/" ++ x = appPath ++ ("/.mysterium/" ++ x) := by
      intro x
      simp only [String.append_assoc]
      rfl
    have hstorage : filepathJoin [filepathJoin [appPath, ".mysterium"], "db"] =
        filepathClean (appPath ++ "/.mysterium/db") := by
      rw [hsub, filepathClean_cleaned_append _ "db" hpath (by decide) (by decide) (by decide)
        (by decide), hassoc]
      rfl
    have hkeystore : filepathJoin [filepathJoin [appPath, ".mysterium"], "keystore"] =
        filepathClean (appPath ++ "/.mysterium/keystore") := by
      rw [hsub, filepathClean_cleaned_append _ "keystore" hpath (by decide) (by decide)
        (by decide) (by decide), hassoc]
      rfl
    refine ⟨mobileNodeOptions env appPath options,
      [.SetDefault .FlagChainID (.int options.ChainID),
       .SetDefault .FlagKeepConnectedOnFail (.bool true),
       .SetDefault .FlagDefaultCurrency env.DefaultCurrency,
       .SetDefault .FlagPaymentsConsumerPricePerGBUpperBound env.PricePerGIBMax,
       .SetDefault .FlagPaymentsConsumerPricePerGBLowerBound env.PricePerGIBMin,
       .SetDefault .FlagPaymentsConsumerPricePerMinuteUpperBound env.PricePerMinuteMax,
       .SetDefault .FlagPaymentsConsumerPricePerMinuteLowerBound env.PricePerMinuteMin],
      ?_, ?_, rfl, rfl, rfl, rfl, ?_, ?_, ?_, ?_⟩
    · cases hB : env.Bootstrap (mobileNodeOptions env appPath options) <;>
        simp [NewNode, hne, hB]
    · intro c hc
      simp only [List.mem_cons, List.mem_singleton, List.mem_nil_iff, or_false] at hc
      rcases hc with h | h | h | h | h | h | h <;> exact ⟨_, _, h⟩
    · show filepathJoin [appPath, ".mysterium"] = _
      rw [hdata, String.append_assoc]
      rfl
    · exact hstorage
    · exact hkeystore
    · intro hclean hroot hdot
      have h1 : filepathClean (appPath ++ "/" ++ ".mysterium") =
          appPath ++ "/" ++ ".mysterium" :=
        filepathClean_clean_append appPath ".mysterium" hclean hroot hdot (by decide)
          (by decide) (by decide) (by decide)
      have hroot2 : appPath ++ "/" ++ ".mysterium" ≠ "/" := by
        intro h
        have := congrArg String.length h
        rw [hlen] at this
        have h1 : "/".length = 1 := rfl
        omega
      have hdot2 : appPath ++ "/" ++ ".mysterium" ≠ "." := by
        intro h
        have := congrArg String.length h
        rw [hlen] at this
        have h1 : ".".length = 1 := rfl
        omega
      refine ⟨?_, ?_, ?_⟩
      · show filepathJoin [appPath, ".mysterium"] = _
        rw [hdata, h1, String.append_assoc]
        rfl
      · show filepathJoin [filepathJoin [appPath, ".mysterium"], "db"] = _
        rw [hsub, h1, filepathClean_clean_append _ "db" h1 hroot2 hdot2 (by decide)
          (by decide) (by decide) (by decide), hassoc]
        rfl
      · show filepathJoin [filepathJoin [appPath, ".mysterium"], "keystore"] = _
        rw [hsub, h1, filepathClean_clean_append _ "keystore" h1 hroot2 hdot2 (by decide)
          (by decide) (by decide) (by decide), hassoc]
        rfl
  · have h1 : filepathJoin ["/tmp/app/", ".mysterium"] = "/tmp/app/.mysterium" := by decide
    have h2 : filepathJoin ["/tmp/app/.mysterium", "db"] = "/tmp/app/.mysterium/db" := by
      decide
    have h3 : filepathJoin ["/tmp/app/.mysterium", "keystore"] =
        "/tmp/app/.mysterium/keystore" := by
      decide
    simp [mobileNodeOptions, h1, h2, h3]

theorem NewNode_e2e :
    (NewNode sampleBootEnv "/tmp/mobileEntryPoint" e2eMobileNodeOptions).1 =
      (some { chainID := 5 }, none) ∧
    (mobileNodeOptions sampleBootEnv "/tmp/mobileEntryPoint" e2eMobileNodeOptions).Directories =
      { Data := "/tmp/mobileEntryPoint/.mysterium"
        Storage := "/tmp/mobileEntryPoint/.mysterium/db"
        Keystore := "/tmp/mobileEntryPoint/.mysterium/keystore"
        Script := ""
        Runtime := "/tmp/mobileEntryPoint" } := by
  decide

/-! ## Theorems: `bootstrapServices` -/

theorem bootstrapServiceComponents_never_fails (di : Dependencies) (nodeOptions : Options) :
    (bootstrapServiceComponents di nodeOptions).2 = none ∧
    (bootstrapServiceComponents di nodeOptions).1.calls.filter isRegisterService =
      di.calls.filter isRegisterService := by
  simp [bootstrapServiceComponents, List.filter_append, isRegisterService]

/-- C14: `bootstrapServices` loads the service components only for a provider.  With
`Consumer = true` it returns nil and leaves `di` as it was: no component is bootstrapped and
no service registered.  With `Consumer = false`: whenever the components step returns an
error, that error comes back wrapped with `"service bootstrap failed"` and no service is
registered after that step; when the step returns nil, exactly the openvpn, noop and
wireguard service types are registered, in that order, and nil is returned.  The second case
is the one the code takes: `bootstrapServiceComponents` returns nil on every path. -/
theorem bootstrapServices_spec (di : Dependencies) (nodeOptions : Options) :
    (nodeOptions.Consumer = true → bootstrapServices di nodeOptions = (di, none)) ∧
    (nodeOptions.Consumer = false →
      (∀ components di1 err, components di nodeOptions = (di1, some err) →
        bootstrapServicesWith components di nodeOptions =
          (di1, some (.wrap "service bootstrap failed" err))) ∧
      (∀ components di1, components di nodeOptions = (di1, none) →
        (bootstrapServicesWith components di nodeOptions).2 = none ∧
        (bootstrapServicesWith components di nodeOptions).1.calls =
          di1.calls ++ [.RegisterService .openvpn, .RegisterService .noop,
            .RegisterService .wireguard]) ∧
      (bootstrapServices di nodeOptions).2 = none ∧
      (bootstrapServices di nodeOptions).1.calls =
        (bootstrapServiceComponents di nodeOptions).1.calls ++
          [.RegisterService .openvpn, .RegisterService .noop, .RegisterService .wireguard] ∧
      (bootstrapServices di nodeOptions).1.calls.filter isRegisterService =
        di.calls.filter isRegisterService ++
          [.RegisterService .openvpn, .RegisterService .noop, .RegisterService .wireguard]) := by
  constructor
  · intro h
    simp [bootstrapServices, bootstrapServicesWith, h]
  · intro h
    have hgen : ∀ components di1, components di nodeOptions = (di1, none) →
        (bootstrapServicesWith components di nodeOptions).2 = none ∧
        (bootstrapServicesWith components di nodeOptions).1.calls =
          di1.calls ++ [.RegisterService .openvpn, .RegisterService .noop,
            .RegisterService .wireguard] := by
      intro components di1 hc
      simp [bootstrapServicesWith, h, hc, bootstrapServiceOpenvpn, bootstrapServiceNoop,
        bootstrapServiceWireguard]
    have hrun := hgen bootstrapServiceComponents (bootstrapServiceComponents di nodeOptions).1
      (by simp [bootstrapServiceComponents])
    refine ⟨?_, hgen, hrun.1, hrun.2, ?_⟩
    · intro components di1 err hc
      simp [bootstrapServicesWith, h, hc]
    · have hcalls := hrun.2
      unfold bootstrapServices
      rw [hcalls, List.filter_append, (bootstrapServiceComponents_never_fails di nodeOptions).2]
      simp [isRegisterService]

theorem bootstrapServices_sample :
    (bootstrapServices emptyDependencies sampleProviderOptions).1.calls =
      [.NewNATService, .EnableNATService, .NewServiceRegistry, .NewSessionPool,
       .NewPolicyOracle, .StartPolicyOracle, .NewHermesStatusChecker 0, .NewServicesManager,
       .SubscribeServiceCleaner, .RegisterService .openvpn, .RegisterService .noop,
       .RegisterService .wireguard] := by
  decide

/-! ## Theorems: the transactor endpoints -/

theorem totalPages_least (pageSize n : Nat) (hpos : 0 < pageSize) :
    n ≤ pageSize * totalPages pageSize n ∧
    ∀ k, n ≤ pageSize * k → totalPages pageSize n ≤ k := by
  unfold totalPages
  constructor
  · have h1 := Nat.div_add_mod (n + pageSize - 1) pageSize
    have h2 := Nat.mod_lt (n + pageSize - 1) hpos
    omega
  · intro k hk
    have h3 : n + pageSize - 1 < pageSize * (k + 1) := by
      rw [Nat.mul_succ]
      omega
    have h4 := (Nat.div_lt_iff_lt_mul hpos).mpr (by rwa [Nat.mul_comm] at h3)
    omega

theorem paginate_entry {α : Type} (pageSize : Nat) (l : List α) (i : Nat)
    (hpos : 0 < pageSize) :
    (paginate pageSize (i / pageSize + 1) l)[i % pageSize]? = l[i]? := by
  unfold paginate
  have hlt : i % pageSize < pageSize := Nat.mod_lt i hpos
  rw [List.getElem?_take_of_lt hlt, List.getElem?_drop]
  have h : (i / pageSize + 1 - 1) * pageSize + i % pageSize = i := by
    rw [Nat.add_sub_cancel, Nat.mul_comm]
    exact Nat.div_add_mod i pageSize
  rw [h]

theorem SettlementHistory_test :
    SettlementHistory testEndpointEnv NewSettlementListQuery =
      .ok [("items", .objects
            [[("tx_hash", .str "0x88af51047ff2da1e3626722fe239f70c3ddd668f067b2ac8d67b280d2eff39f7"),
              ("provider_id", .str ""),
              ("hermes_id", .str "0x0000000000000000000000000000000000000000"),
              ("channel_address", .str "0x0000000000000000000000000000000000000000"),
              ("beneficiary", .str "0x4443189b9B945dD38e7bfB6167F9909451582EE5"),
              ("amount", .num 123),
              ("settled_at", .str "2020-01-02T03:04:05Z"),
              ("fees", .num 20)],
             [("tx_hash", .str "0x9eea5c4da8a67929d5dd5d8b6dedb3bd44e7bd3ec299f8972f3212db8afb938a"),
              ("provider_id", .str ""),
              ("hermes_id", .str "0x0000000000000000000000000000000000000000"),
              ("channel_address", .str "0x0000000000000000000000000000000000000000"),
              ("beneficiary", .str "0x0000000000000000000000000000000000000000"),
              ("amount", .num 456),
              ("settled_at", .str "2020-06-07T08:09:10Z"),
              ("fees", .num 50)]]),
           ("page", .scalar (.num 1)),
           ("page_size", .scalar (.num 50)),
           ("total_items", .scalar (.num 2)),
           ("total_pages", .scalar (.num 1))] := by
  decide

theorem paginate_pages {α : Type} (pageSize : Nat) (l : List α) (m : Nat) :
    (List.range m).flatMap (fun k => paginate pageSize (k + 1) l) = l.take (m * pageSize) := by
  induction m with
  | zero => simp
  | succ m ih =>
    rw [List.range_succ, List.flatMap_append, ih]
    simp only [List.flatMap_cons, List.flatMap_nil, List.append_nil, paginate,
      Nat.add_sub_cancel]
    rw [Nat.succ_mul, List.take_add]

theorem paginate_all {α : Type} (pageSize : Nat) (l : List α) (hpos : 0 < pageSize) :
    (List.range (totalPages pageSize l.length)).flatMap
      (fun k => paginate pageSize (k + 1) l) = l := by
  rw [paginate_pages]
  apply List.take_of_length_le
  have := (totalPages_least pageSize l.length hpos).1
  rwa [Nat.mul_comm] at this

theorem SettlementHistory_page_items (env : EndpointEnv) (q : SettlementListQuery)
    (entries : List SettlementHistoryEntry)
    (hList : env.List (ToFilter env q) = (entries, none)) (page : Nat) :
    SettlementHistory env { q with Page := page } =
      .ok (settlementListResponse { q with Page := page } entries) ∧
    (SettlementHistory env { q with Page := page }).items =
      (paginate q.PageSize page entries).map settlementToJSON := by
  have hfilter : ToFilter env { q with Page := page } = ToFilter env q := rfl
  have hrun : SettlementHistory env { q with Page := page } =
      .ok (settlementListResponse { q with Page := page } entries) := by
    simp [SettlementHistory, hfilter, hList]
  refine ⟨hrun, ?_⟩
  rw [hrun]
  simp [HistoryResponse.items, settlementListResponse, List.lookup]

/-- C15: for every list of entries the store returns, the settlement history endpoint
returns one item per entry in the same order: the items of the pages 1 to `total_pages`, one
page after the other, are the records of the entries in order, entry `i` being item
`i mod page_size` of page `i / page_size + 1`; a response holds the items of one page, at
most `page_size` of them, so all of them when the entries fit one page.  Each item has
exactly the keys `tx_hash`, `provider_id`, `hermes_id`, `channel_address`, `beneficiary`,
`amount`, `settled_at`, `fees`, and the envelope exactly the keys `items`, `page`,
`page_size`, `total_items`, `total_pages`, where `page` and `page_size` are those asked for,
`total_items` is the number of entries and `total_pages` the least number of pages of that
size that hold them.  Without paging parameters the page is 1 and the page size 50. -/
theorem SettlementHistory_pages (env : EndpointEnv) (q : SettlementListQuery)
    (entries : List SettlementHistoryEntry)
    (hList : env.List (ToFilter env q) = (entries, none)) (hsize : 0 < q.PageSize) :
    (List.range (totalPages q.PageSize entries.length)).flatMap
        (fun k => (SettlementHistory env { q with Page := k + 1 }).items) =
      entries.map settlementToJSON ∧
    (∀ i, (SettlementHistory env { q with Page := i / q.PageSize + 1 }).items[i % q.PageSize]? =
      (entries.map settlementToJSON)[i]?) ∧
    (∀ page, (SettlementHistory env { q with Page := page }).items.length ≤ q.PageSize) ∧
    (entries.length ≤ q.PageSize →
      (SettlementHistory env { q with Page := 1 }).items = entries.map settlementToJSON) ∧
    (∀ page, ∀ item ∈ (SettlementHistory env { q with Page := page }).items,
      item.keys = ["tx_hash", "provider_id", "hermes_id", "channel_address", "beneficiary",
        "amount", "settled_at", "fees"]) ∧
    (∀ page,
      (SettlementHistory env { q with Page := page }).keys =
        ["items", "page", "page_size", "total_items", "total_pages"] ∧
      (SettlementHistory env { q with Page := page }).field "page" = some (.num page) ∧
      (SettlementHistory env { q with Page := page }).field "page_size" =
        some (.num q.PageSize) ∧
      (SettlementHistory env { q with Page := page }).field "total_items" =
        some (.num entries.length) ∧
      (SettlementHistory env { q with Page := page }).field "total_pages" =
        some (.num (totalPages q.PageSize entries.length))) ∧
    entries.length ≤ q.PageSize * totalPages q.PageSize entries.length ∧
    (∀ k, entries.length ≤ q.PageSize * k → totalPages q.PageSize entries.length ≤ k) ∧
    NewSettlementListQuery.Page = 1 ∧ NewSettlementListQuery.PageSize = 50 ∧
    (q = NewSettlementListQuery →
      (SettlementHistory env q).field "page" = some (.num 1) ∧
      (SettlementHistory env q).field "page_size" = some (.num 50) ∧
      (SettlementHistory env q).field "total_items" = some (.num entries.length) ∧
      (SettlementHistory env q).field "total_pages" =
        some (.num (totalPages 50 entries.length)) ∧
      (SettlementHistory env q).items = (entries.take 50).map settlementToJSON) := by
  have hpage := SettlementHistory_page_items env q entries hList
  have hpages := totalPages_least q.PageSize entries.length hsize
  refine ⟨?_, ?_, ?_, ?_, ?_, ?_, hpages.1, hpages.2, rfl, rfl, ?_⟩
  · have hfun : (fun k => (SettlementHistory env { q with Page := k + 1 }).items) =
        fun k => (paginate q.PageSize (k + 1) entries).map settlementToJSON := by
      funext k
      exact (hpage (k + 1)).2
    rw [hfun, ← List.map_flatMap, paginate_all q.PageSize entries hsize]
  · intro i
    rw [(hpage _).2, List.getElem?_map, List.getElem?_map,
      paginate_entry q.PageSize entries i hsize]
  · intro page
    rw [(hpage page).2, List.length_map]
    unfold paginate
    rw [List.length_take]
    exact Nat.min_le_left _ _
  · intro hlen
    rw [(hpage 1).2]
    unfold paginate
    simp [List.take_of_length_le hlen]
  · intro page item hitem
    rw [(hpage page).2, List.mem_map] at hitem
    obtain ⟨e, _, he⟩ := hitem
    rw [← he]
    rfl
  · intro page
    rw [(hpage page).1]
    exact ⟨rfl, rfl, rfl, rfl, rfl⟩
  · intro hq
    subst hq
    have h1 := hpage 1
    have hq1 : ({ NewSettlementListQuery with Page := 1 } : SettlementListQuery) =
        NewSettlementListQuery := rfl
    rw [hq1] at h1
    rw [h1.2, h1.1]
    refine ⟨rfl, rfl, rfl, rfl, ?_⟩
    simp [paginate, NewSettlementListQuery]

theorem SettlementHistory_pages_witness :
    testEndpointEnv.List (ToFilter testEndpointEnv NewSettlementListQuery) =
      (testHistoryEntries, none) ∧
    0 < NewSettlementListQuery.PageSize ∧
    (List.range (totalPages NewSettlementListQuery.PageSize testHistoryEntries.length)).flatMap
        (fun k =>
          (SettlementHistory testEndpointEnv
            { NewSettlementListQuery with Page := k + 1 }).items) =
      testHistoryEntries.map settlementToJSON ∧
    (SettlementHistory testEndpointEnv NewSettlementListQuery).field "total_pages" =
      some (.num (totalPages 50 testHistoryEntries.length)) :=
  ⟨rfl, by decide,
    (SettlementHistory_pages testEndpointEnv NewSettlementListQuery testHistoryEntries rfl
      (by decide)).1,
    ((SettlementHistory_pages testEndpointEnv NewSettlementListQuery testHistoryEntries rfl
      (by decide)).2.2.2.2.2.2.2.2.2.2 rfl).2.2.2.1⟩

theorem SettlementHistory_two_pages :
    (crowdedEndpointEnv.List (ToFilter crowdedEndpointEnv NewSettlementListQuery)).1.length =
      51 ∧
    (SettlementHistory crowdedEndpointEnv NewSettlementListQuery).items.length = 50 ∧
    (SettlementHistory crowdedEndpointEnv
      { NewSettlementListQuery with Page := 2 }).items.length = 1 ∧
    (SettlementHistory crowdedEndpointEnv NewSettlementListQuery).field "total_items" =
      some (.num 51) ∧
    (SettlementHistory crowdedEndpointEnv NewSettlementListQuery).field "total_pages" =
      some (.num 2) := by
  decide

theorem UTCTime_le_end_of_day (t : UTCTime) (d : Date)
    (hy : t.Year = d.Year) (hm : t.Month = d.Month) (hd : t.Day = d.Day)
    (hh : t.Hour ≤ 23) (hmi : t.Minute ≤ 59) (hs : t.Second ≤ 59) :
    t.le { Year := d.Year, Month := d.Month, Day := d.Day,
           Hour := 23, Minute := 59, Second := 59 } = true ∧
    UTCTime.le { Year := d.Year, Month := d.Month, Day := d.Day,
                 Hour := 0, Minute := 0, Second := 0 } t = true := by
  constructor
  · simp only [UTCTime.le, hy, hm, hd, lt_self_iff_false, decide_False, decide_True,
      Bool.true_and, Bool.false_or, Bool.or_eq_true, decide_eq_true_eq, Bool.and_eq_true]
    omega
  · simp only [UTCTime.le, hy, hm, hd, lt_self_iff_false, decide_False, decide_True,
      Bool.true_and, Bool.false_or, Bool.or_eq_true, decide_eq_true_eq, Bool.and_eq_true]
    omega

theorem ToFilter_test :
    ToFilter testEndpointEnv testFilterQuery =
      { TimeFrom := some { Year := 2020, Month := 9, Day := 19,
                           Hour := 0, Minute := 0, Second := 0 }
        TimeTo := some { Year := 2020, Month := 9, Day := 20,
                         Hour := 23, Minute := 59, Second := 59 }
        ProviderID := some (testEndpointEnv.FromAddress "0xab1")
        HermesID := some (testEndpointEnv.HexToAddress "0xaB2") } := by
  decide

/-- C16: the settlement history endpoint turns its query into the storage filter so that
`to` is inclusive through end-of-day.  For every `date_from = D1` the `TimeFrom` of the
filter is `D1` at 00:00:00 UTC, and for every `date_to = D2` its `TimeTo` is `D2` at 23:59:59
UTC, so that every instant of the day `D2` is within the upper bound and every instant of
the day `D1` within the lower one; `provider_id` becomes the identity `FromAddress` builds
and `hermes_id` the address `HexToAddress` builds; an absent parameter leaves its field
unset. -/
theorem ToFilter_spec (env : EndpointEnv) (q : SettlementListQuery) :
    (∀ d, q.DateFrom = some d →
      (ToFilter env q).TimeFrom =
        some { Year := d.Year, Month := d.Month, Day := d.Day,
               Hour := 0, Minute := 0, Second := 0 }) ∧
    (∀ d, q.DateTo = some d →
      (ToFilter env q).TimeTo =
        some { Year := d.Year, Month := d.Month, Day := d.Day,
               Hour := 23, Minute := 59, Second := 59 }) ∧
    (∀ (d : Date) (bound t : UTCTime), q.DateTo = some d →
      (ToFilter env q).TimeTo = some bound →
      t.Year = d.Year → t.Month = d.Month → t.Day = d.Day →
      t.Hour ≤ 23 → t.Minute ≤ 59 → t.Second ≤ 59 → t.le bound = true) ∧
    (∀ (d : Date) (bound t : UTCTime), q.DateFrom = some d →
      (ToFilter env q).TimeFrom = some bound →
      t.Year = d.Year → t.Month = d.Month → t.Day = d.Day →
      t.Hour ≤ 23 → t.Minute ≤ 59 → t.Second ≤ 59 → bound.le t = true) ∧
    (∀ id, q.ProviderID = some id → (ToFilter env q).ProviderID = some (env.FromAddress id)) ∧
    (∀ h, q.HermesID = some h → (ToFilter env q).HermesID = some (env.HexToAddress h)) ∧
    (q.DateFrom = none → (ToFilter env q).TimeFrom = none) ∧
    (q.DateTo = none → (ToFilter env q).TimeTo = none) ∧
    (q.ProviderID = none → (ToFilter env q).ProviderID = none) ∧
    (q.HermesID = none → (ToFilter env q).HermesID = none) := by
  refine ⟨?_, ?_, ?_, ?_, ?_, ?_, ?_, ?_, ?_, ?_⟩
  · intro d h
    simp [ToFilter, h]
  · intro d h
    simp [ToFilter, h]
  · intro d bound t h hb hy hm hd hh hmi hs
    simp only [ToFilter, h, Option.map_some', Option.some.injEq] at hb
    rw [← hb]
    exact (UTCTime_le_end_of_day t d hy hm hd hh hmi hs).1
  · intro d bound t h hb hy hm hd hh hmi hs
    simp only [ToFilter, h, Option.map_some', Option.some.injEq] at hb
    rw [← hb]
    exact (UTCTime_le_end_of_day t d hy hm hd hh hmi hs).2
  · intro id h
    simp [ToFilter, h]
  · intro hx h
    simp [ToFilter, h]
  · intro h
    simp [ToFilter, h]
  · intro h
    simp [ToFilter, h]
  · intro h
    simp [ToFilter, h]
  · intro h
    simp [ToFilter, h]

/-- C17, as amended: the fees response carries exactly the four fields `registration`,
`settlement`, `hermes` and `decreaseStake`, with `hermes` equal to the hermes fee of the
settler and `registration`, `settlement` and `decreaseStake` equal to the fees of the
transactor. -/
theorem TransactorFees_fields (transactor : TransactorFeeSet) (hermesFee : Nat) :
    (TransactorFees transactor hermesFee).keys =
      ["registration", "settlement", "hermes", "decreaseStake"] ∧
    (TransactorFees transactor hermesFee).lookup "registration" =
      some (.num transactor.Registration) ∧
    (TransactorFees transactor hermesFee).lookup "settlement" =
      some (.num transactor.Settlement) ∧
    (TransactorFees transactor hermesFee).lookup "hermes" = some (.num hermesFee) ∧
    (TransactorFees transactor hermesFee).lookup "decreaseStake" =
      some (.num transactor.DecreaseStake) := by
  refine ⟨rfl, ?_, ?_, ?_, ?_⟩ <;> simp [TransactorFees, List.lookup]

/-- C17, as stated, fails: in the test `Test_Get_TransactorFees` (every transactor fee is
1, the hermes fee of the settler is 11) the response is
`registration 1, settlement 1, hermes 11, decreaseStake 1`: a fourth field next to the
three fees. -/
theorem TransactorFees_has_fourth_field :
    TransactorFees { Registration := 1, Settlement := 1, DecreaseStake := 1 } 11 =
      [("registration", .num 1), ("settlement", .num 1), ("hermes", .num 11),
       ("decreaseStake", .num 1)] ∧
    (TransactorFees { Registration := 1, Settlement := 1, DecreaseStake := 1 } 11).keys ≠
      ["registration", "settlement", "hermes"] := by
  decide

/-! ## Theorems: the payment engine -/

theorem receivePromise_accepted (cfg : EngineConfig) (e : PaymentEngine) (p : Promise) :
    ((e.receivePromise cfg p).2 ≠ none ∧ (e.receivePromise cfg p).1.accepted = e.accepted) ∨
    ((e.receivePromise cfg p).2 = none ∧
      (e.receivePromise cfg p).1.accepted = e.accepted ++ [p] ∧
      e.lastAmount p.ChannelID ≤ p.Amount) := by
  unfold PaymentEngine.receivePromise
  by_cases h0 : e.state = .Settled
  · simp [h0]
  · rcases hi : e.issued with _ | invoice
    · simp [h0]
    · by_cases h1 : cfg.references p invoice = true
      · by_cases h2 : cfg.verifySignature p = true
        · by_cases h3 : p.Amount < e.lastAmount p.ChannelID
          · simp [h0, h1, h2, h3]
          · by_cases h4 : p.Amount - e.lastAmount p.ChannelID > cfg.MaxUnpaidInvoiceValue
            · simp [h0, h1, h2, h3, h4]
            · rcases ho : e.outstanding with _ | current
              · simp [h0, h1, h2, h3, h4]
              · refine Or.inr ?_
                simp only [h0, h1, h2, h3, h4, if_false, Bool.not_true, Bool.false_eq_true,
                  and_self, true_and]
                omega
        · simp [h0, h1, h2]
      · simp [h0, h1]

theorem channelAmounts_append (e : PaymentEngine) (p : Promise) (channel : String)
    (e1 : PaymentEngine) (h : e1.accepted = e.accepted ++ [p]) :
    e1.channelAmounts channel =
      e.channelAmounts channel ++ (if p.ChannelID = channel then [p.Amount] else []) := by
  unfold PaymentEngine.channelAmounts
  rw [h, List.filter_append, List.map_append]
  by_cases hc : p.ChannelID = channel <;> simp [hc]

theorem step_keeps_monotone (cfg : EngineConfig) (e : PaymentEngine) (ev : EngineEvent)
    (hinv : ∀ channel, List.Chain' (· ≤ ·) (e.channelAmounts channel)) :
    ∀ channel, List.Chain' (· ≤ ·) ((e.step cfg ev).channelAmounts channel) := by
  intro channel
  cases ev with
  | tick invoice =>
    have hacc : (e.tick invoice).accepted = e.accepted := by
      unfold PaymentEngine.tick
      split <;> rfl
    have : (e.tick invoice).channelAmounts channel = e.channelAmounts channel := by
      unfold PaymentEngine.channelAmounts
      rw [hacc]
    simpa [PaymentEngine.step, this] using hinv channel
  | promise p =>
    rcases receivePromise_accepted cfg e p with ⟨_, hacc⟩ | ⟨_, hacc, hle⟩
    · have : (e.receivePromise cfg p).1.channelAmounts channel = e.channelAmounts channel := by
        unfold PaymentEngine.channelAmounts
        rw [hacc]
      simpa [PaymentEngine.step, this] using hinv channel
    · have hamounts := channelAmounts_append e p channel (e.receivePromise cfg p).1 hacc
      show List.Chain' (· ≤ ·) ((e.receivePromise cfg p).1.channelAmounts channel)
      rw [hamounts]
      by_cases hc : p.ChannelID = channel
      · simp only [hc, if_true]
        refine List.Chain'.append (hinv channel) (List.chain'_singleton _) ?_
        intro x hx y hy
        simp only [List.head?_cons, Option.mem_def, Option.some.injEq] at hy
        subst hy
        have hlast : e.lastAmount channel = x := by
          unfold PaymentEngine.lastAmount
          rw [Option.mem_def.mp hx]
          rfl
        rw [hc] at hle
        omega
      · simpa [hc] using hinv channel

theorem run_keeps_monotone (cfg : EngineConfig) (events : List EngineEvent) :
    ∀ e : PaymentEngine, (∀ channel, List.Chain' (· ≤ ·) (e.channelAmounts channel)) →
      ∀ channel, List.Chain' (· ≤ ·) ((e.run cfg events).channelAmounts channel) := by
  induction events with
  | nil =>
    intro e hinv
    simpa [PaymentEngine.run] using hinv
  | cons ev rest ih =>
    intro e hinv
    have := ih (e.step cfg ev) (step_keeps_monotone cfg e ev hinv)
    simpa [PaymentEngine.run] using this

theorem receivePromise_issued (cfg : EngineConfig) (e : PaymentEngine) (p : Promise) :
    (e.receivePromise cfg p).1.issued = e.issued := by
  unfold PaymentEngine.receivePromise
  by_cases h0 : e.state = .Settled
  · simp [h0]
  · rcases hi : e.issued with _ | invoice
    · simp [h0, hi]
    · rcases ho : e.outstanding with _ | current <;>
        by_cases h1 : cfg.references p invoice = true <;>
        by_cases h2 : cfg.verifySignature p = true <;>
        by_cases h3 : p.Amount < e.lastAmount p.ChannelID <;>
        by_cases h4 : p.Amount - e.lastAmount p.ChannelID > cfg.MaxUnpaidInvoiceValue <;>
        simp [h0, hi, h1, h2, h3, h4]

theorem step_keeps_agreement (cfg : EngineConfig) (e : PaymentEngine) (ev : EngineEvent)
    (hinv : e.issued = none → e.accepted = []) :
    (e.step cfg ev).issued = none → (e.step cfg ev).accepted = [] := by
  cases ev with
  | tick invoice =>
    show (e.tick invoice).issued = none → (e.tick invoice).accepted = []
    unfold PaymentEngine.tick
    split
    · intro h
      cases h
    · exact hinv
  | promise p =>
    show (e.receivePromise cfg p).1.issued = none → (e.receivePromise cfg p).1.accepted = []
    rw [receivePromise_issued]
    intro hnone
    rcases receivePromise_accepted cfg e p with ⟨_, hacc⟩ | ⟨hok, _, _⟩
    · rw [hacc]
      exact hinv hnone
    · exfalso
      revert hok
      unfold PaymentEngine.receivePromise
      by_cases h0 : e.state = .Settled
      · simp [h0]
      · simp [h0, hnone]

theorem run_keeps_agreement (cfg : EngineConfig) (events : List EngineEvent) :
    ∀ e : PaymentEngine, (e.issued = none → e.accepted = []) →
      (e.run cfg events).issued = none → (e.run cfg events).accepted = [] := by
  induction events with
  | nil =>
    intro e hinv
    simpa [PaymentEngine.run] using hinv
  | cons ev rest ih =>
    intro e hinv
    have := ih (e.step cfg ev) (step_keeps_agreement cfg e ev hinv)
    simpa [PaymentEngine.run] using this

theorem lastAmount_pos_accepted (e : PaymentEngine) (channel : String)
    (h : 0 < e.lastAmount channel) : e.accepted ≠ [] := by
  intro hnil
  unfold PaymentEngine.lastAmount PaymentEngine.channelAmounts at h
  rw [hnil] at h
  simp at h

/-- C18: for any channel and any sequence of invoice ticks and offered promises, the
amounts of the promises the payment engine accepted for that channel form a non-decreasing
sequence.  A promise whose amount is smaller than the last accepted amount of its channel is
always rejected and not persisted.  In a running session, after any sequence of events, such
a promise of the agreement of the session is rejected as `InvalidPromise` and the session is
torn down, whether or not an invoice is outstanding; the cause is the non-monotonic amount
when its signature verifies.  So it is in the scenario of the specification: one invoice of
total 100, a promise of 50, accepted, then a promise of 40. -/
theorem accepted_promises_monotone (cfg : EngineConfig) :
    (∀ (events : List EngineEvent) (channel : String),
      List.Pairwise (· ≤ ·)
        ((PaymentEngine.start.run cfg events).channelAmounts channel)) ∧
    (∀ (e : PaymentEngine) (p : Promise), p.Amount < e.lastAmount p.ChannelID →
      (e.receivePromise cfg p).2 ≠ none ∧
      (e.receivePromise cfg p).1.accepted = e.accepted) ∧
    (∀ (events : List EngineEvent) (p : Promise),
      (PaymentEngine.start.run cfg events).state ≠ .Settled →
      p.Amount < (PaymentEngine.start.run cfg events).lastAmount p.ChannelID →
      ∃ invoice, (PaymentEngine.start.run cfg events).issued = some invoice ∧
        (cfg.references p invoice = true →
          ∃ err, (PaymentEngine.start.run cfg events).receivePromise cfg p =
              ({ PaymentEngine.start.run cfg events with state := .Settled }, some err) ∧
            err.isInvalidPromise = true ∧
            (cfg.verifySignature p = true → err = .InvalidPromiseNonMonotonic))) ∧
    (PaymentEngine.start.run sampleEngineConfig
        [.tick sampleInvoice, .promise (samplePromise 50)]).accepted = [samplePromise 50] ∧
    (PaymentEngine.start.run sampleEngineConfig
        [.tick sampleInvoice, .promise (samplePromise 50)]).receivePromise
        sampleEngineConfig (samplePromise 40) =
      ({ state := .Settled, outstanding := none, issued := some sampleInvoice,
         accepted := [samplePromise 50] },
       some .InvalidPromiseNonMonotonic) := by
  refine ⟨?_, ?_, ?_, by decide, by decide⟩
  · intro events channel
    have hstart : ∀ c, List.Chain' (· ≤ ·) (PaymentEngine.start.channelAmounts c) := by
      intro c
      simp [PaymentEngine.start, PaymentEngine.channelAmounts]
    exact List.chain'_iff_pairwise.mp (run_keeps_monotone cfg events _ hstart channel)
  · intro e p hlt
    rcases receivePromise_accepted cfg e p with h | ⟨_, _, hle⟩
    · exact h
    · omega
  · intro events p h0 hlt
    have hacc := lastAmount_pos_accepted _ p.ChannelID (Nat.lt_of_le_of_lt (Nat.zero_le _) hlt)
    rcases hi : (PaymentEngine.start.run cfg events).issued with _ | invoice
    · exact absurd (run_keeps_agreement cfg events _ (fun _ => rfl) hi) hacc
    · refine ⟨invoice, rfl, ?_⟩
      intro h1
      by_cases h2 : cfg.verifySignature p = true
      · refine ⟨.InvalidPromiseNonMonotonic, ?_, rfl, fun _ => rfl⟩
        simp [PaymentEngine.receivePromise, h0, hi, h1, h2, hlt]
      · refine ⟨.InvalidPromiseSignature, ?_, rfl, fun h => absurd h h2⟩
        simp [PaymentEngine.receivePromise, h0, hi, h1, h2]

theorem promise_scenario :
    (PaymentEngine.start.run sampleEngineConfig
        [.tick sampleInvoice, .promise (samplePromise 50)]) =
      { state := .Idle, outstanding := none, issued := some sampleInvoice,
        accepted := [samplePromise 50] } ∧
    (PaymentEngine.start.run sampleEngineConfig
        [.tick sampleInvoice, .promise (samplePromise 50),
         .promise (samplePromise 40)]).channelAmounts "0xchannel" = [50] ∧
    (PaymentEngine.start.run sampleEngineConfig
        [.tick sampleInvoice, .promise (samplePromise 50),
         .promise (samplePromise 40)]).state = .Settled ∧
    ((PaymentEngine.start.run sampleEngineConfig
        [.tick sampleInvoice, .promise (samplePromise 50)]).receivePromise
        sampleEngineConfig (samplePromise 60)).2 = some .NoInvoiceOutstanding ∧
    ((PaymentEngine.start.run sampleEngineConfig
        [.tick sampleInvoice, .promise (samplePromise 50), .tick sampleInvoice]).receivePromise
        sampleEngineConfig (samplePromise 40)).2 = some .InvalidPromiseNonMonotonic ∧
    (PaymentEngine.start.run sampleEngineConfig
        [.tick sampleInvoice, .promise (samplePromise 100)]) =
      { state := .Idle, outstanding := none, issued := some sampleInvoice,
        accepted := [samplePromise 100] } := by
  decide

/-! ## Theorems: the promise settler -/

theorem needsSettling_iff (threshold : ℚ) (ch : HermesChannel) :
    needsSettling threshold ch = true ↔
      (ch.unsettled : ℚ) / (ch.Balance : ℚ) ≥ threshold := by
  simp [needsSettling]

/-- C19: an idle channel is settled automatically exactly when
`unsettled/Balance ≥ Threshold`: the pass goes through `Triggered` and submits the
unsettled amount if and only if the ratio reaches the threshold, and otherwise leaves the
settler as it was.  A triggered settlement that is confirmed appends one history entry whose
`Amount` is the unsettled amount; one that times out or fails appends nothing.  With
threshold `0.1` and balance 1000, 50 unsettled triggers nothing, and 150 unsettled triggers a
settlement whose confirmation appends an entry with `Amount = 150`. -/
theorem settlePass_threshold (s : PromiseSettlerState) (ch : HermesChannel)
    (outcome : SettleOutcome) (hIdle : s.state = .Idle) :
    ((settlePass s ch false outcome).2 ≠ [] ↔
      (ch.unsettled : ℚ) / (ch.Balance : ℚ) ≥ s.Threshold) ∧
    ((ch.unsettled : ℚ) / (ch.Balance : ℚ) ≥ s.Threshold →
      (settlePass s ch false outcome).1.submitted = s.submitted ++ [ch.unsettled] ∧
      (settlePass s ch false outcome).2.head? = some .Triggered) ∧
    (¬ (ch.unsettled : ℚ) / (ch.Balance : ℚ) ≥ s.Threshold →
      (settlePass s ch false outcome).1.submitted = s.submitted ∧
      (settlePass s ch false outcome).1.history = s.history ∧
      (settlePass s ch false outcome).2 = []) ∧
    (∀ txHash channelAddress beneficiary fees settledAt,
      (ch.unsettled : ℚ) / (ch.Balance : ℚ) ≥ s.Threshold →
      (settlePass s ch false
          (.Confirmed txHash channelAddress beneficiary fees settledAt)).1.history =
        s.history ++
          [{ TxHash := txHash, ProviderID := ch.Identity, HermesID := ch.HermesID
             ChannelAddress := channelAddress, Beneficiary := beneficiary
             Amount := ch.unsettled, Fees := fees, Time := settledAt }]) ∧
    ((settlePass s ch false .TimedOut).1.history = s.history ∧
      ∀ cause, (settlePass s ch false (.Failed cause)).1.history = s.history) ∧
    (s.Threshold = 1 / 10 → ch.Balance = 1000 →
      (ch.unsettled = 50 → (settlePass s ch false outcome).2 = [] ∧
        (settlePass s ch false outcome).1.submitted = s.submitted) ∧
      (ch.unsettled = 150 →
        (settlePass s ch false outcome).1.submitted = s.submitted ++ [150] ∧
        ∀ txHash channelAddress beneficiary fees settledAt,
          (settlePass s ch false
              (.Confirmed txHash channelAddress beneficiary fees settledAt)).1.history =
            s.history ++
              [{ TxHash := txHash, ProviderID := ch.Identity, HermesID := ch.HermesID
                 ChannelAddress := channelAddress, Beneficiary := beneficiary
                 Amount := 150, Fees := fees, Time := settledAt }])) := by
  have hyes : ∀ o, (ch.unsettled : ℚ) / (ch.Balance : ℚ) ≥ s.Threshold →
      settlePass s ch false o =
        match o with
        | .Confirmed txHash channelAddress beneficiary fees settledAt =>
          ({ s with
              submitted := s.submitted ++ [ch.unsettled]
              history := s.history ++
                [{ TxHash := txHash, ProviderID := ch.Identity, HermesID := ch.HermesID
                   ChannelAddress := channelAddress, Beneficiary := beneficiary
                   Amount := ch.unsettled, Fees := fees, Time := settledAt }] },
           [.Triggered, .Submitted, .Confirmed, .Idle])
        | .TimedOut =>
          ({ s with submitted := s.submitted ++ [ch.unsettled] },
           [.Triggered, .Submitted, .TimedOut, .Idle])
        | .Failed _ =>
          ({ s with submitted := s.submitted ++ [ch.unsettled] },
           [.Triggered, .Submitted, .Failed, .Idle]) := by
    intro o h
    have hn : needsSettling s.Threshold ch = true := (needsSettling_iff _ _).mpr h
    cases o <;> simp [settlePass, hIdle, hn]
  have hno : ∀ o, ¬ (ch.unsettled : ℚ) / (ch.Balance : ℚ) ≥ s.Threshold →
      settlePass s ch false o = (s, []) := by
    intro o h
    have hn : needsSettling s.Threshold ch = false := by
      rw [Bool.eq_false_iff]
      exact fun hh => h ((needsSettling_iff _ _).mp hh)
    simp [settlePass, hIdle, hn]
  refine ⟨?_, ?_, ?_, ?_, ?_, ?_⟩
  · constructor
    · intro hne
      by_contra hcon
      rw [hno outcome hcon] at hne
      exact hne rfl
    · intro h
      rw [hyes outcome h]
      cases outcome <;> simp
  · intro h
    rw [hyes outcome h]
    cases outcome <;> simp
  · intro h
    rw [hno outcome h]
    exact ⟨rfl, rfl, rfl⟩
  · intro txHash channelAddress beneficiary fees settledAt h
    rw [hyes _ h]
  · by_cases h : (ch.unsettled : ℚ) / (ch.Balance : ℚ) ≥ s.Threshold
    · refine ⟨by rw [hyes _ h], fun cause => by rw [hyes _ h]⟩
    · refine ⟨by rw [hno _ h], fun cause => by rw [hno _ h]⟩
  · intro hT hB
    constructor
    · intro hu
      have h : ¬ (ch.unsettled : ℚ) / (ch.Balance : ℚ) ≥ s.Threshold := by
        rw [hT, hB, hu]
        norm_num
      rw [hno outcome h]
      exact ⟨rfl, rfl⟩
    · intro hu
      have h : (ch.unsettled : ℚ) / (ch.Balance : ℚ) ≥ s.Threshold := by
        rw [hT, hB, hu]
        norm_num
      refine ⟨?_, ?_⟩
      · rw [hyes outcome h, hu]
        cases outcome <;> rfl
      · intro txHash channelAddress beneficiary fees settledAt
        rw [hyes _ h, hu]
        simp

theorem settlePass_threshold_witness :
    sampleSettler.state = .Idle ∧
    (settlePass sampleSettler (sampleChannel 50) false .TimedOut).2 = [] ∧
    (settlePass sampleSettler (sampleChannel 150) false
        (.Confirmed "0xtx" "0xchannel" "0xbeneficiary" 3
          { Year := 2020, Month := 1, Day := 2, Hour := 3, Minute := 4, Second := 5 })).1.history =
      [{ TxHash := "0xtx", ProviderID := { Address := "0xprovider" }, HermesID := "0xhermes"
         ChannelAddress := "0xchannel", Beneficiary := "0xbeneficiary"
         Amount := 150, Fees := 3
         Time := { Year := 2020, Month := 1, Day := 2, Hour := 3, Minute := 4, Second := 5 } }] :=
  ⟨rfl,
    (((settlePass_threshold sampleSettler (sampleChannel 50) .TimedOut rfl).2.2.2.2.2
      rfl rfl).1 rfl).1,
    (((settlePass_threshold sampleSettler (sampleChannel 150) .TimedOut rfl).2.2.2.2.2
      rfl rfl).2 rfl).2 _ _ _ _ _⟩

/-! ## Theorems: the identity registrar -/

theorem registerAttempts_success (outcome : Nat → AttemptOutcome) (attempts : Nat) :
    ∀ (last : Option GoError) (st : RegistrarState),
      (registerAttempts outcome attempts last st).1 = none →
      (registerAttempts outcome attempts last st).2.status = .Registered := by
  induction attempts with
  | zero =>
    intro last st h
    simp [registerAttempts] at h
  | succ n ih =>
    intro last st h
    unfold registerAttempts at h ⊢
    cases ho : outcome st.submitted with
    | registered => simp [ho]
    | failed cause =>
      simp only [ho] at h ⊢
      exact ih _ _ h

/-- C20: registration is idempotent.  `Register` on an identity whose status is already
`Registered` returns success and leaves the registrar as it was: no registration transaction
is submitted, whatever the number of retries so far, the retry budget and the behaviour of
the chain.  In particular, after any `Register` that returned success, a second `Register`
returns success and submits nothing. -/
theorem Register_idempotent (cfg : ProviderRegistrarConfig) (outcome : Nat → AttemptOutcome) :
    (∀ st : RegistrarState, st.status = .Registered →
      Register cfg outcome st = (none, st) ∧
      (Register cfg outcome st).2.submitted = st.submitted) ∧
    (∀ (cfg0 : ProviderRegistrarConfig) (outcome0 : Nat → AttemptOutcome)
        (st0 : RegistrarState),
      (Register cfg0 outcome0 st0).1 = none →
      Register cfg outcome (Register cfg0 outcome0 st0).2 =
        (none, (Register cfg0 outcome0 st0).2)) := by
  have hnoop : ∀ st : RegistrarState, st.status = .Registered →
      Register cfg outcome st = (none, st) := by
    intro st h
    simp [Register, h]
  refine ⟨fun st h => ⟨hnoop st h, by rw [hnoop st h]⟩, ?_⟩
  intro cfg0 outcome0 st0 hok
  apply hnoop
  unfold Register at hok ⊢
  by_cases h : st0.status = .Registered
  · simp [h]
  · simp only [h, if_false] at hok ⊢
    exact registerAttempts_success outcome0 _ _ _ hok

theorem Register_sample :
    Register { IsTestnet2 := true, MaxRetries := 3, Stake := some 0, DelayBetweenRetries := 0 }
        (fun n => if n < 2 then .failed (.new 31 "rpc unavailable") else .registered)
        { status := .Unregistered, submitted := 0, retries := 0 } =
      (none, { status := .Registered, submitted := 3, retries := 2 }) ∧
    Register { IsTestnet2 := true, MaxRetries := 2, Stake := some 0, DelayBetweenRetries := 0 }
        (fun n => if n < 2 then .failed (.new 31 "rpc unavailable") else .registered)
        { status := .Unregistered, submitted := 0, retries := 0 } =
      (some (.wrap "RegistrationFailed" (.new 31 "rpc unavailable")),
       { status := .RegistrationError, submitted := 2, retries := 2 }) ∧
    Register { IsTestnet2 := true, MaxRetries := 3, Stake := some 0, DelayBetweenRetries := 0 }
        (fun _ => .failed (.new 31 "rpc unavailable"))
        { status := .Registered, submitted := 3, retries := 2 } =
      (none, { status := .Registered, submitted := 3, retries := 2 }) := by
  decide

/-! ## Theorems: error paths of `register` and `settle` -/

/-- C21, evaluated on the code: for a stake argument that is not a base-10 integer the
`register` command warns `"could not parse stake"` and then calls `RegisterIdentity` all the
same, with a nil stake.  So it does for `register 0xabc 12x`, and for every address and every
unparsable stake, with or without the two later arguments. -/
theorem registerIdentity_unparsable_stake :
    registerIdentity sampleCliEnv ["0xabc", "12x"] =
      ([Out.warn [.str "could not parse stake"],
        Out.callRegisterIdentity "0xabc" "" none none,
        Out.info [.str "Registration started. Topup the identities channel to finish it."],
        Out.info [.str ("To explore additional information about the identity use: " ++
          usageGetIdentity)]], Exit.returned) ∧
    (∀ (env : CliEnv) (address stake : String) (later : List String),
      bigIntSetString stake = none → later.length ≤ 2 →
      Out.warn [.str "could not parse stake"] ∈
        (registerIdentity env (address :: stake :: later)).1 ∧
      (registerIdentity env (address :: stake :: later)).1.filter isCall =
        [Out.callRegisterIdentity address (later[0]?.getD "") none later[1]?]) := by
  constructor
  · decide
  · intro env address stake later hs hlen
    have hguard : (decide ((address :: stake :: later).length < 1) ||
        decide ((address :: stake :: later).length > 4)) = false := by
      simp only [List.length_cons, Bool.or_eq_false_iff, decide_eq_false_iff_not]
      omega
    unfold registerIdentity
    rw [hguard]
    cases hR : env.RegisterIdentity address (later[0]?.getD "") none later[1]? <;>
      simp [hs, hR, isCall]

/-- C22, evaluated on the code: called with no argument while `GetTransactorFees` fails, the
`settle` command prints the usage and the warning `"could not get transactor fee: "`, and
then reads the fees of the failed result all the same.  With the zero value of the fees it
dereferences the nil `Settlement` and panics; with fees returned next to the error it prints
both fee figures.  The same holds for every argument count other than 1. -/
theorem settle_reads_failed_fees :
    settle failingFeesEnv [] [] =
      ([Out.info [.str ("Usage: " ++ usageSettle)], Out.callGetTransactorFees,
        Out.warn [.str "could not get transactor fee: ", .err (.new 4 "connection refused")]],
       Exit.panicked) ∧
    settle staleFeesEnv [] [] =
      ([Out.info [.str ("Usage: " ++ usageSettle)], Out.callGetTransactorFees,
        Out.warn [.str "could not get transactor fee: ", .err (.new 4 "connection refused")],
        Out.info [.str "Transactor fee: 5e-18 MYST"],
        Out.info [.str "Hermes fee: 2e-18 MYST"]],
       Exit.returned) ∧
    (∀ (env : CliEnv) (args : List String) (sched : List SettleSelect) (err : GoError),
      args.length ≠ 1 → env.GetTransactorFees.2 = some err →
      (env.GetTransactorFees.1.Settlement = none →
        settle env args sched =
          ([Out.info [.str ("Usage: " ++ usageSettle)], Out.callGetTransactorFees,
            Out.warn [.str "could not get transactor fee: ", .err err]], Exit.panicked)) ∧
      (∀ settlement, env.GetTransactorFees.1.Settlement = some settlement →
        settle env args sched =
          ([Out.info [.str ("Usage: " ++ usageSettle)], Out.callGetTransactorFees,
            Out.warn [.str "could not get transactor fee: ", .err err],
            Out.info [.str ("Transactor fee: " ++ env.mystString settlement ++ " MYST")],
            Out.info [.str ("Hermes fee: " ++
              env.mystString (Int.ofNat env.GetTransactorFees.1.Hermes) ++ " MYST")]],
           Exit.returned))) := by
  refine ⟨by decide, by decide, ?_⟩
  intro env args sched err hlen herr
  constructor
  · intro hnil
    match args, hlen with
    | [], _ => simp [settle, herr, hnil]
    | [_], h => exact absurd rfl h
    | _ :: _ :: _, _ => simp [settle, herr, hnil]
  · intro settlement hsome
    match args, hlen with
    | [], _ => simp [settle, herr, hsome]
    | [_], h => exact absurd rfl h
    | _ :: _ :: _, _ => simp [settle, herr, hsome]

/-! ## Theorems: the promise settler wiring in both modes -/

/-- C25: for every node options value, when `bootstrapHermesPromiseSettler` returns nil the
`HermesPromiseSettler` dependency is the no-op settler if `Consumer` is true and, if
`Consumer` is false, the real settler, whose `Subscribe` was called and returned nil before
it was stored; in both modes the channel repository was created, stored and subscribed.  When
it returns an error the `HermesPromiseSettler` dependency is the one held before. -/
theorem bootstrapHermesPromiseSettler_outcomes (env : DIEnv) (di : Dependencies)
    (nodeOptions : Options) :
    ((bootstrapHermesPromiseSettler env di nodeOptions).2 = none →
      (nodeOptions.Consumer = true →
        (bootstrapHermesPromiseSettler env di nodeOptions).1.HermesPromiseSettler =
          some .noop ∧
        (bootstrapHermesPromiseSettler env di nodeOptions).1.calls =
          di.calls ++ [.NewHermesChannelRepository, .SubscribeChannelRepository]) ∧
      (nodeOptions.Consumer = false →
        ∃ cfg, (bootstrapHermesPromiseSettler env di nodeOptions).1.HermesPromiseSettler =
            some (.settler cfg) ∧
          env.SubscribePromiseSettler cfg = none ∧
          (bootstrapHermesPromiseSettler env di nodeOptions).1.calls =
            di.calls ++ [.NewHermesChannelRepository, .SubscribeChannelRepository,
              .NewHermesPromiseSettler cfg, .SubscribePromiseSettler cfg]) ∧
      (bootstrapHermesPromiseSettler env di nodeOptions).1.HermesChannelRepository =
        some {} ∧
      env.SubscribeChannelRepository {} = none) ∧
    ((bootstrapHermesPromiseSettler env di nodeOptions).2 ≠ none →
      (bootstrapHermesPromiseSettler env di nodeOptions).1.HermesPromiseSettler =
        di.HermesPromiseSettler) ∧
    (∀ err, env.SubscribeChannelRepository {} = some err →
      (bootstrapHermesPromiseSettler env di nodeOptions).2 =
        some (.wrap "could not subscribe channel repository to relevant events" err)) := by
  rcases h1 : env.SubscribeChannelRepository {} with _ | e1
  · by_cases hc : nodeOptions.Consumer = true
    · simp [bootstrapHermesPromiseSettler, h1, hc]
    · have hc2 : nodeOptions.Consumer = false := by simpa using hc
      rcases h2 : env.SubscribePromiseSettler
          { Threshold := nodeOptions.Payments.HermesPromiseSettlingThreshold
            MaxWaitForSettlement := nodeOptions.Payments.SettlementTimeout } with _ | e2
      · refine ⟨fun _ => ⟨by simp [hc2], fun _ => ?_, ?_, rfl⟩, ?_, by simp⟩
        · exact ⟨_, by simp [bootstrapHermesPromiseSettler, h1, hc2, h2], h2,
            by simp [bootstrapHermesPromiseSettler, h1, hc2, h2]⟩
        · simp [bootstrapHermesPromiseSettler, h1, hc2, h2]
        · simp [bootstrapHermesPromiseSettler, h1, hc2, h2]
      · simp [bootstrapHermesPromiseSettler, h1, hc2, h2]
  · simp [bootstrapHermesPromiseSettler, h1]

/-! ## Theorems: the mobile node is a consumer -/

/-- C26, as amended: for every application path and every `MobileNodeOptions`, the node
options `NewNode` bootstraps have `Consumer = true` and `TequilapiEnabled = false`.
Consequently, on those options `bootstrapServices` registers no service and changes nothing,
`bootstrapProviderRegistrar` builds no registrar and changes nothing, and
`bootstrapHermesPromiseSettler` never builds the real settler and installs the no-op settler
whenever it returns nil, that is whenever the channel repository subscribes; when that
subscription fails it returns the error and installs no settler. -/
theorem NewNode_consumer_options (env : BootEnv) (appPath : String)
    (options : MobileNodeOptions) (nodeOptions : Options)
    (hBoot : BootCall.Bootstrap nodeOptions ∈ (NewNode env appPath options).2) :
    nodeOptions.Consumer = true ∧ nodeOptions.TequilapiEnabled = false ∧
    (∀ di, bootstrapServices di nodeOptions = (di, none)) ∧
    (∀ denv di, bootstrapProviderRegistrar denv di nodeOptions = (di, none)) ∧
    (∀ denv di, (bootstrapHermesPromiseSettler denv di nodeOptions).2 = none →
      (bootstrapHermesPromiseSettler denv di nodeOptions).1.HermesPromiseSettler =
        some .noop) ∧
    (∀ denv di, denv.SubscribeChannelRepository {} = none →
      bootstrapHermesPromiseSettler denv di nodeOptions =
        ({ di with
            HermesChannelRepository := some {}
            HermesPromiseSettler := some .noop
            calls := di.calls ++ [.NewHermesChannelRepository, .SubscribeChannelRepository] },
         none)) ∧
    (∀ denv di cfg, DICall.NewHermesPromiseSettler cfg ∈
        (bootstrapHermesPromiseSettler denv di nodeOptions).1.calls →
      DICall.NewHermesPromiseSettler cfg ∈ di.calls) ∧
    (∀ denv di err, denv.SubscribeChannelRepository {} = some err →
      (bootstrapHermesPromiseSettler denv di nodeOptions).2 =
        some (.wrap "could not subscribe channel repository to relevant events" err) ∧
      (bootstrapHermesPromiseSettler denv di nodeOptions).1.HermesPromiseSettler =
        di.HermesPromiseSettler) := by
  have hopts : nodeOptions = mobileNodeOptions env appPath options := by
    unfold NewNode at hBoot
    by_cases hp : appPath = ""
    · simp [hp] at hBoot
    · cases hB : env.Bootstrap (mobileNodeOptions env appPath options) <;>
        simpa [hp, hB] using hBoot
  have hcons : nodeOptions.Consumer = true := by
    rw [hopts]
    rfl
  refine ⟨hcons, by rw [hopts]; rfl, ?_, ?_, ?_, ?_, ?_, ?_⟩
  · intro di
    simp [bootstrapServices, bootstrapServicesWith, hcons]
  · intro denv di
    simp [bootstrapProviderRegistrar, hcons]
  · intro denv di
    rcases h1 : denv.SubscribeChannelRepository {} with _ | e1 <;>
      simp [bootstrapHermesPromiseSettler, h1, hcons]
  · intro denv di h1
    simp [bootstrapHermesPromiseSettler, h1, hcons]
  · intro denv di cfg
    rcases h1 : denv.SubscribeChannelRepository {} with _ | e1 <;>
      simp [bootstrapHermesPromiseSettler, h1, hcons]
  · intro denv di err h1
    simp [bootstrapHermesPromiseSettler, h1]

theorem NewNode_consumer_options_witness :
    BootCall.Bootstrap (mobileNodeOptions sampleBootEnv "/tmp/mobileEntryPoint"
        e2eMobileNodeOptions) ∈
      (NewNode sampleBootEnv "/tmp/mobileEntryPoint" e2eMobileNodeOptions).2 ∧
    (bootstrapHermesPromiseSettler sampleDIEnv emptyDependencies
        (mobileNodeOptions sampleBootEnv "/tmp/mobileEntryPoint"
          e2eMobileNodeOptions)).1.HermesPromiseSettler = some .noop :=
  ⟨by decide,
    (NewNode_consumer_options sampleBootEnv "/tmp/mobileEntryPoint" e2eMobileNodeOptions
      (mobileNodeOptions sampleBootEnv "/tmp/mobileEntryPoint" e2eMobileNodeOptions)
      (by decide)).2.2.2.2.1 sampleDIEnv emptyDependencies (by decide)⟩

/-- C26, as stated, fails: on the options `NewNode` bootstraps, when the channel
repository does not subscribe, `bootstrapHermesPromiseSettler` returns that error and
installs no settler at all. -/
theorem NewNode_options_failed_repository :
    BootCall.Bootstrap (mobileNodeOptions sampleBootEnv "/tmp/mobileEntryPoint"
        e2eMobileNodeOptions) ∈
      (NewNode sampleBootEnv "/tmp/mobileEntryPoint" e2eMobileNodeOptions).2 ∧
    bootstrapHermesPromiseSettler failingRepositoryDIEnv emptyDependencies
        (mobileNodeOptions sampleBootEnv "/tmp/mobileEntryPoint" e2eMobileNodeOptions) =
      ({ HermesChannelRepository := some {}
         HermesPromiseSettler := none
         ProviderRegistrar := none
         calls := [.NewHermesChannelRepository, .SubscribeChannelRepository] },
       some (.wrap "could not subscribe channel repository to relevant events"
         (.new 5 "topic is closed"))) := by
  decide

/-! ## Theorems: the `identities` dispatcher -/

theorem fieldsFrom_eq_nil (cs : List Char) :
    ∀ current : List Char,
      fieldsFrom cs current = [] ↔ current = [] ∧ ∀ c ∈ cs, isSpace c = true := by
  induction cs with
  | nil =>
    intro current
    by_cases h : current = [] <;> simp [fieldsFrom, h]
  | cons c rest ih =>
    intro current
    by_cases hs : isSpace c = true
    · by_cases h : current = []
      · simp [fieldsFrom, hs, h, ih]
      · simp [fieldsFrom, hs, h]
    · have hne : current ++ [c] ≠ [] := by simp
      simp [fieldsFrom, hs, ih, hne]

theorem stringsFields_eq_nil (s : String) :
    stringsFields s = [] ↔ ∀ c ∈ s.toList, isSpace c = true := by
  unfold stringsFields
  rw [List.map_eq_nil_iff, fieldsFrom_eq_nil]
  simp

/-- C23, evaluated on the code: the `identities` command is not total.  On a string of one
space `strings.Fields` yields no field and reading `args[0]` panics; so it does on every
non-empty string made of white space only.  Elsewhere the claim holds: the empty string
prints the usage, and a string with a character that is not white space has a first field,
which selects the handler of its `switch` case, called with the remaining fields in order,
or, in the `default` case, the warning `Unknown sub-command` followed by the usage. -/
theorem identities_dispatch :
    identities " " = ([], Exit.panicked) ∧
    identities "" = ([.info identitiesUsage], Exit.returned) ∧
    (∀ s : String, s ≠ "" → (∀ c ∈ s.toList, isSpace c = true) →
      identities s = ([], Exit.panicked)) ∧
    (∀ s : String, (∃ c ∈ s.toList, isSpace c = false) →
      ∃ action actionArgs, stringsFields s = action :: actionArgs ∧
        ((∃ h, identitiesSwitch action = some h ∧
            identities s = ([.handler h actionArgs], Exit.returned)) ∨
          (identitiesSwitch action = none ∧
            identities s =
              ([.warnf "Unknown sub-command '%s'\n" s, .println identitiesUsage],
               Exit.returned)))) := by
  refine ⟨by decide, by simp [identities], ?_, ?_⟩
  · intro s hne hall
    have hf : stringsFields s = [] := (stringsFields_eq_nil s).mpr hall
    simp [identities, hne, hf]
  · rintro s ⟨c, hc, hnot⟩
    have hne : s ≠ "" := by
      rintro rfl
      simp at hc
    have hf : stringsFields s ≠ [] := by
      intro h
      have := (stringsFields_eq_nil s).mp h c hc
      rw [hnot] at this
      exact Bool.false_ne_true this
    rcases hfs : stringsFields s with _ | ⟨action, actionArgs⟩
    · exact absurd hfs hf
    · refine ⟨action, actionArgs, rfl, ?_⟩
      rcases hsw : identitiesSwitch action with _ | h
      · exact Or.inr ⟨rfl, by simp [identities, hne, hfs, hsw]⟩
      · exact Or.inl ⟨h, rfl, by simp [identities, hne, hfs, hsw]⟩

theorem identitiesSwitch_accepts (action : String) :
    identitiesSwitch action ≠ none ↔ action ∈ acceptedActions := by
  unfold identitiesSwitch acceptedActions
  simp only [List.mem_cons, List.mem_singleton, List.mem_nil_iff, or_false]
  constructor
  · intro h
    by_contra hcon
    simp only [not_or] at hcon
    obtain ⟨h1, h2, h3, h4, h5, h6, h7, h8, h9, h10⟩ := hcon
    simp [h1, h2, h3, h4, h5, h6, h7, h8, h9, h10] at h
  · intro h
    split_ifs <;> simp_all

/-- C24, evaluated on the code: the usage text of the `identities` command does not list
every action.  The action `beneficiary` has a case in the `switch` and no line in the usage
text.  The actions listed under `Available actions:` are `list`, `get`, `new`, `unlock`,
`register`, `settle`, `referralcode`, `export` and `import`; each of them is accepted, and
they are all the accepted actions but `beneficiary`. -/
theorem usage_omits_beneficiary :
    identitiesSwitch "beneficiary" = some .setBeneficiary ∧
    "beneficiary" ∉ listedActions ∧
    (identities "beneficiary 0xid 0xnew").1 =
      [.handler .setBeneficiary ["0xid", "0xnew"]] ∧
    listedActions =
      ["list", "get", "new", "unlock", "register", "settle", "referralcode", "export",
       "import"] ∧
    (∀ action ∈ listedActions, identitiesSwitch action ≠ none) ∧
    (∀ action, identitiesSwitch action ≠ none ↔ action ∈ acceptedActions) ∧
    (∀ action ∈ acceptedActions, action ≠ "beneficiary" → action ∈ listedActions) := by
  refine ⟨by decide, by decide, by decide, by decide, by decide,
    identitiesSwitch_accepts, by decide⟩

/-! ## Theorems: the order-updated callback -/

theorem digitChar_spec :
    ∀ d : Fin 10, (digitChar d.val).isDigit = true ∧ (digitChar d.val).toNat - 48 = d.val := by
  decide

theorem decimalOf_isDigit (fuel : Nat) :
    ∀ n : Nat, ∀ c ∈ decimalOf fuel n, c.isDigit = true := by
  induction fuel with
  | zero =>
    intro n c hc
    simp [decimalOf] at hc
  | succ fuel ih =>
    intro n c hc
    unfold decimalOf at hc
    split_ifs at hc with hlt
    · rw [List.mem_singleton] at hc
      subst hc
      exact (digitChar_spec ⟨n, hlt⟩).1
    · rw [List.mem_append, List.mem_singleton] at hc
      rcases hc with hc | hc
      · exact ih _ c hc
      · subst hc
        exact (digitChar_spec ⟨n % 10, Nat.mod_lt _ (by decide)⟩).1

theorem decimalOf_ne_nil (fuel n : Nat) : decimalOf (fuel + 1) n ≠ [] := by
  unfold decimalOf
  split_ifs <;> simp

theorem decimalOf_foldl (fuel : Nat) :
    ∀ n : Nat, n < 10 ^ fuel →
      (decimalOf fuel n).foldl
        (fun acc c =>
          acc.bind fun n => if c.isDigit then some (n * 10 + (c.toNat - 48)) else none)
        (some 0) = some n := by
  induction fuel with
  | zero =>
    intro n hn
    have h0 : n = 0 := by simpa using hn
    subst h0
    simp [decimalOf]
  | succ fuel ih =>
    intro n hn
    unfold decimalOf
    split_ifs with hlt
    · have hd := digitChar_spec ⟨n, hlt⟩
      simp only [] at hd
      simp [hd.1, hd.2]
    · have hq : n / 10 < 10 ^ fuel := by
        rw [Nat.div_lt_iff_lt_mul (by decide)]
        rw [pow_succ] at hn
        exact hn
      have hd := digitChar_spec ⟨n % 10, Nat.mod_lt _ (by decide)⟩
      simp only [] at hd
      rw [List.foldl_append, ih _ hq]
      simp only [List.foldl_cons, List.foldl_nil, Option.some_bind, hd.1, hd.2, if_true]
      congr 1
      omega

theorem decimalDigits_decimalOf (fuel n : Nat) (hn : n < 10 ^ (fuel + 1)) :
    decimalDigits (decimalOf (fuel + 1) n) = some n := by
  have hf := decimalOf_foldl (fuel + 1) n hn
  rcases hcs : decimalOf (fuel + 1) n with _ | ⟨c, cs⟩
  · exact absurd hcs (decimalOf_ne_nil fuel n)
  · rw [hcs] at hf
    unfold decimalDigits
    exact hf

theorem parseInt64_formatUint (u : Nat) (hu : u < 2 ^ 64) :
    parseInt64 (formatUint u) =
      if 2 ^ 63 ≤ u then
        (Int.ofNat (2 ^ 63 - 1),
         some (.wrap ("strconv.ParseInt: parsing " ++ strconvQuote (formatUint u)) ErrRange))
      else (Int.ofNat u, none) := by
  have hlt : u < 10 ^ (19 + 1) := lt_trans hu (by norm_num)
  have hdig : decimalDigits (decimalOf 20 u) = some u := decimalDigits_decimalOf 19 u hlt
  have hall := decimalOf_isDigit 20 u
  have hmin : min u (2 ^ 64 - 1) = u := Nat.min_eq_left (by omega)
  rcases hcs : decimalOf 20 u with _ | ⟨c, cs⟩
  · exact absurd hcs (decimalOf_ne_nil 19 u)
  · have hc : c.isDigit = true := hall c (by rw [hcs]; exact List.mem_cons_self _ _)
    have hminus : c ≠ '-' := by
      rintro rfl
      exact absurd hc (by decide)
    have hplus : c ≠ '+' := by
      rintro rfl
      exact absurd hc (by decide)
    rw [hcs] at hdig
    unfold parseInt64 formatUint
    rw [hcs]
    have hsigned :
        (match (String.mk (c :: cs)).toList with
          | '-' :: cs => (true, cs)
          | '+' :: cs => (false, cs)
          | cs => (false, cs)) = (false, c :: cs) := by
      show (match c :: cs with
          | '-' :: cs => (true, cs)
          | '+' :: cs => (false, cs)
          | cs => (false, cs)) = (false, c :: cs)
      split
      · next h => exact absurd (List.cons.inj h).1 hminus
      · next h => exact absurd (List.cons.inj h).1 hplus
      · rfl
    simp only [hsigned, hdig, hmin]
    by_cases hge : 2 ^ 63 ≤ u
    · simp [hge]
    · simp [hge]

/-- C27: the function `shrinkUint64` keeps the value of an order ID or fails.  For every
`u` below `2 ^ 63` it returns the `int64` equal to `u` and no error; for every `uint64`
from `2 ^ 63` on it returns the range error of `strconv.ParseInt`; and for an event whose ID
makes it return an error the handler subscribed by `RegisterOrderUpdatedCallback` does not
call `OnUpdate`, while for an ID below `2 ^ 63` it calls it once with that ID. -/
theorem shrinkUint64_keeps_value :
    (∀ u : Nat, u < 2 ^ 63 → shrinkUint64 u = (Int.ofNat u, none)) ∧
    (∀ u : Nat, 2 ^ 63 ≤ u → u < 2 ^ 64 →
      shrinkUint64 u =
        (Int.ofNat (2 ^ 63 - 1),
         some (.wrap ("strconv.ParseInt: parsing " ++ strconvQuote (formatUint u)) ErrRange))) ∧
    (∀ e : AppEventOrderUpdated, (shrinkUint64 e.ID).2 ≠ none → orderUpdatedHandler e = []) ∧
    (∀ e : AppEventOrderUpdated, e.ID < 2 ^ 63 →
      orderUpdatedHandler e =
        [{ OrderID := Int.ofNat e.ID
           Status := e.Status
           PayAmount := e.PayAmount.getD { bits := 0 }
           PayCurrency := e.PayCurrency.getD "" }]) := by
  have hlow : ∀ u : Nat, u < 2 ^ 63 → shrinkUint64 u = (Int.ofNat u, none) := by
    intro u hu
    unfold shrinkUint64
    rw [parseInt64_formatUint u (by omega), if_neg (by omega)]
  refine ⟨hlow, ?_, ?_, ?_⟩
  · intro u hge hlt
    unfold shrinkUint64
    rw [parseInt64_formatUint u hlt, if_pos hge]
  · intro e herr
    unfold orderUpdatedHandler
    rcases hs : shrinkUint64 e.ID with ⟨id, _ | err⟩
    · rw [hs] at herr
      exact absurd rfl herr
    · rfl
  · intro e hlt
    unfold orderUpdatedHandler
    rw [hlow e.ID hlt]

theorem shrinkUint64_boundary :
    shrinkUint64 (2 ^ 63 - 1) = (9223372036854775807, none) ∧
    shrinkUint64 (2 ^ 63) =
      (9223372036854775807,
       some (.wrap "strconv.ParseInt: parsing \"9223372036854775808\"" ErrRange)) ∧
    (shrinkUint64 (2 ^ 63)).2.map GoError.Error =
      some "strconv.ParseInt: parsing \"9223372036854775808\": value out of range" := by
  decide

theorem filepathClean_examples :
    ["", "/", "a//b", "a/./b/..", "../a", "a/../..", "/../a", "/tmp/app/",
      "abc/def/../../..", "/abc/def/../../..", "abc/./../def", ".", "..",
      "../../a/b/../c", "abc//./../def", "abc/../../././../def", "//", "a/", "./a",
      "/.", "/.."].map filepathClean =
    [".", "/", "a/b", "a", "../a", "..", "/a", "/tmp/app",
      "..", "/", "def", ".", "..",
      "../../a/c", "def", "../../def", "/", "a", "a",
      "/", "/"] ∧
    filepathJoin ["/tmp/app/", ".mysterium"] = "/tmp/app/.mysterium" ∧
    filepathJoin ["", "a"] = "a" ∧ filepathJoin ["a", ""] = "a" ∧
    filepathJoin ["", ""] = "" ∧ filepathJoin [] = "" ∧
    filepathJoin ["/", "a"] = "/a" ∧ filepathJoin [".", ".mysterium"] = ".mysterium" ∧
    filepathJoin ["a", "", "b"] = "a/b" := by
  decide

end Node
